import Mathlib

/-!
# The Hurd terminal translator: character queues and the user-side entry points

A shallow embedding of `src/term/term.h` (the flow-controlled character queues)
and of the parts of `src/term/users.c` that sit on top of them, and of the flag
selection of `settrans` in `src/libhurdutil/settrans.c`, followed by the
properties proved about them.

Conventions of the embedding:

* C integers are `Int` values; conversions to a narrower type are written out
  (`toChar`, `toShort`, `toInt32`).  Plain `char` is the signed 8-bit type of the
  GNU/Hurd ABI, `short` is 16 bits, `int` is 32 bits.
* Bit-sets held in unsigned words (`termflags`, the `termios` flag words, open
  modes) are `Nat` values combined with `&&&` and `|||`.
* Pointers into a queue's cell array are offsets from `array`.
* Condition variables and calls that leave the translator are recorded as
  effects / trace events, in program order.
-/

namespace HurdTerm

/-! ## C integer conversions -/

/-- Conversion of an integer value to (signed, 8-bit) `char`. -/
def toChar (x : Int) : Int := (x + 128) % 256 - 128

/-- Conversion of an integer value to (signed, 16-bit) `short`. -/
def toShort (x : Int) : Int := (x + 32768) % 65536 - 32768

/-- Conversion of an integer value to (signed, 32-bit) `int`. -/
def toInt32 (x : Int) : Int := (x + 2147483648) % 4294967296 - 2147483648

/-- The 32-bit two's complement bit pattern of an `int` value. -/
def toU32 (x : Int) : Nat := (x % 4294967296).toNat

/-- The `int` value of a 32-bit two's complement bit pattern. -/
def ofU32 (n : Nat) : Int :=
  if n < 2147483648 then (n : Int) else (n : Int) - 4294967296

/-- The C operator `a & b` on `int` operands. -/
def int_and (a b : Int) : Int := ofU32 (toU32 a &&& toU32 b)

/-- The C operator `a | b` on `int` operands. -/
def int_or (a b : Int) : Int := ofU32 (toU32 a ||| toU32 b)

/-- The C operator `~a` on an `int` operand. -/
def int_not (a : Int) : Int := ofU32 (4294967295 - toU32 a)

/-! ## term.h: constants -/

def QUEUE_QUOTE_MARK : Int := 0xf000

def QUEUE_LOWAT : Int := 100

def QUEUE_HIWAT : Int := 300

def USER_OUTPUT_SUSP : Nat := 0x00000001

def TTY_OPEN : Nat := 0x00000002

def LAST_SLASH : Nat := 0x00000004

def LAST_LNEXT : Nat := 0x00000008

def INSIDE_HDERASE : Nat := 0x00000010

def SENT_VSTOP : Nat := 0x00000020

def FLUSH_OUTPUT : Nat := 0x00000040

def NO_CARRIER : Nat := 0x00000080

def EXCL_USE : Nat := 0x00000100

def NO_OWNER : Nat := 0x00000200

def ICKY_ASYNC : Nat := 0x00000400

def OTILDE : Nat := 0x00000400

/-! ## Constants of the system headers

The values below come from the GNU system headers (`<fcntl.h>`, `<termios.h>`,
`<errno.h>`, `<signal.h>`, `<mach/message.h>`), which are not part of the
translator's sources.  No proof below depends on a particular value except
where two error codes have to be told apart. -/

def O_READ : Nat := 0x0001

def O_WRITE : Nat := 0x0002

def O_NONBLOCK : Nat := 0x0008

def O_ASYNC : Nat := 0x0200

def TOSTOP : Nat := 0x00400000

def CLOCAL : Nat := 0x00008000

def EINTR : Nat := 0x40000004

def EIO : Nat := 0x40000005

def EBADF : Nat := 0x40000009

def EOPNOTSUPP : Nat := 0x4000002d

def EBACKGROUND : Nat := 0x40000064

def SIGIO : Nat := 23

def SIGHUP : Nat := 1

def SIGTSTP : Nat := 18

def EBUSY : Nat := 0x40000010

def EWOULDBLOCK : Nat := 0x40000023

def SELECT_READ : Nat := 0x00000001

def SELECT_WRITE : Nat := 0x00000002

def BRKINT : Nat := 0x00000002

def ICRNL : Nat := 0x00000100

def IXON : Nat := 0x00000200

def IXANY : Nat := 0x00000800

def IMAXBEL : Nat := 0x00002000

def OPOST : Nat := 0x00000001

def ONLCR : Nat := 0x00000002

def OXTABS : Nat := 0x00000004

def CS8 : Nat := 0x00000300

def CREAD : Nat := 0x00000800

def HUPCL : Nat := 0x00004000

def ECHOKE : Nat := 0x00000001

def ECHOE : Nat := 0x00000002

def ECHO : Nat := 0x00000008

def ECHOCTL : Nat := 0x00000040

def ISIG : Nat := 0x00000080

def ICANON : Nat := 0x00000100

def IEXTEN : Nat := 0x00000400

def VEOF : Nat := 0

def VEOL : Nat := 1

def VEOL2 : Nat := 2

def VDSUSP : Nat := 11

def NCCS : Nat := 20

def _POSIX_VDISABLE : Nat := 0xff

/-- The default control characters of `<sys/ttydefaults.h>`, in the order of
the `c_cc` indices. -/
def ttydefchars : List Nat :=
  [0x04, 0xff, 0xff, 0x7f, 0x17, 0x15, 0x12, 0xff, 0x03, 0x1c,
   0x1a, 0x19, 0x11, 0x13, 0x16, 0x0f, 1, 0, 0x14, 0xff]

/-- The macro `CCEQ (val, c)` of `<termios.h>`:
`((c) == (val) && (val) != _POSIX_VDISABLE)`, for a control character `val`
(a `cc_t`) and a `char` `c`. -/
def CCEQ (val : Nat) (c : Int) : Bool :=
  decide (c = (val : Int) ∧ val ≠ _POSIX_VDISABLE)

/-- The C update `x &= ~m` on a word of flags. -/
def clear_bits (x m : Nat) : Nat := x ^^^ (x &&& m)

def MACH_SEND_INVALID_DEST : Nat := 0x10000003

def ENXIO : Nat := 0x40000006

def ENOTTY : Nat := 0x40000019

def EXTPROC : Nat := 0x00000800

def O_APPEND : Nat := 0x0100

def O_FSYNC : Nat := 0x0400

def O_NOATIME : Nat := 0x0800

/-- The macro `HONORED_STATE_MODES` of users.c. -/
def HONORED_STATE_MODES : Nat := O_APPEND ||| O_ASYNC ||| O_FSYNC ||| O_NONBLOCK ||| O_NOATIME

/-! ## term.h: character queues -/

/-- The `struct queue` of term.h.  `cs` and `ce` are the offsets of the C
pointers of the same name from `array`; `array` holds the `quoted_char` cells.
The condition variable `wait` carries no data: broadcasts on it are reported
as effects. -/
structure queue where
  susp : Int
  lowat : Int
  hiwat : Int
  cs : Nat
  ce : Nat
  arraylen : Int
  array : List Int
deriving DecidableEq, Repr

/-- Which of the global queue pointers `inputq`, `rawq`, `outputq` a queue
argument is equal to (the inline functions compare their argument with
them). -/
inductive queue_id where
  | inputq
  | rawq
  | outputq
  | other
deriving DecidableEq, Repr

/-- What a queue operation does besides updating the queue. -/
inductive Effect where
  | condition_broadcast
  | call_asyncs (dir : Nat)
deriving DecidableEq, Repr

/-- Return the number of characters in Q: `q->ce - q->cs`. -/
def qsize (q : queue) : Int := (q.ce : Int) - (q.cs : Int)

/-- Return nonzero if characters can be added to Q: `!q->susp`. -/
def qavail (q : queue) : Int := if q.susp = 0 then 1 else 0

/-- Flush all the characters from Q. -/
def clear_queue (q : queue) : queue × List Effect :=
  ({ q with susp := 0, cs := 0, ce := 0 }, [Effect.condition_broadcast])

/-- Return the next character off Q; leave the quoting bit on.  The result is
`none` when `assert (qsize (q))` fails or the cell read lies outside the
array. -/
def dequeue_quote (q : queue) (id : queue_id) : Option (Int × queue × List Effect) :=
  if qsize q = 0 then none
  else
    let clear : Bool := decide (q.susp ≠ 0 ∧ qsize q < q.lowat)
    let q1 : queue := if clear then { q with susp := 0 } else q
    let beep : Bool := clear || decide (qsize q1 = 1)
    let effects : List Effect :=
      if beep then
        Effect.condition_broadcast ::
          (if id = queue_id.outputq then [Effect.call_asyncs O_WRITE] else [])
      else []
    match q1.array[q1.cs]? with
    | none => none
    | some c => some (c, { q1 with cs := q1.cs + 1 }, effects)

/-- Return the next character off Q: `dequeue_quote (q) & ~QUEUE_QUOTE_MARK`,
converted to the `char` return type. -/
def dequeue (q : queue) (id : queue_id) : Option (Int × queue × List Effect) :=
  match dequeue_quote q id with
  | none => none
  | some (c, q1, effects) => some (toChar (int_and c (int_not QUEUE_QUOTE_MARK)), q1, effects)

/-- Modelled from the spec: `reallocate_queue` is declared in term.h and
defined outside the sources at hand.  Section 4.1: enqueue "grows backing
storage if full (amortized growth, no data loss, prior consumers unaffected)".
The queued cells are kept, in order, at the front of an array twice as long;
the flow-control fields are carried over. -/
def reallocate_queue (q : queue) : queue :=
  let live : List Int := (q.array.drop q.cs).take (q.ce - q.cs)
  { q with
    cs := 0
    ce := live.length
    arraylen := 2 * q.arraylen
    array := live ++ List.replicate (2 * q.arraylen.toNat - live.length) 0 }

/-- Add C to *QP.  `c` is the `quoted_char` argument. -/
def enqueue_internal (q : queue) (id : queue_id) (c : Int) : queue × List Effect :=
  let q1 : queue := if (q.ce : Int) = q.arraylen then reallocate_queue q else q
  let q2 : queue := { q1 with array := q1.array.set q1.ce c, ce := q1.ce + 1 }
  let effects : List Effect :=
    if qsize q2 = 1 then
      Effect.condition_broadcast ::
        (if id = queue_id.inputq then [Effect.call_asyncs O_READ] else [])
    else []
  let q3 : queue := if q2.susp = 0 ∧ qsize q2 > q2.hiwat then { q2 with susp := 1 } else q2
  (q3, effects)

/-- Add C to *QP.  `c` is the `char` argument, converted to `quoted_char` for
the call of `enqueue_internal`. -/
def enqueue (q : queue) (id : queue_id) (c : Int) : queue × List Effect :=
  enqueue_internal q id (toShort c)

/-- Add C to *QP, marking it with a quote: the argument of `enqueue_internal`
is `c | QUEUE_QUOTE_MARK`, converted to `quoted_char`. -/
def enqueue_quote (q : queue) (id : queue_id) (c : Int) : queue × List Effect :=
  enqueue_internal q id (toShort (int_or c QUEUE_QUOTE_MARK))

/-- Return the unquoted version of a quoted_char. -/
def unquote_char (c : Int) : Int := toChar (int_and c (int_not QUEUE_QUOTE_MARK))

/-- Tell if a quoted_char is actually quoted. -/
def char_quoted_p (c : Int) : Int := int_and c QUEUE_QUOTE_MARK

/-- Remove the most recently enqueue character from Q; leaving the quote mark
on.  The result is `none` when `assert (qsize (q))` fails or the cell read lies
outside the array. -/
def queue_erase (q : queue) : Option (Int × queue × List Effect) :=
  if qsize q = 0 then none
  else
    match q.array[q.ce - 1]? with
    | none => none
    | some answer =>
      let q1 : queue := { q with ce := q.ce - 1 }
      let clear : Bool := decide (q1.susp ≠ 0 ∧ qsize q1 < q1.lowat)
      let q2 : queue := if clear then { q1 with susp := 0 } else q1
      let beep : Bool := clear || decide (qsize q2 = 0)
      some (answer, q2, if beep then [Effect.condition_broadcast] else [])

/-! ## Sequences of queue operations -/

/-- One enqueue or dequeue call on a queue. -/
inductive QOp where
  | enqueue (c : Int)
  | enqueue_quote (c : Int)
  | dequeue
  | dequeue_quote
deriving DecidableEq, Repr

/-- The operation is one of the two enqueue calls. -/
def QOp.isEnq : QOp → Bool
  | QOp.enqueue _ => true
  | QOp.enqueue_quote _ => true
  | _ => false

/-- The queue left by one operation; `none` when a dequeue aborts. -/
def stepOp (id : queue_id) (q : queue) : QOp → Option queue
  | QOp.enqueue c => some (enqueue q id c).1
  | QOp.enqueue_quote c => some (enqueue_quote q id c).1
  | QOp.dequeue => (dequeue q id).map (fun r => r.2.1)
  | QOp.dequeue_quote => (dequeue_quote q id).map (fun r => r.2.1)

/-- The queue left by a sequence of operations, run from left to right. -/
def runOps (id : queue_id) : queue → List QOp → Option queue
  | q, [] => some q
  | q, op :: ops =>
    match stepOp id q op with
    | none => none
    | some q1 => runOps id q1 ops

/-- The size the bookkeeping predicts: `n` plus the enqueues minus the
dequeues of `ops`. -/
def sizeAfter (n : Int) (ops : List QOp) : Int :=
  n + ((ops.filter (fun o => o.isEnq)).length : Int)
    - ((ops.filter (fun o => !o.isEnq)).length : Int)

/-- The pointers of a queue are consistent with its array: `array <= cs <= ce
<= array + arraylen`, and the array has `arraylen > 0` cells. -/
def queue_wf (q : queue) : Prop :=
  q.cs ≤ q.ce ∧ (q.ce : Int) ≤ q.arraylen ∧ (q.array.length : Int) = q.arraylen ∧ 0 < q.arraylen

instance (q : queue) : Decidable (queue_wf q) := by
  unfold queue_wf
  infer_instance

/-- The cells queued in Q, oldest first. -/
def contents (q : queue) : List Int := (q.array.drop q.cs).take (q.ce - q.cs)

/-- Append the given characters in order; an item `(true, c)` is added with
`enqueue_quote`, an item `(false, c)` with `enqueue`. -/
def enqueue_all (id : queue_id) : queue → List (Bool × Int) → queue
  | q, [] => q
  | q, (quoted, c) :: rest =>
    enqueue_all id (if quoted then (enqueue_quote q id c).1 else (enqueue q id c).1) rest

/-- The characters returned by `n` successive calls of `dequeue`, and the queue
they leave; `none` when one of the calls aborts. -/
def dequeue_n (id : queue_id) : Nat → queue → Option (List Int × queue)
  | 0, q => some ([], q)
  | n + 1, q =>
    match dequeue q id with
    | none => none
    | some (c, q1, _) =>
      match dequeue_n id n q1 with
      | none => none
      | some (cs, q2) => some (c :: cs, q2)

/-- The cell stored for an item of `enqueue_all`. -/
def cell_of (item : Bool × Int) : Int :=
  if item.1 then toShort (int_or item.2 QUEUE_QUOTE_MARK) else toShort item.2

/-! ## users.c: the shared terminal state -/

/-- Attach this on the hook of any protid that is a ctty. -/
structure protid_hook where
  refcnt : Int
  pid : Int
  pgrp : Int
deriving DecidableEq, Repr

/-- The port classes of term.h a protid can belong to. -/
inductive port_class where
  | tty_class
  | pty_class
  | other_class
deriving DecidableEq, Repr

/-- The fields of a `struct trivfs_protid` the translator reads: the class of
its port (`cred->pi.class`), the open modes of its peropen
(`cred->po->openmodes`) and its hook (a null hook is `none`). -/
structure trivfs_protid where
  pi_class : port_class
  openmodes : Nat
  hook : Option protid_hook
deriving DecidableEq, Repr

/-- The fields of `struct termios`. -/
structure termios where
  c_iflag : Nat
  c_oflag : Nat
  c_cflag : Nat
  c_lflag : Nat
  c_cc : List Nat
  ispeed : Nat
  ospeed : Nat
deriving DecidableEq, Repr

/-- The fields of `struct winsize`. -/
structure winsize where
  ws_row : Nat
  ws_col : Nat
  ws_xpixel : Nat
  ws_ypixel : Nat
deriving DecidableEq, Repr

/-- The global variables of term.h and users.c that the modelled functions
read or write. -/
structure Globals where
  termstate : termios
  termflags : Nat
  inputq : queue
  rawq : queue
  outputq : queue
  foreground_id : Int
  async_requests : List Nat
  sigs_in_progress : Int
  input_sig_wakeup : Int
  remote_input_mode : Int
  nperopens : Int
  num_icky_async_peropens : Int
  window_size : winsize
  carrier_error : Nat
  external_processing : Int
deriving DecidableEq, Repr

/-- The condition variables the modelled functions broadcast on. -/
inductive Cond where
  | input_sig_wait
  | carrier_alert
  | select_alert
  | queue_wait (id : queue_id)
deriving DecidableEq, Repr

/-- A call that leaves the translator's own state, in program order. -/
inductive Event where
  | start_output (err : Nat)
  | hurd_condition_wait (cond : Cond) (cancel : Int)
  | write_character (c : Int)
  | trivfs_set_mtime
  | hurd_sig_post (id : Int) (signo : Nat)
  | nowait_msg_sig_post (notify : Nat) (signo : Nat) (err : Nat)
  | mach_port_deallocate (name : Nat)
  | condition_broadcast (cond : Cond)
  | pty_io_write
  | trivfs_set_atime
  | assert_dtr (err : Nat)
  | set_bits (err : Nat)
  | desert_dtr
  | notice_input_flushed
  | drain_output (err : Nat)
  | drop_output
  | ports_interrupt_self_on_port_death
  | pty_io_read
  | pty_io_select
  | pty_open_hook
  | pty_po_create_hook
  | pty_po_destroy_hook
  | abandon_physical_output (err : Nat)
  | copy_rawq
  | rescan_inputq
  | ports_get_send_right (name : Nat)
deriving DecidableEq, Repr

/-- The global state together with the record of the calls made so far. -/
structure World where
  g : Globals
  trace : List Event
deriving DecidableEq, Repr

/-- What the modelled functions call and do not define.  `start_output` is the
bottom half's entry (users.c uses its result as an `error_t`);
`write_character` is declared in term.h and defined elsewhere;
`hurd_condition_wait` and `hurd_sig_post` run with `global_lock` released, so
they return the globals as other threads left them; `hurd_condition_wait`
returns nonzero when the wait was cancelled; `nowait_msg_sig_post` returns the
result of the send to the given port; `pty_io_write` is the pty side of
`trivfs_S_io_write`.  `assert_dtr`, `desert_dtr`, `set_bits` and
`notice_input_flushed` are further entries of the bottom half (users.c passes
`set_bits` the modes and uses its result and that of `assert_dtr` as an
`error_t`); `drain_output` and `drop_output` are declared in term.h and
defined elsewhere (`drain_output` waits with `global_lock` released); the
`pty_` entries are the pty sides of the functions of the same name.
`abandon_physical_output` is one more entry of the bottom half, whose result
users.c uses as an `error_t`; `notice_input_flushed_err` is the value
`set_state` reads from its call of `notice_input_flushed`; `copy_rawq` and
`rescan_inputq` are declared in term.h and defined elsewhere;
`ports_get_send_right` is the name the libports call of that name returns for
`cttyid`. -/
structure Env where
  start_output : Globals → Nat × Globals
  write_character : Int → Globals → Globals
  hurd_condition_wait : Cond → Globals → Int × Globals
  hurd_sig_post : Int → Nat → Globals → Globals
  nowait_msg_sig_post : Nat → Nat → Nat
  pty_io_write : trivfs_protid → List Int → Globals → Nat × Option Int × Globals
  assert_dtr : Globals → Nat × Globals
  desert_dtr : Globals → Globals
  set_bits : termios → Globals → Nat × termios × Globals
  notice_input_flushed : Globals → Globals
  drain_output : Globals → Nat × Globals
  drop_output : Globals → Globals
  pty_io_read : trivfs_protid → Int → Globals → Nat × List Int × Globals
  pty_io_select : trivfs_protid → Nat → Globals → Nat × Nat × Globals
  pty_open_hook : Nat → Globals → Nat × Globals
  pty_po_create_hook : Nat → Globals → Nat × Globals
  pty_po_destroy_hook : Nat → Globals → Globals
  abandon_physical_output : Globals → Nat × Globals
  notice_input_flushed_err : Globals → Nat
  copy_rawq : Globals → Globals
  rescan_inputq : Globals → Globals
  ports_get_send_right : Nat

/-- Tell if CRED can do foreground terminal operations. -/
def fg_p (g : Globals) (cred : trivfs_protid) : Int :=
  match cred.hook with
  | none => 1
  | some hook =>
    if g.termflags &&& NO_OWNER ≠ 0 then 1
    else if hook.pid = g.foreground_id ∨ hook.pgrp = toInt32 (-g.foreground_id) then 1
    else 0

def report_sig_start (w : World) : World :=
  { w with g := { w.g with sigs_in_progress := w.g.sigs_in_progress + 1 } }

def report_sig_end (w : World) : World :=
  let g1 : Globals := { w.g with sigs_in_progress := w.g.sigs_in_progress - 1 }
  if g1.sigs_in_progress = 0 ∧ g1.input_sig_wakeup ≠ 0 then
    { g := { g1 with input_sig_wakeup := 0 }
      trace := w.trace ++ [Event.condition_broadcast Cond.input_sig_wait] }
  else { w with g := g1 }

/-- The loop of `call_asyncs` over the list of requests: the requests kept and
the calls made. -/
def call_asyncs_loop (env : Env) : List Nat → List Nat × List Event
  | [] => ([], [])
  | ar :: nxt =>
    let err := env.nowait_msg_sig_post ar SIGIO
    let rest := call_asyncs_loop env nxt
    if err = MACH_SEND_INVALID_DEST then
      (rest.1,
        Event.nowait_msg_sig_post ar SIGIO err :: Event.mach_port_deallocate ar :: rest.2)
    else (ar :: rest.1, Event.nowait_msg_sig_post ar SIGIO err :: rest.2)

/-- Call all the scheduled async I/O handlers.  DIR is a mask of O_READ &
O_WRITE; the asyncs will only be called if output is possible in one of the
directions given in DIR. -/
def call_asyncs (env : Env) (dir : Nat) (w : World) : World :=
  if w.g.termflags &&& ICKY_ASYNC = 0 ∧ w.g.async_requests = [] then w
  else if (dir &&& O_READ = 0 ∨ qsize w.g.inputq = 0)
      ∧ (dir &&& O_WRITE = 0 ∧ qavail w.g.outputq = 0) then w
  else
    let w1 : World :=
      if w.g.termflags &&& ICKY_ASYNC ≠ 0 ∧ w.g.termflags &&& NO_OWNER = 0 then
        let w2 := report_sig_start w
        report_sig_end
          { g := env.hurd_sig_post w2.g.foreground_id SIGIO w2.g
            trace := w2.trace ++ [Event.hurd_sig_post w2.g.foreground_id SIGIO] }
      else w
    let r := call_asyncs_loop env w1.g.async_requests
    { g := { w1.g with async_requests := r.1 }, trace := w1.trace ++ r.2 }

/-- The inner loop of `trivfs_S_io_write`,
`while (!qavail (outputq) && !cancel)`, entered with `cancel == 0`.  The result
is `cancel`, `err` and the state at loop exit; `none` when the loop is still
running after `fuel` rounds. -/
def write_wait (env : Env) : Nat → Nat → World → Option (Int × Nat × World)
  | fuel, err, w =>
    if qavail w.g.outputq ≠ 0 then some (0, err, w)
    else
      match fuel with
      | 0 => none
      | fuel + 1 =>
        let r := env.start_output w.g
        let w1 : World := { g := r.2, trace := w.trace ++ [Event.start_output r.1] }
        if r.1 ≠ 0 then some (1, r.1, w1)
        else if qavail w1.g.outputq = 0 then
          let c := env.hurd_condition_wait (Cond.queue_wait queue_id.outputq) w1.g
          let w2 : World :=
            { g := c.2
              trace := w1.trace
                ++ [Event.hurd_condition_wait (Cond.queue_wait queue_id.outputq) c.1] }
          if c.1 ≠ 0 then some (c.1, r.1, w2) else write_wait env fuel r.1 w2
        else write_wait env fuel r.1 w1

/-- The outer loop of `trivfs_S_io_write`, `for (i = 0; i < datalen; i++)`,
over the characters not yet written.  The result is `i`, `cancel`, `err` and
the state at loop exit. -/
def write_loop (env : Env) (fuel : Nat) :
    List Int → Nat → Nat → World → Option (Nat × Int × Nat × World)
  | [], i, err, w => some (i, 0, err, w)
  | c :: rest, i, err, w =>
    match write_wait env fuel err w with
    | none => none
    | some (cancel, err1, w1) =>
      if cancel ≠ 0 then some (i, cancel, err1, w1)
      else
        write_loop env fuel rest (i + 1) err1
          { g := env.write_character c w1.g
            trace := w1.trace ++ [Event.write_character c] }

/-- Called for user writes to the terminal as described in <hurd/io.defs>.
The result is the value returned, the value stored in `*amt` (`none` when
`*amt` is not assigned) and the state left; `none` when a wait loop is still
running after `fuel` rounds. -/
def trivfs_S_io_write (env : Env) (fuel : Nat) (cred : Option trivfs_protid)
    (data : List Int) (w : World) : Option (Nat × Option Int × World) :=
  match cred with
  | none => some (EOPNOTSUPP, none, w)
  | some cred =>
    if cred.pi_class = port_class.pty_class then
      let r := env.pty_io_write cred data w.g
      some (r.1, r.2.1, { g := r.2.2, trace := w.trace ++ [Event.pty_io_write] })
    else if cred.openmodes &&& O_WRITE = 0 then some (EBADF, none, w)
    else if w.g.termstate.c_lflag &&& TOSTOP ≠ 0 ∧ fg_p w.g cred = 0 then
      some (EBACKGROUND, none, w)
    else if w.g.termflags &&& NO_CARRIER ≠ 0 ∧ w.g.termstate.c_cflag &&& CLOCAL = 0 then
      some ( EIO, none, w)
    else
      match write_loop env fuel data 0 0 w with
      | none => none
      | some (i, cancel, err, w1) =>
        let w2 : World :=
          if err = 0 ∧ data.length ≠ 0 then
            let r := env.start_output w1.g
            { g := r.2, trace := w1.trace ++ [Event.start_output r.1] }
          else w1
        let w3 : World := { w2 with trace := w2.trace ++ [Event.trivfs_set_mtime] }
        let w4 : World := call_asyncs env O_WRITE w3
        some
          (if cancel ≠ 0 ∧ data.length ≠ 0 ∧ i = 0 then (if err ≠ 0 then err else EINTR)
           else 0,
           some (i : Int), w4)

/-- The statements of `send_signal` from `report_sig_start ();` to
`report_sig_end ();`: the signal is posted between the two, with `global_lock`
released. -/
def send_signal_post (env : Env) (signo : Nat) (w : World) : World :=
  let w2 := report_sig_start w
  report_sig_end
    { g := env.hurd_sig_post w2.g.foreground_id signo w2.g
      trace := w2.trace ++ [Event.hurd_sig_post w2.g.foreground_id signo] }

/-- Send a signal to the current process (group) of the terminal. -/
def send_signal (env : Env) (signo : Nat) (w : World) : World :=
  if w.g.termflags &&& NO_OWNER = 0 then
    let right := env.ports_get_send_right
    let w3 := send_signal_post env signo
      { w with trace := w.trace ++ [Event.ports_get_send_right right] }
    { w3 with trace := w3.trace ++ [Event.mach_port_deallocate right] }
  else w

/-- The events of the effects of an operation on the queue `id`, but for its
`call_asyncs` effects. -/
def broadcast_events (id : queue_id) (effects : List Effect) : List Event :=
  effects.filterMap (fun e =>
    match e with
    | Effect.condition_broadcast => some (Event.condition_broadcast (Cond.queue_wait id))
    | Effect.call_asyncs _ => none)

/-- The call `dequeue (inputq)`: an operation on the input queue calls no
`call_asyncs`, so its effects are broadcasts only. -/
def dequeue_inputq (w : World) : Option (Int × World) :=
  match dequeue w.g.inputq queue_id.inputq with
  | none => none
  | some (c, q1, effects) =>
    some (c, { g := { w.g with inputq := q1 }
               trace := w.trace ++ broadcast_events queue_id.inputq effects })

/-- The loop `while (!qsize (inputq))` of `trivfs_S_io_read`.  The result is
`some (err, data)` when the function returns from inside the loop (`data` is
`none` when `*datalen` is not assigned) and `none` when the loop is left with
input queued, together with the state; no result when the loop is still
running after `fuel` rounds. -/
def read_wait (env : Env) (cred : trivfs_protid) :
    Nat → World → Option (Option (Nat × Option (List Int)) × World)
  | fuel, w =>
    if qsize w.g.inputq ≠ 0 then some (none, w)
    else if w.g.termflags &&& NO_CARRIER ≠ 0 ∧ w.g.termstate.c_cflag &&& CLOCAL = 0 then
      some (some (0, some []), w)
    else if cred.openmodes &&& O_NONBLOCK ≠ 0 then some (some (EWOULDBLOCK, none), w)
    else
      match fuel with
      | 0 => none
      | fuel + 1 =>
        let c := env.hurd_condition_wait (Cond.queue_wait queue_id.inputq) w.g
        let w1 : World :=
          { g := c.2
            trace := w.trace
              ++ [Event.hurd_condition_wait (Cond.queue_wait queue_id.inputq) c.1] }
        if c.1 ≠ 0 then some (some (EINTR, none), w1)
        else if w1.g.sigs_in_progress ≠ 0 then
          let c2 := env.hurd_condition_wait Cond.input_sig_wait
            { w1.g with input_sig_wakeup := w1.g.input_sig_wakeup + 1 }
          let w2 : World :=
            { g := c2.2
              trace := w1.trace ++ [Event.hurd_condition_wait Cond.input_sig_wait c2.1] }
          if c2.1 ≠ 0 then some (some (EINTR, none), w2) else read_wait env cred fuel w2
        else read_wait env cred fuel w1

/-- The loop `for (i = 0; i < max; i++)` of `trivfs_S_io_read`, with the
number of rounds left, the state and the characters stored so far.  The result
is the characters stored, `cancel` and the state at loop exit; no result when
`dequeue` aborts. -/
def read_copy (env : Env) : Nat → World → List Int → Option (List Int × Int × World)
  | 0, w, data => some (data, 0, w)
  | n + 1, w, data =>
    match dequeue_inputq w with
    | none => none
    | some (c, w1) =>
      if w1.g.remote_input_mode ≠ 0 then read_copy env n w1 (data ++ [c])
      else
        let icanon : Bool := decide (w1.g.termstate.c_lflag &&& ICANON ≠ 0)
        let data1 : List Int :=
          if !icanon || !CCEQ (w1.g.termstate.c_cc.getD VEOF 0) c then data ++ [c] else data
        if icanon && (decide (c = 10)
            || CCEQ (w1.g.termstate.c_cc.getD VEOF 0) c
            || CCEQ (w1.g.termstate.c_cc.getD VEOL 0) c
            || CCEQ (w1.g.termstate.c_cc.getD VEOL2 0) c) then
          some (data1, 0, w1)
        else if decide (w1.g.termstate.c_lflag &&& ISIG ≠ 0)
            && CCEQ (w1.g.termstate.c_cc.getD VDSUSP 0) c then
          some (data1, 1, send_signal env SIGTSTP w1)
        else read_copy env n w1 data1

/-- Called for user reads from the terminal.  `amount` is the number of
characters asked for.  The result is the value returned, the characters stored
(`none` when `*datalen` is not assigned; the buffer behind `*data` is not
modelled) and the state left; no result when a wait loop is still running
after `fuel` rounds or `dequeue` aborts. -/
def trivfs_S_io_read (env : Env) (fuel : Nat) (cred : Option trivfs_protid)
    (amount : Int) (w : World) : Option (Nat × Option (List Int) × World) :=
  match cred with
  | none => some (EOPNOTSUPP, none, w)
  | some cred =>
    if cred.pi_class = port_class.pty_class then
      let r := env.pty_io_read cred amount w.g
      some (r.1, some r.2.1, { g := r.2.2, trace := w.trace ++ [Event.pty_io_read] })
    else if cred.openmodes &&& O_READ = 0 then some (EBADF, none, w)
    else if fg_p w.g cred = 0 then some (EBACKGROUND, none, w)
    else
      match read_wait env cred fuel w with
      | none => none
      | some (some r, w1) => some (r.1, r.2, w1)
      | some (none, w1) =>
        let avail : Int :=
          if w1.g.remote_input_mode ≠ 0 then qsize w1.g.inputq - 1 else qsize w1.g.inputq
        let max : Int := if amount < avail then amount else avail
        match read_copy env max.toNat w1 [] with
        | none => none
        | some (data, cancel, w2) =>
          let w3 : Option World :=
            if w2.g.remote_input_mode ≠ 0 ∧ qsize w2.g.inputq = 1 then
              (dequeue_inputq w2).map (fun r => r.2)
            else some w2
          match w3 with
          | none => none
          | some w3 =>
            let w4 : World :=
              if data.length ≠ 0 ∨ cancel = 0 then
                { w3 with trace := w3.trace ++ [Event.trivfs_set_atime] }
              else w3
            some (if data.length = 0 ∧ cancel ≠ 0 then EINTR else 0, some data,
              call_asyncs env O_READ w4)

/-- The requested directions a session may select for: `*type` after
`*type &= ~SELECT_READ` for a session without O_READ and
`*type &= ~SELECT_WRITE` for a session without O_WRITE. -/
def select_request (cred : trivfs_protid) (type : Nat) : Nat :=
  let t1 : Nat := if cred.openmodes &&& O_READ = 0 then clear_bits type SELECT_READ else type
  if cred.openmodes &&& O_WRITE = 0 then clear_bits t1 SELECT_WRITE else t1

/-- The value of `available` computed by one round of the loop of
`trivfs_S_io_select`. -/
def select_available (type : Nat) (g : Globals) : Nat :=
  let a1 : Nat := if type &&& SELECT_READ ≠ 0 ∧ qsize g.inputq ≠ 0 then 0 ||| SELECT_READ else 0
  if type &&& SELECT_WRITE ≠ 0 ∧ qavail g.outputq ≠ 0 then a1 ||| SELECT_WRITE else a1

/-- The loop `while (1)` of `trivfs_S_io_select`.  The result is the value
returned, the value stored in `*type` and the state left; no result when the
loop is still running after `fuel` uncancelled waits. -/
def select_loop (env : Env) (type : Nat) : Nat → World → Option (Nat × Nat × World)
  | fuel, w =>
    if select_available type w.g = 0 then
      let c := env.hurd_condition_wait Cond.select_alert w.g
      let w1 : World :=
        { g := c.2
          trace := w.trace ++ [Event.ports_interrupt_self_on_port_death,
            Event.hurd_condition_wait Cond.select_alert c.1] }
      if c.1 = 0 then
        match fuel with
        | 0 => none
        | fuel + 1 => select_loop env type fuel w1
      else some (EINTR, select_available type w.g, w1)
    else some (0, select_available type w.g, w)

/-- The select entry of the terminal.  `type` is the value of `*type` at the
call.  The result is the value returned, the value of `*type` at return and the
state left; no result when the loop is still running after `fuel` uncancelled
waits. -/
def trivfs_S_io_select (env : Env) (fuel : Nat) (cred : Option trivfs_protid)
    (type : Nat) (w : World) : Option (Nat × Nat × World) :=
  match cred with
  | none => some (EOPNOTSUPP, type, w)
  | some cred =>
    if cred.pi_class = port_class.pty_class then
      let r := env.pty_io_select cred type w.g
      some (r.1, r.2.1, { g := r.2.2, trace := w.trace ++ [Event.pty_io_select] })
    else select_loop env (select_request cred type) fuel w

/-- The line modes `open_hook` installs on the first open: `termstate` after
the `memset` to zero, the four `|=` of the flag words and the `memcpy` of
`ttydefchars`. -/
def default_termstate : termios :=
  { c_iflag := 0 ||| (BRKINT ||| ICRNL ||| IMAXBEL ||| IXON ||| IXANY)
    c_oflag := 0 ||| (OPOST ||| ONLCR ||| OXTABS)
    c_cflag := 0 ||| (CREAD ||| CS8 ||| HUPCL)
    c_lflag := 0 ||| (ECHO ||| ICANON ||| ISIG ||| IEXTEN ||| ECHOE ||| ECHOKE ||| ECHOCTL)
    c_cc := ttydefchars.take NCCS
    ispeed := 0
    ospeed := 0 }

/-- The loop of `open_hook` that waits for carrier to turn on, entered with
`cancel == 0`.  The result is `cancel` and the state at loop exit; no result
when the loop is still running after `fuel` waits. -/
def open_wait (env : Env) (flags : Nat) : Nat → World → Option (Int × World)
  | fuel, w =>
    if (w.g.termflags &&& NO_CARRIER ≠ 0 ∧ w.g.termstate.c_cflag &&& CLOCAL = 0)
        ∧ flags &&& O_NONBLOCK = 0 then
      match fuel with
      | 0 => none
      | fuel + 1 =>
        let c := env.hurd_condition_wait Cond.carrier_alert w.g
        let w1 : World :=
          { g := c.2
            trace := w.trace ++ [Event.hurd_condition_wait Cond.carrier_alert c.1] }
        if c.1 ≠ 0 then some (c.1, w1) else open_wait env flags fuel w1
    else some (0, w)

/-- The part of `open_hook` from `/* Assert DTR if necessary. */` on. -/
def open_carrier (env : Env) (fuel : Nat) (flags : Nat) (w : World) : Option (Nat × World) :=
  let r : Nat × World :=
    if w.g.termflags &&& NO_CARRIER ≠ 0 then
      let a := env.assert_dtr w.g
      (a.1, { g := a.2, trace := w.trace ++ [Event.assert_dtr a.1] })
    else (0, w)
  if r.1 ≠ 0 then some (r.1, r.2)
  else
    match open_wait env flags fuel r.2 with
    | none => none
    | some (cancel, w1) =>
      if cancel ≠ 0 then some (EINTR, w1)
      else
        let err := w1.g.carrier_error
        let w2 : World := { w1 with g := { w1.g with carrier_error := 0 } }
        if err ≠ 0 then some (err, w2)
        else
          let b := env.set_bits w2.g.termstate w2.g
          let w3 : World := { g := b.2.2, trace := w2.trace ++ [Event.set_bits b.1] }
          if b.1 ≠ 0 then some (b.1, w3)
          else
            some (0, { w3 with g := { w3.g with
              termstate := b.2.1
              termflags := w3.g.termflags ||| TTY_OPEN } })

/-- The open hook of the terminal.  `is_ptyctl` tells whether `cntl == ptyctl`;
`open_count` is the value of the function's static counter, returned with the
value of the function and the state left.  No result when an `assert` fails or
the wait for carrier is still running after `fuel` waits. -/
def open_hook (env : Env) (fuel : Nat) (is_ptyctl : Bool) (flags : Nat) (open_count : Int)
    (w : World) : Option (Nat × Int × World) :=
  if is_ptyctl then
    let r := env.pty_open_hook flags w.g
    some (r.1, open_count, { g := r.2, trace := w.trace ++ [Event.pty_open_hook] })
  else if flags &&& (O_READ ||| O_WRITE) = 0 then some (0, open_count, w)
  else if w.g.termflags &&& TTY_OPEN = 0 then
    let g1 : Globals :=
      { w.g with
        termstate := default_termstate
        window_size := ⟨0, 0, 0, 0⟩
        termflags := w.g.termflags ||| NO_OWNER }
    if g1.termstate.c_oflag &&& OTILDE ≠ 0 then none
    else (open_carrier env fuel flags { w with g := g1 }).map
      (fun r => (r.1, open_count + 1, r.2))
  else if ¬ (open_count > 0) then none
  else if w.g.termflags &&& EXCL_USE ≠ 0 then some (EBUSY, open_count, w)
  else if w.g.termstate.c_oflag &&& OTILDE ≠ 0 then none
  else (open_carrier env fuel flags w).map (fun r => (r.1, open_count + 1, r.2))

/-- The peropen creation hook.  `is_ptyctl` tells whether `po->cntl == ptyctl`,
`openmodes` is `po->openmodes`. -/
def po_create_hook (env : Env) (is_ptyctl : Bool) (openmodes : Nat) (w : World) :
    Nat × World :=
  if is_ptyctl then
    let r := env.pty_po_create_hook openmodes w.g
    (r.1, { g := r.2, trace := w.trace ++ [Event.pty_po_create_hook] })
  else
    let w1 : World := { w with g := { w.g with nperopens := w.g.nperopens + 1 } }
    if openmodes &&& O_ASYNC ≠ 0 then
      (0, call_asyncs env (O_READ ||| O_WRITE)
        { w1 with g := { w1.g with
          termflags := w1.g.termflags ||| ICKY_ASYNC
          num_icky_async_peropens := w1.g.num_icky_async_peropens + 1 } })
    else (0, w1)

/-- The call `clear_queue (inputq)` on the state. -/
def clear_inputq (w : World) : World :=
  { g := { w.g with inputq := (clear_queue w.g.inputq).1 }
    trace := w.trace ++ broadcast_events queue_id.inputq (clear_queue w.g.inputq).2 }

/-- The call `clear_queue (rawq)` on the state. -/
def clear_rawq (w : World) : World :=
  { g := { w.g with rawq := (clear_queue w.g.rawq).1 }
    trace := w.trace ++ broadcast_events queue_id.rawq (clear_queue w.g.rawq).2 }

/-- The statement
`if ((po->openmodes & O_ASYNC) && --num_icky_async_peropens == 0) termflags &= ~ICKY_ASYNC;`
of `po_destroy_hook`. -/
def po_destroy_async (openmodes : Nat) (g : Globals) : Globals :=
  if openmodes &&& O_ASYNC ≠ 0 then
    let g0 : Globals := { g with num_icky_async_peropens := g.num_icky_async_peropens - 1 }
    if g0.num_icky_async_peropens = 0 then
      { g0 with termflags := clear_bits g0.termflags ICKY_ASYNC }
    else g0
  else g

/-- The block of `po_destroy_hook` run when the last peropen goes while
TTY_OPEN is set: from `/* Empty queues */` to `termflags &= ~TTY_OPEN;`. -/
def po_destroy_last (env : Env) (w2 : World) : World :=
  let w3 := clear_rawq (clear_inputq w2)
  let w4 : World :=
    { g := env.notice_input_flushed w3.g
      trace := w3.trace ++ [Event.notice_input_flushed] }
  let d := env.drain_output w4.g
  let w5 : World := { g := d.2, trace := w4.trace ++ [Event.drain_output d.1] }
  let w6 : World :=
    if w5.g.termstate.c_cflag &&& HUPCL ≠ 0 ∨ w5.g.termflags &&& NO_CARRIER ≠ 0 then
      { g := env.desert_dtr w5.g, trace := w5.trace ++ [Event.desert_dtr] }
    else w5
  { w6 with g := { w6.g with termflags := clear_bits w6.g.termflags TTY_OPEN } }

/-- The peropen destruction hook.  `is_ptyctl` tells whether
`po->cntl == ptyctl`, `openmodes` is `po->openmodes`. -/
def po_destroy_hook (env : Env) (is_ptyctl : Bool) (openmodes : Nat) (w : World) : World :=
  if is_ptyctl then
    { g := env.pty_po_destroy_hook openmodes w.g
      trace := w.trace ++ [Event.pty_po_destroy_hook] }
  else
    let g1 : Globals := po_destroy_async openmodes w.g
    let w2 : World := { w with g := { g1 with nperopens := g1.nperopens - 1 } }
    if w2.g.nperopens = 0 ∧ w2.g.termflags &&& TTY_OPEN ≠ 0 then po_destroy_last env w2
    else w2

/-- TIOCEXCL ioctl -- Set exclusive use. -/
def S_tioctl_tiocexcl (cred : Option trivfs_protid) (w : World) : Nat × World :=
  match cred with
  | none => (EOPNOTSUPP, w)
  | some cred =>
    if cred.pi_class ≠ port_class.pty_class ∧ cred.pi_class ≠ port_class.tty_class then
      (EOPNOTSUPP, w)
    else if cred.openmodes &&& (O_READ ||| O_WRITE) = 0 then (EBADF, w)
    else (0, { w with g := { w.g with termflags := w.g.termflags ||| EXCL_USE } })

/-- TIOCNXCL ioctl -- Clear exclusive use. -/
def S_tioctl_tiocnxcl (cred : Option trivfs_protid) (w : World) : Nat × World :=
  match cred with
  | none => (EOPNOTSUPP, w)
  | some cred =>
    if cred.pi_class ≠ port_class.pty_class ∧ cred.pi_class ≠ port_class.tty_class then
      (EOPNOTSUPP, w)
    else if cred.openmodes &&& (O_READ ||| O_WRITE) = 0 then (EBADF, w)
    else (0, { w with g := { w.g with termflags := clear_bits w.g.termflags EXCL_USE } })

/-- The statements of `report_carrier_off` up to `termflags |= NO_CARRIER;`. -/
def carrier_off_flush (env : Env) (w : World) : World :=
  let w1 := clear_inputq w
  let w2 : World :=
    { g := env.notice_input_flushed w1.g, trace := w1.trace ++ [Event.notice_input_flushed] }
  let w3 : World := { g := env.drop_output w2.g, trace := w2.trace ++ [Event.drop_output] }
  { w3 with g := { w3.g with termflags := w3.g.termflags ||| NO_CARRIER } }

/-- The bottom half reports that carrier went away. -/
def report_carrier_off (env : Env) (w : World) : World :=
  let w4 := carrier_off_flush env w
  if w4.g.termstate.c_cflag &&& CLOCAL = 0 then send_signal env SIGHUP w4 else w4

/-- The bottom half reports that carrier came up. -/
def report_carrier_on (w : World) : World :=
  { g := { w.g with termflags := clear_bits w.g.termflags NO_CARRIER }
    trace := w.trace ++ [Event.condition_broadcast Cond.carrier_alert] }

/-- The bottom half reports an error of the carrier: the error is recorded
in `carrier_error` and `carrier_alert` is broadcast. -/
def report_carrier_error (err : Nat) (w : World) : World :=
  { g := { w.g with carrier_error := err }
    trace := w.trace ++ [Event.condition_broadcast Cond.carrier_alert] }

/-- Register `notify` for async notifications (`trivfs_S_io_async`).  The
result is the value returned and the state left; `*id` is not modelled. -/
def trivfs_S_io_async (cred : Option trivfs_protid) (notify : Nat) (w : World) :
    Nat × World :=
  match cred with
  | none => (EOPNOTSUPP, w)
  | some cred =>
    if cred.openmodes &&& (O_READ ||| O_WRITE) = 0 then (EBADF, w)
    else (0, { w with g := { w.g with async_requests := notify :: w.g.async_requests } })

/-- Implement term_getctty as described in <hurd/term.defs>.  `cred` is the
result of `ports_lookup_port (term_bucket, arg, tty_class)` before the class
is checked; the result is the value returned (`*id` is not modelled). -/
def S_term_getctty (cred : Option trivfs_protid) : Nat :=
  match cred with
  | none => EOPNOTSUPP
  | some cred =>
    if cred.pi_class ≠ port_class.tty_class then EOPNOTSUPP
    else if cred.openmodes &&& (O_READ ||| O_WRITE) = 0 then EBADF
    else 0

/-- Implement term_become_ctty as described in <hurd/term.defs>.
`trivfs_protid_dup` is the libtrivfs call of that name (its result and the new
protid); the value tested is the C expression
`!cred->po->openmodes & (O_READ|O_WRITE)`, in which `!` applies to the open
modes alone.  The result is the value returned and the new protid; the
reference count of a hook inherited from `cred` is not modelled. -/
def S_term_open_ctty (trivfs_protid_dup : trivfs_protid → Nat × trivfs_protid)
    (cred : Option trivfs_protid) (pid pgrp : Int) : Nat × Option trivfs_protid :=
  match cred with
  | none => (EOPNOTSUPP, none)
  | some cred =>
    if cred.pi_class ≠ port_class.tty_class then (EOPNOTSUPP, none)
    else if (if cred.openmodes = 0 then 1 else 0) &&& (O_READ ||| O_WRITE) ≠ 0 then
      (EBADF, none)
    else
      let d := trivfs_protid_dup cred
      if d.1 ≠ 0 then (d.1, none)
      else (0, some { d.2 with hook := some { pid := pid, pgrp := pgrp, refcnt := 1 } })

/-- TIOCSPGRP -- set pgrp of terminal. -/
def S_tioctl_tiocspgrp (cred : Option trivfs_protid) (pgrp : Int) (w : World) :
    Nat × World :=
  match cred with
  | none => (EOPNOTSUPP, w)
  | some cred =>
    if cred.pi_class ≠ port_class.pty_class ∧ cred.pi_class ≠ port_class.tty_class then
      (EOPNOTSUPP, w)
    else if cred.openmodes &&& (O_READ ||| O_WRITE) = 0 then (EBADF, w)
    else
      (0, { w with g := { w.g with
        termflags := clear_bits w.g.termflags NO_OWNER
        foreground_id := toInt32 (-pgrp) } })

/-- TIOCGPGRP --- fetch pgrp of terminal.  The result is the value returned and
the value stored in `*pgrp`, if any. -/
def S_tioctl_tiocgpgrp (cred : Option trivfs_protid) (w : World) : Nat × Option Int :=
  match cred with
  | none => (EOPNOTSUPP, none)
  | some cred =>
    if cred.pi_class ≠ port_class.pty_class ∧ cred.pi_class ≠ port_class.tty_class then
      (EOPNOTSUPP, none)
    else if w.g.termflags &&& NO_OWNER ≠ 0 then (ENOTTY, none)
    else (0, some (toInt32 (-w.g.foreground_id)))

def trivfs_S_io_mod_owner (cred : Option trivfs_protid) (owner : Int) (w : World) :
    Nat × World :=
  match cred with
  | none => (EOPNOTSUPP, w)
  | some _ =>
    (0, { w with g := { w.g with
      termflags := clear_bits w.g.termflags NO_OWNER
      foreground_id := owner } })

/-- The result is the value returned and the value stored in `*owner`, if
any. -/
def trivfs_S_io_get_owner (cred : Option trivfs_protid) (w : World) : Nat × Option Int :=
  match cred with
  | none => (EOPNOTSUPP, none)
  | some _ =>
    if w.g.termflags &&& NO_OWNER ≠ 0 then (ENOTTY, none)
    else (0, some w.g.foreground_id)

/-- The statements of `trivfs_S_io_set_all_openmodes` and
`trivfs_S_io_set_some_openmodes` run when O_ASYNC is newly asked for. -/
def openmodes_async_on (env : Env) (w : World) : World :=
  call_asyncs env (O_READ ||| O_WRITE)
    { w with g := { w.g with
      termflags := w.g.termflags ||| ICKY_ASYNC
      num_icky_async_peropens := w.g.num_icky_async_peropens + 1 } }

/-- The result is the value returned, the session with the open modes of its
peropen as left, and the state.  The first statement is the one
`po_destroy_hook` starts with, on `obits`. -/
def trivfs_S_io_set_all_openmodes (env : Env) (cred : Option trivfs_protid) (bits : Nat)
    (w : World) : Nat × Option trivfs_protid × World :=
  match cred with
  | none => (EOPNOTSUPP, none, w)
  | some cred =>
    let obits := cred.openmodes
    let w1 : World := { w with g := po_destroy_async obits w.g }
    let cred1 : trivfs_protid :=
      { cred with
        openmodes := clear_bits cred.openmodes HONORED_STATE_MODES
          ||| (bits &&& HONORED_STATE_MODES) }
    if bits &&& O_ASYNC ≠ 0 ∧ obits &&& O_ASYNC = 0 then
      (0, some cred1, openmodes_async_on env w1)
    else (0, some cred1, w1)

def trivfs_S_io_set_some_openmodes (env : Env) (cred : Option trivfs_protid) (bits : Nat)
    (w : World) : Nat × Option trivfs_protid × World :=
  match cred with
  | none => (EOPNOTSUPP, none, w)
  | some cred =>
    let obits := cred.openmodes
    let cred1 : trivfs_protid :=
      { cred with openmodes := cred.openmodes ||| (bits &&& HONORED_STATE_MODES) }
    if bits &&& O_ASYNC ≠ 0 ∧ obits &&& O_ASYNC = 0 then
      (0, some cred1, openmodes_async_on env w)
    else (0, some cred1, w)

def trivfs_S_io_clear_some_openmodes (cred : Option trivfs_protid) (bits : Nat)
    (w : World) : Nat × Option trivfs_protid × World :=
  match cred with
  | none => (EOPNOTSUPP, none, w)
  | some cred =>
    (0,
      some { cred with
        openmodes := clear_bits cred.openmodes (bits &&& HONORED_STATE_MODES) },
      { w with g := po_destroy_async cred.openmodes w.g })

/-- TIOCGETA ioctl -- Get termios state.  The result is the value returned and
the arrays `modes`, `ccs` and `speeds` as filled in, if they are. -/
def S_tioctl_tiocgeta (cred : Option trivfs_protid) (w : World) :
    Nat × Option (List Nat × List Nat × List Nat) :=
  match cred with
  | none => (EOPNOTSUPP, none)
  | some cred =>
    if cred.pi_class ≠ port_class.pty_class ∧ cred.pi_class ≠ port_class.tty_class then
      (EOPNOTSUPP, none)
    else
      (0, some
        ([w.g.termstate.c_iflag, w.g.termstate.c_oflag, w.g.termstate.c_cflag,
            w.g.termstate.c_lflag],
          w.g.termstate.c_cc.take NCCS,
          [w.g.termstate.ispeed, w.g.termstate.ospeed]))

/-- The call `clear_queue (outputq)` on the state. -/
def clear_outputq (w : World) : World :=
  { g := { w.g with outputq := (clear_queue w.g.outputq).1 }
    trace := w.trace ++ broadcast_events queue_id.outputq (clear_queue w.g.outputq).2 }

/-- The part of `set_state` for a pty master: abandon the physical output and
clear the output queue.  The result is `err` and the state. -/
def set_state_abandon (env : Env) (cred : trivfs_protid) (w : World) : Nat × World :=
  if cred.pi_class = port_class.pty_class then
    let a := env.abandon_physical_output w.g
    let w1 : World := { g := a.2, trace := w.trace ++ [Event.abandon_physical_output a.1] }
    if a.1 ≠ 0 then (a.1, w1) else (0, clear_outputq w1)
  else (0, w)

/-- The part `if (draino)` of `set_state`. -/
def set_state_drain (env : Env) (draino : Int) (w : World) : Nat × World :=
  if draino ≠ 0 then
    let d := env.drain_output w.g
    (d.1, { g := d.2, trace := w.trace ++ [Event.drain_output d.1] })
  else (0, w)

/-- The part `if (flushi)` of `set_state`. -/
def set_state_flush (env : Env) (flushi : Int) (w : World) : Nat × World :=
  if flushi ≠ 0 then
    let err := env.notice_input_flushed_err w.g
    let w1 : World :=
      { g := env.notice_input_flushed w.g, trace := w.trace ++ [Event.notice_input_flushed] }
    if err ≠ 0 then (err, w1) else (0, clear_inputq w1)
  else (0, w)

/-- The local `state` of `set_state` when it is handed to `set_bits`: the copy
of `termstate` with the flag words, control characters and speeds of the
request and the EXTPROC bit of `external_processing`. -/
def set_state_request (g : Globals) (modes ccs speeds : List Nat) : termios :=
  let state : termios :=
    { g.termstate with
      c_iflag := modes.getD 0 0
      c_oflag := modes.getD 1 0
      c_cflag := modes.getD 2 0
      c_lflag := modes.getD 3 0
      c_cc := ccs.take NCCS
      ispeed := speeds.getD 0 0
      ospeed := speeds.getD 1 0 }
  if g.external_processing ≠ 0 then { state with c_lflag := state.c_lflag ||| EXTPROC }
  else { state with c_lflag := clear_bits state.c_lflag EXTPROC }

/-- The part of `set_state` from `state = termstate;` on. -/
def set_state_install (env : Env) (modes ccs speeds : List Nat) (w : World) : Nat × World :=
  let b := env.set_bits (set_state_request w.g modes ccs speeds) w.g
  let w1 : World := { g := b.2.2, trace := w.trace ++ [Event.set_bits b.1] }
  if b.1 ≠ 0 then (b.1, w1)
  else
    let oldlflag := w1.g.termstate.c_lflag
    let w2 : World := { w1 with g := { w1.g with termstate := b.2.1 } }
    if oldlflag &&& ICANON ≠ 0 then
      if w2.g.termstate.c_lflag &&& ICANON = 0 then
        (0, { g := env.copy_rawq w2.g, trace := w2.trace ++ [Event.copy_rawq] })
      else (0, w2)
    else
      if w2.g.termstate.c_lflag &&& ICANON ≠ 0 then
        (0, { g := env.rescan_inputq w2.g, trace := w2.trace ++ [Event.rescan_inputq] })
      else (0, w2)

/-- Common code for the varios TIOCSET* commands.  The result is the value
returned and the state left. -/
def set_state (env : Env) (cred : Option trivfs_protid) (modes ccs speeds : List Nat)
    (draino flushi : Int) (w : World) : Nat × World :=
  match cred with
  | none => (EOPNOTSUPP, w)
  | some cred =>
    if cred.pi_class ≠ port_class.pty_class ∧ cred.pi_class ≠ port_class.tty_class then
      (EOPNOTSUPP, w)
    else if cred.openmodes &&& (O_READ ||| O_WRITE) = 0 then (EBADF, w)
    else if fg_p w.g cred = 0 then (EBACKGROUND, w)
    else
      let r1 := set_state_abandon env cred w
      if r1.1 ≠ 0 then r1
      else
        let r2 := set_state_drain env draino r1.2
        if r2.1 ≠ 0 then r2
        else
          let r3 := set_state_flush env flushi r2.2
          if r3.1 ≠ 0 then r3
          else set_state_install env modes ccs speeds r3.2

/-- TIOCSETA -- Set termios state. -/
def S_tioctl_tiocseta (env : Env) (cred : Option trivfs_protid) (modes ccs speeds : List Nat)
    (w : World) : Nat × World :=
  set_state env cred modes ccs speeds 0 0 w

/-- Drain output, then set term state. -/
def S_tioctl_tiocsetaw (env : Env) (cred : Option trivfs_protid)
    (modes ccs speeds : List Nat) (w : World) : Nat × World :=
  set_state env cred modes ccs speeds 1 0 w

/-- Flush input, drain output, then set term state. -/
def S_tioctl_tiocsetaf (env : Env) (cred : Option trivfs_protid)
    (modes ccs speeds : List Nat) (w : World) : Nat × World :=
  set_state env cred modes ccs speeds 1 1 w

/-- TIOCGETD -- Return line discipline.  The result is the value returned and
the value stored in `*disc`, if any. -/
def S_tioctl_tiocgetd (cred : Option trivfs_protid) : Nat × Option Int :=
  match cred with
  | none => (EOPNOTSUPP, none)
  | some cred =>
    if cred.pi_class ≠ port_class.pty_class ∧ cred.pi_class ≠ port_class.tty_class then
      (EOPNOTSUPP, none)
    else (0, some 0)

/-- The value of the local `err` of `S_tioctl_tiocsetd` when the function
returns after its class check: the assignment of EBADF is overwritten by the
test of `disc`. -/
def tiocsetd_err (disc : Int) : Nat :=
  if disc ≠ 0 then ENXIO else 0

/-- TIOCSETD -- Set line discipline.  The result is the value returned: after
the class check the function ends with `return 0;`, not with `return err;`. -/
def S_tioctl_tiocsetd (cred : Option trivfs_protid) (_disc : Int) : Nat :=
  match cred with
  | none => EOPNOTSUPP
  | some cred =>
    if cred.pi_class ≠ port_class.pty_class ∧ cred.pi_class ≠ port_class.tty_class then
      EOPNOTSUPP
    else 0

/-- A terminal that is open by one session, with an owner (foreground id 42),
carrier present, a 24 by 80 window, empty queues of 4 cells and no async
requests; used as a concrete state. -/
def sample_globals : Globals :=
  { termstate := ⟨0, 0, 0, 0, [], 0, 0⟩
    termflags := TTY_OPEN
    inputq := ⟨0, QUEUE_LOWAT, QUEUE_HIWAT, 0, 0, 4, [0, 0, 0, 0]⟩
    rawq := ⟨0, QUEUE_LOWAT, QUEUE_HIWAT, 0, 0, 4, [0, 0, 0, 0]⟩
    outputq := ⟨0, QUEUE_LOWAT, QUEUE_HIWAT, 0, 0, 4, [0, 0, 0, 0]⟩
    foreground_id := 42
    async_requests := []
    sigs_in_progress := 0
    input_sig_wakeup := 0
    remote_input_mode := 0
    nperopens := 1
    num_icky_async_peropens := 0
    window_size := ⟨24, 80, 0, 0⟩
    carrier_error := 0
    external_processing := 0 }

/-- A bottom half whose `start_output` succeeds and changes nothing, with a
`write_character` that appends to the output queue, waits that return at once
uncancelled, sends that succeed, and bottom-half calls that succeed and leave
the globals alone (`drop_output` empties the output queue); used as a concrete
environment. -/
def sample_env : Env :=
  { start_output := fun g => (0, g)
    write_character := fun c g => { g with outputq := (enqueue g.outputq queue_id.outputq c).1 }
    hurd_condition_wait := fun _ g => (0, g)
    hurd_sig_post := fun _ _ g => g
    nowait_msg_sig_post := fun _ _ => 0
    pty_io_write := fun _ _ g => (EOPNOTSUPP, none, g)
    assert_dtr := fun g => (0, g)
    desert_dtr := fun g => g
    set_bits := fun st g => (0, st, g)
    notice_input_flushed := fun g => g
    drain_output := fun g => (0, g)
    drop_output := fun g => { g with outputq := (clear_queue g.outputq).1 }
    pty_io_read := fun _ _ g => (EOPNOTSUPP, [], g)
    pty_io_select := fun _ t g => (EOPNOTSUPP, t, g)
    pty_open_hook := fun _ g => (0, g)
    pty_po_create_hook := fun _ g => (0, g)
    pty_po_destroy_hook := fun _ g => g
    abandon_physical_output := fun g => (0, g)
    notice_input_flushed_err := fun _ => 0
    copy_rawq := fun g => g
    rescan_inputq := fun g => g
    ports_get_send_right := 9 }

/-- A character that ends a line in canonical mode: newline, or the VEOF, VEOL
or VEOL2 control character of the modes. -/
def is_line_end (cc : List Nat) (c : Int) : Bool :=
  decide (c = 10) || CCEQ (cc.getD VEOF 0) c || CCEQ (cc.getD VEOL 0) c
    || CCEQ (cc.getD VEOL2 0) c

/-- The shortest prefix of `p` that ends in a character satisfying `stop`; all
of `p` when no character does. -/
def line_head (stop : Int → Bool) : List Int → List Int
  | [] => []
  | c :: rest => if stop c then [c] else c :: line_head stop rest

/-- The characters of `consumed` without its last one when that satisfies
`eof`. -/
def without_final (eof : Int → Bool) (consumed : List Int) : List Int :=
  match consumed.getLast? with
  | some c => if eof c then consumed.dropLast else consumed
  | none => consumed

/-- Reference behaviour of the copy phase: from the queued characters `q` and
the amount asked for, the characters returned and the characters left queued.
`p` is the first `min (amount, |q|)` characters of `q`.  Outside canonical mode
`p` is returned and removed.  In canonical mode the shortest prefix of `p`
ending in a line end (all of `p` if there is none) is removed, and returned
without a terminating VEOF. -/
def read_reference (icanon : Bool) (cc : List Nat) (amount : Int) (q : List Int) :
    List Int × List Int :=
  let p := q.take (min amount.toNat q.length)
  if icanon then
    let consumed := line_head (is_line_end cc) p
    (without_final (fun c => CCEQ (cc.getD VEOF 0) c) consumed, q.drop consumed.length)
  else (p, q.drop p.length)

/-- The state `sample_globals` in canonical mode with the default control
characters and the five characters `ab\ncd` in the input queue. -/
def line_globals : Globals :=
  { sample_globals with
    termstate := ⟨0, 0, 0, ICANON, ttydefchars, 0, 0⟩
    inputq := ⟨0, QUEUE_LOWAT, QUEUE_HIWAT, 0, 5, 8, [97, 98, 10, 99, 100, 0, 0, 0]⟩ }

/-- The line modes, the window size and the owner are the same in `g1` as in
`g`. -/
def same_modes (g g1 : Globals) : Prop :=
  g1.termstate = g.termstate ∧ g1.window_size = g.window_size ∧
  g1.foreground_id = g.foreground_id ∧ g1.termflags &&& NO_OWNER = g.termflags &&& NO_OWNER

/-- What `open_hook` calls while it asserts DTR, waits for carrier and sets
the line bits leaves the line modes, the window size and the owner alone, and
`set_bits`, when it succeeds, hands back the modes it was given. -/
def open_frame (env : Env) : Prop :=
  (∀ g, same_modes g (env.assert_dtr g).2) ∧
  (∀ g, same_modes g (env.hurd_condition_wait Cond.carrier_alert g).2) ∧
  (∀ st g, same_modes g (env.set_bits st g).2.2) ∧
  (∀ st g, (env.set_bits st g).1 = 0 → (env.set_bits st g).2.1 = st)

/-- The terminal of `sample_globals` with no session: TTY_OPEN clear, no
peropen, carrier present. -/
def closed_globals : Globals :=
  { sample_globals with termflags := 0, nperopens := 0 }

/-- The closed terminal with carrier absent. -/
def no_carrier_globals : Globals :=
  { closed_globals with termflags := NO_CARRIER }

/-- The environment `sample_env` where, during every wait, the bottom half
calls `report_carrier_error (e)` and carrier stays absent.  The broadcast of
that call is what ends the wait; it is not recorded in the trace. -/
def carrier_error_env (e : Nat) : Env :=
  { sample_env with
    hurd_condition_wait := fun _ g => (0, (report_carrier_error e ⟨g, []⟩).g) }

/-- The environment `sample_env` where, during every wait, the bottom half
calls `report_carrier_on ()` and then `report_carrier_error (e)`. -/
def carrier_on_error_env (e : Nat) : Env :=
  { sample_env with
    hurd_condition_wait :=
      fun _ g => (0, (report_carrier_error e (report_carrier_on ⟨g, []⟩)).g) }

/-- The input queue, the raw queue, the line modes and the flags are the same
in `g1` as in `g`. -/
def same_line (g g1 : Globals) : Prop :=
  g1.inputq = g.inputq ∧ g1.rawq = g.rawq ∧ g1.termstate = g.termstate ∧
  g1.termflags = g.termflags

/-- What `po_destroy_hook` calls on the last close (`notice_input_flushed`,
`drain_output`, `desert_dtr`) leaves the input queue, the raw queue, the line
modes and the flags alone. -/
def close_frame (env : Env) : Prop :=
  (∀ g, same_line g (env.notice_input_flushed g)) ∧
  (∀ g, same_line g (env.drain_output g).2) ∧
  (∀ g, same_line g (env.desert_dtr g))

/-- What `report_carrier_off` calls (`notice_input_flushed`, `drop_output`,
`hurd_sig_post`) leaves the input queue, the raw queue, the line modes and the
flags alone. -/
def carrier_frame (env : Env) : Prop :=
  (∀ g, same_line g (env.notice_input_flushed g)) ∧
  (∀ g, same_line g (env.drop_output g)) ∧
  (∀ id signo g, same_line g (env.hurd_sig_post id signo g))

/-- A session opens the closed terminal `closed_globals` for reading, sets
exclusive use with TIOCEXCL and closes, the last session to go; then the
terminal is opened again.  Each open is `open_hook` followed by
`po_create_hook`, the close is `po_destroy_hook`, all with `sample_env`.  The
result is the flag word left by the close, the value of the debugging counter
after the second open, and the state when that open is complete. -/
def reopened_after_excl : Option (Nat × Int × World) :=
  match open_hook sample_env 0 false O_READ 0 ⟨closed_globals, []⟩ with
  | some (0, oc1, w1) =>
    let w2 := (po_create_hook sample_env false O_READ w1).2
    let w3 := (S_tioctl_tiocexcl (some ⟨port_class.tty_class, O_READ, none⟩) w2).2
    let w4 := po_destroy_hook sample_env false O_READ w3
    match open_hook sample_env 0 false O_READ oc1 w4 with
    | some (0, oc2, w5) =>
      some (w4.g.termflags, oc2, (po_create_hook sample_env false O_READ w5).2)
    | _ => none
  | _ => none

/-- The ports `nowait_msg_sig_post` was called on, in the order of the
calls. -/
def notified (t : List Event) : List Nat :=
  t.filterMap (fun e =>
    match e with
    | Event.nowait_msg_sig_post notify _ _ => some notify
    | _ => none)

/-- The state `sample_globals` with one registered async target (port 7), an
empty input queue, and an output queue that is suspended (three characters
held, `hiwat` 2). -/
def blocked_globals : Globals :=
  { sample_globals with
    async_requests := [7]
    outputq := ⟨1, 1, 2, 0, 3, 4, [97, 98, 99, 0]⟩ }

/-- The bookkeeping of O_ASYNC as the specification states it, for live tty
sessions with the open modes `sessions`: `num_icky_async_peropens` is the
number of sessions with O_ASYNC, and ICKY_ASYNC is set exactly when that
number is positive. -/
def async_invariant (sessions : List Nat) (g : Globals) : Bool :=
  decide (g.num_icky_async_peropens
    = ((sessions.filter (fun m => decide (m &&& O_ASYNC ≠ 0))).length : Int))
  && decide ((g.termflags &&& ICKY_ASYNC ≠ 0) ↔ 0 < g.num_icky_async_peropens)

/-- The state after one session has opened the closed terminal
`closed_globals` with O_READ and O_ASYNC (`open_hook`, then `po_create_hook`,
with `sample_env`). -/
def async_opened : Option World :=
  (open_hook sample_env 0 false (O_READ ||| O_ASYNC) 0 ⟨closed_globals, []⟩).map
    (fun r => (po_create_hook sample_env false (O_READ ||| O_ASYNC) r.2.2).2)

/-- What one of the open-mode calls on the only session leaves: the value
returned, the open modes of the session, `num_icky_async_peropens`, the
ICKY_ASYNC bit, and whether `async_invariant` holds. -/
def async_report (r : Nat × Option trivfs_protid × World) :
    Nat × List Nat × Int × Nat × Bool :=
  (r.1, (r.2.1.map (fun c => c.openmodes)).toList, r.2.2.g.num_icky_async_peropens,
    r.2.2.g.termflags &&& ICKY_ASYNC,
    async_invariant (r.2.1.map (fun c => c.openmodes)).toList r.2.2.g)

/-- The line modes and `external_processing` are the same in `g1` as in
`g`. -/
def keeps_modes (g g1 : Globals) : Prop :=
  g1.termstate = g.termstate ∧ g1.external_processing = g.external_processing

/-- What `set_state` calls (`abandon_physical_output`, `drain_output`,
`notice_input_flushed`, `set_bits`, `copy_rawq`, `rescan_inputq`) leaves the
line modes and `external_processing` alone, and `set_bits`, when it succeeds,
hands back the modes it was given. -/
def set_state_frame (env : Env) : Prop :=
  (∀ g, keeps_modes g (env.abandon_physical_output g).2) ∧
  (∀ g, keeps_modes g (env.drain_output g).2) ∧
  (∀ g, keeps_modes g (env.notice_input_flushed g)) ∧
  (∀ st g, keeps_modes g (env.set_bits st g).2.2) ∧
  (∀ st g, (env.set_bits st g).1 = 0 → (env.set_bits st g).2.1 = st) ∧
  (∀ g, keeps_modes g (env.copy_rawq g)) ∧
  (∀ g, keeps_modes g (env.rescan_inputq g))

/-- The checks at the head of `trivfs_S_io_write` all pass. -/
def write_permitted (cred : trivfs_protid) (w : World) : Prop :=
  cred.openmodes &&& O_WRITE ≠ 0 ∧
  ¬ (w.g.termstate.c_lflag &&& TOSTOP ≠ 0 ∧ fg_p w.g cred = 0) ∧
  ¬ (w.g.termflags &&& NO_CARRIER ≠ 0 ∧ w.g.termstate.c_cflag &&& CLOCAL = 0)

/-! ## libhurdutil/settrans.c: the flags chosen by `settrans`

The values below come from `<fcntl.h>` and `<hurd/hurd_types.h>`. -/

def O_CREAT : Int := 0x0010

def O_NOTRANS : Int := 0x0080

def FS_TRANS_EXCL : Int := 0x00000002

def FS_TRANS_SET : Int := 0x00000004

def FS_TRANS_ORPHAN : Int := 0x00000008

/-- The fields of `struct settrans_context` (hurdutil.h) that `settrans` reads
before its first call.  The option flags are the values read from the
bit-fields; of the strings and of `chroot_command` only whether they are null
matters here, and a non-null `node_name` is kept as text. -/
structure settrans_context where
  node_name : Option String
  lookup_flags : Int
  goaway_flags : Int
  passive : Int
  active : Int
  keep_active : Int
  kill_active : Int
  orphan : Int
  stack : Int
  excl : Int
  underlying_node_name : Option String
  underlying_lookup_flags : Int
  chroot_command : Option (List String)
deriving DecidableEq, Repr

/-- The locals of `settrans` that its flag selection assigns, as they stand at
`if (start)`; none of them is assigned again. -/
structure settrans_locals where
  underlying_node_name : Option String
  underlying_lookup_flags : Int
  passive : Int
  passive_flags : Int
  active_flags : Int
deriving DecidableEq, Repr

/-- The context left by `settrans_context_init`, with the node name given;
`underlying_lookup_flags` is not initialised there and is taken as 0. -/
def settrans_context_init (node_name : String) : settrans_context :=
  { node_name := some node_name
    lookup_flags := O_NOTRANS
    goaway_flags := 0
    passive := 0
    active := 0
    keep_active := 0
    kill_active := 0
    orphan := 0
    stack := 0
    excl := 0
    underlying_node_name := none
    underlying_lookup_flags := 0
    chroot_command := none }

/-- The C operator `a && b` on `int` operands. -/
def int_land (a b : Int) : Int := if a ≠ 0 ∧ b ≠ 0 then 1 else 0

/-- The statements of `settrans` from `if (stack)` to the end of
`if (passive && !active)`. -/
def settrans_flags (context : settrans_context) : settrans_locals :=
  let lookup_flags := context.lookup_flags
  let underlying_node_name : Option String :=
    if context.stack ≠ 0 then context.node_name else context.underlying_node_name
  let underlying_lookup_flags : Int :=
    if context.stack ≠ 0 then int_land lookup_flags (int_not O_NOTRANS) else lookup_flags
  let passive : Int :=
    if context.active = 0 ∧ context.passive = 0 ∧ context.chroot_command = none then 1
    else context.passive
  let passive_flags : Int :=
    if passive ≠ 0 then int_or FS_TRANS_SET (if context.excl ≠ 0 then FS_TRANS_EXCL else 0)
    else 0
  let active_flags0 : Int :=
    if context.active ≠ 0 then
      int_or (int_or FS_TRANS_SET (if context.excl ≠ 0 then FS_TRANS_EXCL else 0))
        (if context.orphan ≠ 0 then FS_TRANS_ORPHAN else 0)
    else 0
  let active_flags : Int :=
    if passive ≠ 0 ∧ context.active = 0 then
      if context.kill_active ≠ 0 then FS_TRANS_SET
      else if context.keep_active = 0 then int_or FS_TRANS_SET FS_TRANS_EXCL
      else active_flags0
    else active_flags0
  { underlying_node_name := underlying_node_name
    underlying_lookup_flags := underlying_lookup_flags
    passive := passive
    passive_flags := passive_flags
    active_flags := active_flags }

/-- The options of utils/settrans.c that set a flag of the context or a bit
of its lookup flags. -/
inductive settrans_option where
  | active
  | stack
  | passive
  | keep_active
  | goaway
  | exclusive
  | orphan
  | create
  | dereference
deriving DecidableEq, Repr

/-- The cases of `parse_opt` (utils/settrans.c) for these options.  The flags
are one-bit `int` bit-fields, which GCC takes as signed: the 1 stored reads
back as -1.  `settrans` only tests the flags against zero. -/
def parse_opt (key : settrans_option) (context : settrans_context) : settrans_context :=
  match key with
  | settrans_option.active => { context with active := -1 }
  | settrans_option.stack => { context with stack := -1, active := -1, orphan := -1 }
  | settrans_option.passive => { context with passive := -1 }
  | settrans_option.keep_active => { context with keep_active := -1 }
  | settrans_option.goaway => { context with kill_active := -1 }
  | settrans_option.exclusive => { context with excl := -1 }
  | settrans_option.orphan => { context with orphan := -1 }
  | settrans_option.create =>
    { context with lookup_flags := int_or context.lookup_flags O_CREAT }
  | settrans_option.dereference =>
    { context with lookup_flags := int_and context.lookup_flags (int_not O_NOTRANS) }

/-! ## Properties of the queue operations -/

theorem reallocate_queue_ce (q : queue) (h : queue_wf q) :
    (reallocate_queue q).ce = q.ce - q.cs := by
  obtain ⟨h1, h2, h3, h4⟩ := h
  simp only [reallocate_queue, List.length_take, List.length_drop]
  omega

theorem reallocate_queue_wf (q : queue) (h : queue_wf q) :
    queue_wf (reallocate_queue q) ∧ ((reallocate_queue q).ce : Int) < (reallocate_queue q).arraylen := by
  have hce := reallocate_queue_ce q h
  obtain ⟨h1, h2, h3, h4⟩ := h
  have hlen : (reallocate_queue q).array.length = 2 * q.arraylen.toNat := by
    simp only [reallocate_queue, List.length_append, List.length_take, List.length_drop,
      List.length_replicate]
    omega
  have hal : (reallocate_queue q).arraylen = 2 * q.arraylen := rfl
  have hcs : (reallocate_queue q).cs = 0 := rfl
  refine ⟨⟨?_, ?_, ?_, ?_⟩, ?_⟩ <;> omega

theorem reallocate_queue_contents (q : queue) :
    contents (reallocate_queue q) = contents q := by
  simp [contents, reallocate_queue]

theorem list_push_contents (l : List Int) (cs ce : Nat) (c : Int) (h1 : cs ≤ ce)
    (h2 : ce < l.length) :
    ((l.set ce c).drop cs).take (ce + 1 - cs) = (l.drop cs).take (ce - cs) ++ [c] := by
  apply List.ext_getElem?
  intro i
  simp only [List.getElem?_take, List.getElem?_drop, List.getElem?_set, List.getElem?_append,
    List.length_take, List.length_drop]
  by_cases hi : i < ce - cs
  · have a1 : i < ce + 1 - cs := by omega
    have a2 : ¬ ce = cs + i := by omega
    have a3 : i < min (ce - cs) (l.length - cs) := by omega
    simp [a1, a2, a3, hi]
  · by_cases hi2 : i = ce - cs
    · have a1 : i < ce + 1 - cs := by omega
      have a2 : ce = cs + i := by omega
      have a3 : ¬ i < min (ce - cs) (l.length - cs) := by omega
      have a4 : i - min (ce - cs) (l.length - cs) = 0 := by omega
      simp [a1, a3, a4, h2, ← a2]
    · have a1 : ¬ i < ce + 1 - cs := by omega
      have a3 : ¬ i < min (ce - cs) (l.length - cs) := by omega
      have a4 : i - min (ce - cs) (l.length - cs) = (i - (ce - cs) - 1) + 1 := by omega
      simp [a1, a3, a4]

/-- The queue in which `enqueue_internal` stores the new cell: the reallocated
one when the array is full, the given one otherwise. -/
theorem enqueue_room (q : queue) (h : queue_wf q) :
    ∃ q1 : queue, q1 = (if (q.ce : Int) = q.arraylen then reallocate_queue q else q) ∧
      queue_wf q1 ∧ (q1.ce : Int) < q1.arraylen ∧ contents q1 = contents q ∧
      qsize q1 = qsize q ∧ q1.susp = q.susp ∧ q1.lowat = q.lowat ∧ q1.hiwat = q.hiwat := by
  refine ⟨_, rfl, ?_⟩
  by_cases hfull : (q.ce : Int) = q.arraylen
  · rw [if_pos hfull]
    have hce := reallocate_queue_ce q h
    have hw := reallocate_queue_wf q h
    refine ⟨hw.1, hw.2, reallocate_queue_contents q, ?_, rfl, rfl, rfl⟩
    have hcs : (reallocate_queue q).cs = 0 := rfl
    have := h.1
    simp only [qsize, hce, hcs]
    omega
  · rw [if_neg hfull]
    have := h.2.1
    exact ⟨h, by omega, rfl, rfl, rfl, rfl, rfl⟩

theorem enqueue_internal_spec (q : queue) (id : queue_id) (c : Int) (h : queue_wf q) :
    queue_wf (enqueue_internal q id c).1 ∧
    qsize (enqueue_internal q id c).1 = qsize q + 1 ∧
    contents (enqueue_internal q id c).1 = contents q ++ [c] ∧
    (enqueue_internal q id c).1.lowat = q.lowat ∧
    (enqueue_internal q id c).1.hiwat = q.hiwat ∧
    (enqueue_internal q id c).1.susp
      = (if q.susp = 0 ∧ qsize q + 1 > q.hiwat then 1 else q.susp) := by
  obtain ⟨q1, hq1, hwf, hlt, hcont, hsz, hsusp, hlo, hhi⟩ := enqueue_room q h
  obtain ⟨w1, w2, w3, w4⟩ := hwf
  have hlen : q1.ce < q1.array.length := by omega
  have hpush := list_push_contents q1.array q1.cs q1.ce c w1 hlen
  simp only [enqueue_internal, ← hq1]
  have hsz2 : qsize { q1 with array := q1.array.set q1.ce c, ce := q1.ce + 1 } = qsize q + 1 := by
    rw [← hsz]
    simp only [qsize]
    push_cast
    ring
  rw [hsz2]
  simp only [hsusp, hhi]
  split
  · refine ⟨?_, ?_, ?_, hlo, rfl, rfl⟩
    · refine ⟨?_, ?_, ?_, w4⟩
      · show q1.cs ≤ q1.ce + 1
        omega
      · show ((q1.ce + 1 : Nat) : Int) ≤ q1.arraylen
        omega
      · show (((q1.array.set q1.ce c).length : Nat) : Int) = q1.arraylen
        rw [List.length_set]
        exact w3
    · rw [← hsz]
      simp only [qsize]
      push_cast
      ring
    · rw [← hcont]
      exact hpush
  · refine ⟨?_, ?_, ?_, hlo, rfl, rfl⟩
    · refine ⟨?_, ?_, ?_, w4⟩
      · show q1.cs ≤ q1.ce + 1
        omega
      · show ((q1.ce + 1 : Nat) : Int) ≤ q1.arraylen
        omega
      · show (((q1.array.set q1.ce c).length : Nat) : Int) = q1.arraylen
        rw [List.length_set]
        exact w3
    · rw [← hsz]
      simp only [qsize]
      push_cast
      ring
    · rw [← hcont]
      exact hpush

theorem list_pop_contents (l : List Int) (cs ce : Nat) (h1 : cs < ce) (h2 : ce ≤ l.length) :
    ∃ c, l[cs]? = some c ∧
      (l.drop cs).take (ce - cs) = c :: (l.drop (cs + 1)).take (ce - (cs + 1)) := by
  have hlt : cs < l.length := by omega
  refine ⟨l[cs], List.getElem?_eq_getElem hlt, ?_⟩
  have e : ce - cs = (ce - (cs + 1)) + 1 := by omega
  rw [List.drop_eq_getElem_cons hlt, e, List.take_succ_cons]

theorem dequeue_quote_spec (q : queue) (id : queue_id) (h : queue_wf q) (hne : qsize q ≠ 0) :
    ∃ c q1 e, dequeue_quote q id = some (c, q1, e) ∧ queue_wf q1 ∧
      qsize q1 = qsize q - 1 ∧ contents q = c :: contents q1 ∧
      q1.lowat = q.lowat ∧ q1.hiwat = q.hiwat ∧
      q1.susp = (if q.susp ≠ 0 ∧ qsize q < q.lowat then 0 else q.susp) := by
  obtain ⟨w1, w2, w3, w4⟩ := h
  have hlt : q.cs < q.ce := by
    simp only [qsize] at hne
    omega
  obtain ⟨c, hc, hcont⟩ := list_pop_contents q.array q.cs q.ce hlt (by omega)
  by_cases hcl : q.susp ≠ 0 ∧ qsize q < q.lowat
  · refine ⟨c, { q with susp := 0, cs := q.cs + 1 },
      Effect.condition_broadcast ::
        (if id = queue_id.outputq then [Effect.call_asyncs O_WRITE] else []),
      ?_, ?_, ?_, hcont, rfl, rfl, ?_⟩
    · have hd : decide (q.susp ≠ 0 ∧ qsize q < q.lowat) = true := decide_eq_true hcl
      simp only [dequeue_quote, if_neg hne, hd, Bool.true_or, if_true, hc]
    · exact ⟨by show q.cs + 1 ≤ q.ce; omega, w2, w3, w4⟩
    · simp only [qsize]
      push_cast
      ring
    · rw [if_pos hcl]
  · refine ⟨c, { q with cs := q.cs + 1 },
      (if qsize q = 1 then
        Effect.condition_broadcast ::
          (if id = queue_id.outputq then [Effect.call_asyncs O_WRITE] else [])
       else []),
      ?_, ?_, ?_, hcont, rfl, rfl, ?_⟩
    · have hd : decide (q.susp ≠ 0 ∧ qsize q < q.lowat) = false := decide_eq_false hcl
      simp only [dequeue_quote, if_neg hne, hd, Bool.false_or, hc]
      simp [hc]
    · exact ⟨by show q.cs + 1 ≤ q.ce; omega, w2, w3, w4⟩
    · simp only [qsize]
      push_cast
      ring
    · rw [if_neg hcl]

theorem dequeue_quote_empty (q : queue) (id : queue_id) (h : qsize q = 0) :
    dequeue_quote q id = none := by
  simp [dequeue_quote, h]

theorem stepOp_enq (id : queue_id) (q : queue) (op : QOp) (h : queue_wf q)
    (hop : op.isEnq = true) :
    ∃ q1, stepOp id q op = some q1 ∧ queue_wf q1 ∧ qsize q1 = qsize q + 1 ∧
      q1.hiwat = q.hiwat ∧
      q1.susp = (if q.susp = 0 ∧ qsize q + 1 > q.hiwat then 1 else q.susp) := by
  cases op with
  | enqueue c =>
    obtain ⟨a, b, _, _, d, f⟩ := enqueue_internal_spec q id (toShort c) h
    exact ⟨_, rfl, a, b, d, f⟩
  | enqueue_quote c =>
    obtain ⟨a, b, _, _, d, f⟩ :=
      enqueue_internal_spec q id (toShort (int_or c QUEUE_QUOTE_MARK)) h
    exact ⟨_, rfl, a, b, d, f⟩
  | dequeue => simp [QOp.isEnq] at hop
  | dequeue_quote => simp [QOp.isEnq] at hop

theorem stepOp_deq (id : queue_id) (q : queue) (op : QOp) (h : queue_wf q)
    (hop : op.isEnq = false) (hne : qsize q ≠ 0) :
    ∃ q1, stepOp id q op = some q1 ∧ queue_wf q1 ∧ qsize q1 = qsize q - 1 ∧
      q1.lowat = q.lowat ∧
      q1.susp = (if q.susp ≠ 0 ∧ qsize q < q.lowat then 0 else q.susp) := by
  obtain ⟨c, q1, e, hd, a, b, _, d, _, f⟩ := dequeue_quote_spec q id h hne
  cases op with
  | enqueue c => simp [QOp.isEnq] at hop
  | enqueue_quote c => simp [QOp.isEnq] at hop
  | dequeue => exact ⟨q1, by simp [stepOp, dequeue, hd], a, b, d, f⟩
  | dequeue_quote => exact ⟨q1, by simp [stepOp, hd], a, b, d, f⟩

theorem sizeAfter_nil (n : Int) : sizeAfter n [] = n := by
  simp [sizeAfter]

theorem sizeAfter_cons_enq (n : Int) (op : QOp) (ops : List QOp) (h : op.isEnq = true) :
    sizeAfter n (op :: ops) = sizeAfter (n + 1) ops := by
  simp only [sizeAfter, List.filter_cons, h, if_true, Bool.not_true, List.length_cons]
  simp only [Bool.false_eq_true, if_false]
  push_cast
  ring

theorem sizeAfter_cons_deq (n : Int) (op : QOp) (ops : List QOp) (h : op.isEnq = false) :
    sizeAfter n (op :: ops) = sizeAfter (n - 1) ops := by
  simp only [sizeAfter, List.filter_cons, h, Bool.not_false, if_true, List.length_cons]
  simp only [Bool.false_eq_true, if_false]
  push_cast
  ring

/-- C1. For a well-formed queue and a sequence of enqueue / enqueue_quote /
dequeue / dequeue_quote calls in which every dequeue finds the queue non-empty,
every prefix of the sequence runs to completion, the size it leaves is the
initial size plus the enqueues minus the dequeues of the prefix, and that size
is not negative. -/
theorem qsize_counts_operations (id : queue_id) (q : queue) (ops : List QOp)
    (hwf : queue_wf q)
    (hdeq : ∀ k op qk, ops[k]? = some op → op.isEnq = false →
      runOps id q (ops.take k) = some qk → qsize qk ≠ 0)
    (k : Nat) :
    (runOps id q (ops.take k)).map qsize = some (sizeAfter (qsize q) (ops.take k)) ∧
      0 ≤ sizeAfter (qsize q) (ops.take k) := by
  induction ops generalizing q k with
  | nil =>
    have := hwf.1
    simp only [List.take_nil, runOps, sizeAfter_nil, Option.map_some', qsize, true_and]
    omega
  | cons op rest ih =>
    cases k with
    | zero =>
      have := hwf.1
      simp only [List.take_zero, runOps, sizeAfter_nil, Option.map_some', qsize, true_and]
      omega
    | succ k =>
      rw [List.take_succ_cons]
      cases hop : op.isEnq with
      | true =>
        obtain ⟨q1, hs, hw1, hsz, _, _⟩ := stepOp_enq id q op hwf hop
        have ih1 := ih q1 hw1 (fun j o qj hj ho hr =>
          hdeq (j + 1) o qj (by simpa using hj) ho
            (by rw [List.take_succ_cons]; simpa [runOps, hs] using hr)) k
        rw [sizeAfter_cons_enq _ _ _ hop, ← hsz]
        simpa [runOps, hs] using ih1
      | false =>
        have hne : qsize q ≠ 0 := hdeq 0 op q (by simp) hop (by simp [runOps])
        obtain ⟨q1, hs, hw1, hsz, _, _⟩ := stepOp_deq id q op hwf hop hne
        have ih1 := ih q1 hw1 (fun j o qj hj ho hr =>
          hdeq (j + 1) o qj (by simpa using hj) ho
            (by rw [List.take_succ_cons]; simpa [runOps, hs] using hr)) k
        rw [sizeAfter_cons_deq _ _ _ hop, ← hsz]
        simpa [runOps, hs] using ih1

theorem qsize_counts_operations_witness :
    (runOps queue_id.inputq ⟨0, 1, 2, 0, 0, 2, [0, 0]⟩
        ([QOp.enqueue 65, QOp.enqueue_quote (-1), QOp.enqueue 66, QOp.dequeue,
          QOp.dequeue_quote].take 5)).map qsize
      = some (sizeAfter (qsize ⟨0, 1, 2, 0, 0, 2, [0, 0]⟩)
          ([QOp.enqueue 65, QOp.enqueue_quote (-1), QOp.enqueue 66, QOp.dequeue,
            QOp.dequeue_quote].take 5)) ∧
      0 ≤ sizeAfter (qsize ⟨0, 1, 2, 0, 0, 2, [0, 0]⟩)
          ([QOp.enqueue 65, QOp.enqueue_quote (-1), QOp.enqueue 66, QOp.dequeue,
            QOp.dequeue_quote].take 5) :=
  qsize_counts_operations queue_id.inputq ⟨0, 1, 2, 0, 0, 2, [0, 0]⟩
    [QOp.enqueue 65, QOp.enqueue_quote (-1), QOp.enqueue 66, QOp.dequeue, QOp.dequeue_quote]
    (by decide)
    (by
      intro k op qk h1 h2 h3
      rcases k with _ | _ | _ | _ | _ | k
      · simp at h1; subst h1; simp [QOp.isEnq] at h2
      · simp at h1; subst h1; simp [QOp.isEnq] at h2
      · simp at h1; subst h1; simp [QOp.isEnq] at h2
      · have e : runOps queue_id.inputq ⟨0, 1, 2, 0, 0, 2, [0, 0]⟩
            ([QOp.enqueue 65, QOp.enqueue_quote (-1), QOp.enqueue 66, QOp.dequeue,
              QOp.dequeue_quote].take 3) = some ⟨1, 1, 2, 0, 3, 4, [65, -1, 66, 0]⟩ := by decide
        rw [e] at h3
        cases h3
        decide
      · have e : runOps queue_id.inputq ⟨0, 1, 2, 0, 0, 2, [0, 0]⟩
            ([QOp.enqueue 65, QOp.enqueue_quote (-1), QOp.enqueue 66, QOp.dequeue,
              QOp.dequeue_quote].take 4) = some ⟨1, 1, 2, 1, 3, 4, [65, -1, 66, 0]⟩ := by decide
        rw [e] at h3
        cases h3
        decide
      · simp at h1)
    5

/-- What a completed `dequeue_quote` did, for any queue. -/
theorem dequeue_quote_some (q : queue) (id : queue_id) (c : Int) (q1 : queue)
    (e : List Effect) (h : dequeue_quote q id = some (c, q1, e)) :
    qsize q ≠ 0 ∧ q.array[q.cs]? = some c ∧
      q1 = { q with
        susp := (if q.susp ≠ 0 ∧ qsize q < q.lowat then 0 else q.susp)
        cs := q.cs + 1 } ∧
      e = (if (q.susp ≠ 0 ∧ qsize q < q.lowat) ∨ qsize q = 1 then
            Effect.condition_broadcast ::
              (if id = queue_id.outputq then [Effect.call_asyncs O_WRITE] else [])
           else []) := by
  by_cases hne : qsize q = 0
  · simp [dequeue_quote, hne] at h
  · by_cases hcl : q.susp ≠ 0 ∧ qsize q < q.lowat
    · have hd : decide (q.susp ≠ 0 ∧ qsize q < q.lowat) = true := decide_eq_true hcl
      simp only [dequeue_quote, if_neg hne, hd, Bool.true_or, if_true] at h
      cases hc : q.array[q.cs]? with
      | none => simp [hc] at h
      | some c0 =>
        simp only [hc, Option.some.injEq, Prod.mk.injEq] at h
        obtain ⟨h1, h2, h3⟩ := h
        subst h1 h2 h3
        refine ⟨hne, rfl, ?_, ?_⟩
        · rw [if_pos hcl]
        · rw [if_pos (Or.inl hcl)]
    · have hd : decide (q.susp ≠ 0 ∧ qsize q < q.lowat) = false := decide_eq_false hcl
      simp only [dequeue_quote, if_neg hne, hd, Bool.false_or, Bool.false_eq_true, if_false] at h
      cases hc : q.array[q.cs]? with
      | none => simp [hc] at h
      | some c0 =>
        simp only [hc, Option.some.injEq, Prod.mk.injEq] at h
        obtain ⟨h1, h2, h3⟩ := h
        subst h1 h2 h3
        refine ⟨hne, rfl, ?_, ?_⟩
        · rw [if_neg hcl]
        · simp [hcl]

/-- The flow-control fields after `enqueue_internal`, for any queue. -/
theorem enqueue_internal_flow (q : queue) (id : queue_id) (c : Int) :
    (enqueue_internal q id c).1.lowat = q.lowat ∧
    (enqueue_internal q id c).1.hiwat = q.hiwat ∧
    (enqueue_internal q id c).1.susp
      = (if q.susp = 0 ∧ qsize (enqueue_internal q id c).1 > q.hiwat then 1 else q.susp) := by
  by_cases hfull : (q.ce : Int) = q.arraylen
  · simp only [enqueue_internal, if_pos hfull, reallocate_queue]
    split <;> simp_all [qsize]
  · simp only [enqueue_internal, if_neg hfull]
    split <;> simp_all [qsize]

theorem stepOp_flow (id : queue_id) (q : queue) (op : QOp) (q1 : queue)
    (h : stepOp id q op = some q1) :
    q1.lowat = q.lowat ∧
    (op.isEnq = true → q.susp ≠ 0 → q1.susp ≠ 0) ∧
    (op.isEnq = false → qsize q1 = qsize q - 1 ∧
      q1.susp = (if q.susp ≠ 0 ∧ qsize q < q.lowat then 0 else q.susp)) := by
  cases op with
  | enqueue c =>
    simp only [stepOp, enqueue, Option.some.injEq] at h
    obtain ⟨a, _, f⟩ := enqueue_internal_flow q id (toShort c)
    rw [h] at a f
    refine ⟨a, fun _ hs => ?_, fun hop => by simp [QOp.isEnq] at hop⟩
    rw [f]
    split <;> simp_all
  | enqueue_quote c =>
    simp only [stepOp, enqueue_quote, Option.some.injEq] at h
    obtain ⟨a, _, f⟩ := enqueue_internal_flow q id (toShort (int_or c QUEUE_QUOTE_MARK))
    rw [h] at a f
    refine ⟨a, fun _ hs => ?_, fun hop => by simp [QOp.isEnq] at hop⟩
    rw [f]
    split <;> simp_all
  | dequeue =>
    simp only [stepOp, dequeue] at h
    cases hd : dequeue_quote q id with
    | none => simp [hd] at h
    | some r =>
      obtain ⟨c, q2, e⟩ := r
      simp only [hd, Option.map_some', Option.some.injEq] at h
      subst h
      obtain ⟨_, _, hq, _⟩ := dequeue_quote_some q id c q2 e hd
      subst hq
      refine ⟨rfl, fun hop => by simp [QOp.isEnq] at hop, fun _ => ⟨?_, rfl⟩⟩
      simp only [qsize]
      push_cast
      ring
  | dequeue_quote =>
    simp only [stepOp] at h
    cases hd : dequeue_quote q id with
    | none => simp [hd] at h
    | some r =>
      obtain ⟨c, q2, e⟩ := r
      simp only [hd, Option.map_some', Option.some.injEq] at h
      subst h
      obtain ⟨_, _, hq, _⟩ := dequeue_quote_some q id c q2 e hd
      subst hq
      refine ⟨rfl, fun hop => by simp [QOp.isEnq] at hop, fun _ => ⟨?_, rfl⟩⟩
      simp only [qsize]
      push_cast
      ring

theorem runOps_cons_some (id : queue_id) (q : queue) (op : QOp) (ops : List QOp) (qk : queue)
    (h : runOps id q (op :: ops) = some qk) :
    ∃ q1, stepOp id q op = some q1 ∧ runOps id q1 ops = some qk := by
  cases hs : stepOp id q op with
  | none => simp [runOps, hs] at h
  | some q1 => exact ⟨q1, rfl, by simpa [runOps, hs] using h⟩

theorem susp_stays_set (id : queue_id) (q : queue) (ops : List QOp) (hs : q.susp ≠ 0)
    (hlow : ∀ k op qk, ops[k]? = some op → op.isEnq = false →
      runOps id q (ops.take (k + 1)) = some qk → q.lowat ≤ qsize qk)
    (k : Nat) (qk : queue) (hrun : runOps id q (ops.take k) = some qk) :
    qk.susp ≠ 0 := by
  induction ops generalizing q k with
  | nil =>
    simp only [List.take_nil, runOps, Option.some.injEq] at hrun
    exact hrun ▸ hs
  | cons op rest ih =>
    cases k with
    | zero =>
      simp only [List.take_zero, runOps, Option.some.injEq] at hrun
      exact hrun ▸ hs
    | succ k =>
      rw [List.take_succ_cons] at hrun
      obtain ⟨q1, hstep, hrest⟩ := runOps_cons_some id q op _ qk hrun
      obtain ⟨hlo, henq, hdeq⟩ := stepOp_flow id q op q1 hstep
      have hs1 : q1.susp ≠ 0 := by
        cases hop : op.isEnq with
        | true => exact henq hop hs
        | false =>
          obtain ⟨hsz, hsusp⟩ := hdeq hop
          have h0 := hlow 0 op q1 (by simp) hop (by simp [runOps, hstep])
          rw [hsusp, if_neg (by intro hc; have := hc.2; omega)]
          exact hs
      refine ih q1 hs1 (fun j o qj hj ho hr => ?_) k hrest
      rw [hlo]
      refine hlow (j + 1) o qj (by simpa using hj) ho ?_
      rw [List.take_succ_cons]
      simpa [runOps, hstep] using hr

/-- C2. Suspension hysteresis.  Let Q be a queue whose `susp` flag is set.  No
enqueue or enqueue_quote clears the flag; and along every sequence of enqueue
and dequeue calls in which each dequeue leaves a size of at least `lowat`, the
flag is still set, and `qavail` is 0, after each call. -/
theorem susp_hysteresis (id : queue_id) (q : queue) (hs : q.susp ≠ 0) :
    (∀ c, (enqueue q id c).1.susp ≠ 0 ∧ (enqueue_quote q id c).1.susp ≠ 0) ∧
    (∀ ops : List QOp,
      (∀ k op qk, ops[k]? = some op → op.isEnq = false →
        runOps id q (ops.take (k + 1)) = some qk → q.lowat ≤ qsize qk) →
      ∀ k qk, runOps id q (ops.take k) = some qk → qk.susp ≠ 0 ∧ qavail qk = 0) := by
  refine ⟨fun c => ⟨?_, ?_⟩, fun ops hlow k qk hrun => ?_⟩
  · exact (stepOp_flow id q (QOp.enqueue c) _ rfl).2.1 rfl hs
  · exact (stepOp_flow id q (QOp.enqueue_quote c) _ rfl).2.1 rfl hs
  · have h := susp_stays_set id q ops hs hlow k qk hrun
    exact ⟨h, by simp [qavail, h]⟩

theorem susp_hysteresis_witness :
    (⟨1, 1, 2, 0, 3, 4, [65, -1, 66, 0]⟩ : queue).susp ≠ 0 ∧
    (⟨1, 1, 2, 2, 4, 4, [65, -1, 66, 7]⟩ : queue).susp ≠ 0 ∧
    qavail ⟨1, 1, 2, 2, 4, 4, [65, -1, 66, 7]⟩ = 0 :=
  ⟨by decide,
    (susp_hysteresis queue_id.outputq ⟨1, 1, 2, 0, 3, 4, [65, -1, 66, 0]⟩ (by decide)).2
      [QOp.dequeue, QOp.enqueue 7, QOp.dequeue_quote]
      (by
        intro k op qk h1 h2 h3
        rcases k with _ | _ | _ | k
        · have e : runOps queue_id.outputq ⟨1, 1, 2, 0, 3, 4, [65, -1, 66, 0]⟩
              ([QOp.dequeue, QOp.enqueue 7, QOp.dequeue_quote].take 1)
              = some ⟨1, 1, 2, 1, 3, 4, [65, -1, 66, 0]⟩ := by decide
          rw [e] at h3
          cases h3
          decide
        · simp at h1; subst h1; simp [QOp.isEnq] at h2
        · have e : runOps queue_id.outputq ⟨1, 1, 2, 0, 3, 4, [65, -1, 66, 0]⟩
              ([QOp.dequeue, QOp.enqueue 7, QOp.dequeue_quote].take 3)
              = some ⟨1, 1, 2, 2, 4, 4, [65, -1, 66, 7]⟩ := by decide
          rw [e] at h3
          cases h3
          decide
        · simp at h1)
      3 ⟨1, 1, 2, 2, 4, 4, [65, -1, 66, 7]⟩ (by decide)⟩

theorem runOps_all_enq (id : queue_id) (q : queue) (ops : List QOp) (hwf : queue_wf q)
    (hops : ∀ op ∈ ops, op.isEnq = true) :
    ∃ q1, runOps id q ops = some q1 ∧ qsize q1 = qsize q + ops.length ∧
      (q.susp ≠ 0 → q1.susp ≠ 0) ∧
      (q.susp = 0 → qsize q + ops.length ≤ q.hiwat → q1.susp = 0) ∧
      (q.susp = 0 → qsize q + ops.length > q.hiwat → ops.length ≠ 0 → q1.susp ≠ 0) := by
  induction ops generalizing q with
  | nil =>
    refine ⟨q, rfl, by simp, fun h => h, fun h _ => h, fun _ _ h => ?_⟩
    simp at h
  | cons op rest ih =>
    obtain ⟨q', hstep, hwf', hsz', hhi', hsusp'⟩ :=
      stepOp_enq id q op hwf (hops op (List.mem_cons_self _ _))
    obtain ⟨q1, hrun, hsz, hA, hB, hC⟩ :=
      ih q' hwf' (fun o ho => hops o (List.mem_cons_of_mem _ ho))
    refine ⟨q1, by simp [runOps, hstep, hrun], ?_, ?_, ?_, ?_⟩
    · rw [hsz, hsz', List.length_cons]
      push_cast
      ring
    · intro hne
      apply hA
      rw [hsusp', if_neg (fun hc => hne hc.1)]
      exact hne
    · intro h0 hle
      rw [List.length_cons] at hle
      push_cast at hle
      apply hB
      · rw [hsusp', if_neg (by intro hc; have := hc.2; omega)]
        exact h0
      · rw [hsz', hhi']
        omega
    · intro h0 hgt _
      rw [List.length_cons] at hgt
      push_cast at hgt
      by_cases hnow : qsize q + 1 > q.hiwat
      · apply hA
        rw [hsusp', if_pos ⟨h0, hnow⟩]
        decide
      · apply hC
        · rw [hsusp', if_neg (fun hc => hnow hc.2)]
          exact h0
        · rw [hsz', hhi']
          omega
        · intro hlen
          rw [hlen] at hgt
          omega

set_option maxRecDepth 20000 in
/-- C3 (the code at the failing input).  The output queue holds exactly `lowat`
= 100 characters and is suspended.  `dequeue_quote` leaves 99 characters,
strictly below `lowat`, with `susp` still set, `qavail` 0 and no broadcast;
`dequeue` does the same.  `queue_erase`, which tests the size after the
removal, clears `susp` and broadcasts on the same queue. -/
theorem dequeue_quote_at_lowat_keeps_susp :
    dequeue_quote ⟨1, 100, 300, 0, 100, 256, List.replicate 256 65⟩ queue_id.outputq
      = some (65, ⟨1, 100, 300, 1, 100, 256, List.replicate 256 65⟩, []) ∧
    dequeue ⟨1, 100, 300, 0, 100, 256, List.replicate 256 65⟩ queue_id.outputq
      = some (65, ⟨1, 100, 300, 1, 100, 256, List.replicate 256 65⟩, []) ∧
    qsize ⟨1, 100, 300, 1, 100, 256, List.replicate 256 65⟩ = 99 ∧
    qavail ⟨1, 100, 300, 1, 100, 256, List.replicate 256 65⟩ = 0 ∧
    queue_erase ⟨1, 100, 300, 0, 100, 256, List.replicate 256 65⟩
      = some (65, ⟨0, 100, 300, 0, 99, 256, List.replicate 256 65⟩,
          [Effect.condition_broadcast]) := by
  refine ⟨?_, ?_, ?_, ?_, ?_⟩ <;> decide

/-- C4. After `enqueue_internal` the `susp` flag is set exactly when it was set
before or the size after the append exceeds `hiwat`: it becomes 1 when it was
clear and the new size exceeds `hiwat`, and keeps its value otherwise.  On an
empty, unsuspended, well-formed queue, after at most `hiwat` enqueues `qavail`
is 1, and after `hiwat + 1` enqueues it is 0. -/
theorem enqueue_sets_susp_above_hiwat (q : queue) (id : queue_id) :
    (∀ c, ((enqueue_internal q id c).1.susp ≠ 0 ↔
        (q.susp ≠ 0 ∨ qsize (enqueue_internal q id c).1 > (enqueue_internal q id c).1.hiwat)) ∧
      (q.susp = 0 → qsize (enqueue_internal q id c).1 > q.hiwat →
        (enqueue_internal q id c).1.susp = 1) ∧
      (q.susp = 0 → qsize (enqueue_internal q id c).1 ≤ q.hiwat →
        (enqueue_internal q id c).1.susp = 0) ∧
      (q.susp ≠ 0 → (enqueue_internal q id c).1.susp = q.susp)) ∧
    (queue_wf q → qsize q = 0 → q.susp = 0 → 0 ≤ q.hiwat →
      ∀ ops : List QOp, (∀ op ∈ ops, op.isEnq = true) →
        (((ops.length : Int) ≤ q.hiwat → (runOps id q ops).map qavail = some 1) ∧
         ((ops.length : Int) = q.hiwat + 1 → (runOps id q ops).map qavail = some 0))) := by
  refine ⟨fun c => ?_, fun hwf hempty hs hhi0 ops hops => ?_⟩
  · obtain ⟨_, hhi, hsusp⟩ := enqueue_internal_flow q id c
    rw [hhi, hsusp]
    refine ⟨?_, ?_, ?_, ?_⟩
    · by_cases h0 : q.susp = 0
      · by_cases hgt : qsize (enqueue_internal q id c).1 > q.hiwat
        · simp [h0, hgt]
        · simp [h0, hgt]
      · simp [h0]
    · intro h0 hgt
      rw [if_pos ⟨h0, hgt⟩]
    · intro h0 hle
      rw [if_neg (by intro hc; have := hc.2; omega)]
      exact h0
    · intro hne
      rw [if_neg (fun hc => hne hc.1)]
  · obtain ⟨q1, hrun, hsz, _, hB, hC⟩ := runOps_all_enq id q ops hwf hops
    rw [hrun]
    simp only [Option.map_some', qavail, Option.some.injEq]
    constructor
    · intro hle
      have : q1.susp = 0 := hB hs (by omega)
      simp [this]
    · intro heq
      have : q1.susp ≠ 0 := hC hs (by omega) (by omega)
      simp [this]

/-- C5. `clear_queue` is idempotent: clearing a cleared queue gives the same
queue as clearing once, whatever the size and suspension were; the queue left
is empty, unsuspended, available, has the watermarks it had, and each call
broadcasts on the wait condition. -/
theorem clear_queue_idempotent (q : queue) :
    (clear_queue (clear_queue q).1).1 = (clear_queue q).1 ∧
    qsize (clear_queue q).1 = 0 ∧
    (clear_queue q).1.susp = 0 ∧
    qavail (clear_queue q).1 = 1 ∧
    (clear_queue q).1.lowat = q.lowat ∧
    (clear_queue q).1.hiwat = q.hiwat ∧
    qsize (clear_queue (clear_queue q).1).1 = 0 ∧
    qavail (clear_queue (clear_queue q).1).1 = 1 ∧
    (clear_queue q).2 = [Effect.condition_broadcast] ∧
    (clear_queue (clear_queue q).1).2 = [Effect.condition_broadcast] := by
  simp [clear_queue, qsize, qavail]

theorem enqueue_sets_susp_above_hiwat_witness :
    (runOps queue_id.outputq ⟨0, 1, 2, 0, 0, 2, [0, 0]⟩
        [QOp.enqueue 1, QOp.enqueue_quote 2]).map qavail = some 1 ∧
    (runOps queue_id.outputq ⟨0, 1, 2, 0, 0, 2, [0, 0]⟩
        [QOp.enqueue 1, QOp.enqueue_quote 2, QOp.enqueue 3]).map qavail = some 0 :=
  ⟨((enqueue_sets_susp_above_hiwat ⟨0, 1, 2, 0, 0, 2, [0, 0]⟩ queue_id.outputq).2
      (by decide) (by decide) (by decide) (by decide)
      [QOp.enqueue 1, QOp.enqueue_quote 2] (by decide)).1 (by decide),
   ((enqueue_sets_susp_above_hiwat ⟨0, 1, 2, 0, 0, 2, [0, 0]⟩ queue_id.outputq).2
      (by decide) (by decide) (by decide) (by decide)
      [QOp.enqueue 1, QOp.enqueue_quote 2, QOp.enqueue 3] (by decide)).2 (by decide)⟩

theorem contents_length (q : queue) (h : queue_wf q) :
    ((contents q).length : Int) = qsize q := by
  obtain ⟨h1, h2, h3, _⟩ := h
  simp only [contents, List.length_take, List.length_drop, qsize]
  omega

theorem unquote_char_cell (c : Int) (h1 : -128 ≤ c) (h2 : c ≤ 127) :
    unquote_char (toShort c) = c ∧ unquote_char (toShort (int_or c QUEUE_QUOTE_MARK)) = c := by
  interval_cases c <;> exact ⟨rfl, rfl⟩

theorem enqueue_all_spec (id : queue_id) (q : queue) (items : List (Bool × Int))
    (h : queue_wf q) :
    queue_wf (enqueue_all id q items) ∧
      contents (enqueue_all id q items) = contents q ++ items.map cell_of := by
  induction items generalizing q with
  | nil => simp [enqueue_all, h]
  | cons it rest ih =>
    obtain ⟨quoted, c⟩ := it
    cases quoted with
    | true =>
      obtain ⟨a, _, b, _⟩ := enqueue_internal_spec q id (toShort (int_or c QUEUE_QUOTE_MARK)) h
      obtain ⟨w, e⟩ := ih (enqueue_quote q id c).1 a
      refine ⟨by simpa [enqueue_all] using w, ?_⟩
      simp only [enqueue_all, if_true, e]
      simp only [enqueue_quote, b, cell_of, if_true, List.map_cons, List.append_assoc,
        List.singleton_append]
    | false =>
      obtain ⟨a, _, b, _⟩ := enqueue_internal_spec q id (toShort c) h
      obtain ⟨w, e⟩ := ih (enqueue q id c).1 a
      refine ⟨by simpa [enqueue_all] using w, ?_⟩
      simp only [enqueue_all, Bool.false_eq_true, if_false, e]
      simp only [enqueue, b, cell_of, Bool.false_eq_true, if_false, List.map_cons,
        List.append_assoc, List.singleton_append]

theorem dequeue_n_spec (id : queue_id) (n : Nat) (q : queue) (h : queue_wf q)
    (hn : (contents q).length = n) :
    ∃ q2, dequeue_n id n q = some ((contents q).map unquote_char, q2) ∧ qsize q2 = 0 := by
  induction n generalizing q with
  | zero =>
    have hsz := contents_length q h
    rw [hn] at hsz
    have hnil : contents q = [] := List.length_eq_zero.mp hn
    exact ⟨q, by simp [dequeue_n, hnil], by simpa using hsz.symm⟩
  | succ n ih =>
    have hsz := contents_length q h
    rw [hn] at hsz
    have hne : qsize q ≠ 0 := by
      rw [← hsz]
      push_cast
      omega
    obtain ⟨c, q1, e, hd, hw1, _, hcont, _⟩ := dequeue_quote_spec q id h hne
    have hn1 : (contents q1).length = n := by
      rw [hcont, List.length_cons] at hn
      omega
    obtain ⟨q2, hrun, hz⟩ := ih q1 hw1 hn1
    refine ⟨q2, ?_, hz⟩
    simp [dequeue_n, dequeue, hd, hrun, hcont, unquote_char]

theorem enqueue_internal_in_place (q : queue) (id : queue_id) (c : Int)
    (h : (q.ce : Int) ≠ q.arraylen) :
    (enqueue_internal q id c).1.arraylen = q.arraylen ∧
      (enqueue_internal q id c).1.ce = q.ce + 1 := by
  simp only [enqueue_internal, if_neg h]
  split <;> exact ⟨rfl, rfl⟩

theorem enqueue_all_in_place (id : queue_id) (q : queue) (items : List (Bool × Int))
    (hroom : (q.ce : Int) + items.length ≤ q.arraylen) :
    (enqueue_all id q items).arraylen = q.arraylen := by
  induction items generalizing q with
  | nil => rfl
  | cons it rest ih =>
    obtain ⟨quoted, c⟩ := it
    rw [List.length_cons] at hroom
    push_cast at hroom
    have hne : (q.ce : Int) ≠ q.arraylen := by omega
    cases quoted with
    | true =>
      obtain ⟨a, b⟩ := enqueue_internal_in_place q id (toShort (int_or c QUEUE_QUOTE_MARK)) hne
      have := ih (enqueue_quote q id c).1 (by
        simp only [enqueue_quote, a, b]
        push_cast
        omega)
      simpa [enqueue_all, enqueue_quote, a] using this
    | false =>
      obtain ⟨a, b⟩ := enqueue_internal_in_place q id (toShort c) hne
      have := ih (enqueue q id c).1 (by
        simp only [enqueue, a, b]
        push_cast
        omega)
      simpa [enqueue_all, enqueue, a] using this

/-- C6. FIFO round trip.  Characters (each a `char` value, -128..127) are
appended to an empty well-formed queue by any mix of `enqueue` and
`enqueue_quote`, staying within the array (which is then not reallocated).  As
many calls of `dequeue` then all complete and return exactly those characters,
in order and unchanged, and leave the queue empty. -/
theorem fifo_round_trip (id : queue_id) (q : queue) (items : List (Bool × Int))
    (hwf : queue_wf q) (hempty : qsize q = 0)
    (hchars : ∀ it ∈ items, -128 ≤ it.2 ∧ it.2 ≤ 127)
    (hroom : (q.ce : Int) + items.length ≤ q.arraylen) :
    (dequeue_n id items.length (enqueue_all id q items)).map Prod.fst
        = some (items.map Prod.snd) ∧
    (dequeue_n id items.length (enqueue_all id q items)).map (fun r => qsize r.2)
        = some 0 ∧
    (enqueue_all id q items).arraylen = q.arraylen := by
  obtain ⟨hw, hc⟩ := enqueue_all_spec id q items hwf
  have hnil : contents q = [] := by
    have := contents_length q hwf
    rw [hempty] at this
    exact List.length_eq_zero.mp (by exact_mod_cast this)
  rw [hnil, List.nil_append] at hc
  obtain ⟨q2, hrun, hz⟩ := dequeue_n_spec id items.length _ hw (by simp [hc])
  rw [hrun, hc]
  refine ⟨?_, by simp [hz], enqueue_all_in_place id q items hroom⟩
  simp only [Option.map_some', List.map_map, Option.some.injEq]
  apply List.map_congr_left
  intro it hit
  obtain ⟨h1, h2⟩ := hchars it hit
  obtain ⟨u1, u2⟩ := unquote_char_cell it.2 h1 h2
  cases hq : it.1 <;> simp [cell_of, hq, u1, u2]

theorem fifo_round_trip_witness :
    (dequeue_n queue_id.inputq 3
        (enqueue_all queue_id.inputq ⟨0, 100, 300, 1, 1, 4, [0, 0, 0, 0]⟩
          [(false, 65), (true, -1), (false, -128)])).map Prod.fst
      = some [65, -1, -128] ∧
    (dequeue_n queue_id.inputq 3
        (enqueue_all queue_id.inputq ⟨0, 100, 300, 1, 1, 4, [0, 0, 0, 0]⟩
          [(false, 65), (true, -1), (false, -128)])).map (fun r => qsize r.2)
      = some 0 ∧
    (enqueue_all queue_id.inputq ⟨0, 100, 300, 1, 1, 4, [0, 0, 0, 0]⟩
        [(false, 65), (true, -1), (false, -128)]).arraylen = 4 :=
  fifo_round_trip queue_id.inputq ⟨0, 100, 300, 1, 1, 4, [0, 0, 0, 0]⟩
    [(false, 65), (true, -1), (false, -128)] (by decide) (by decide) (by decide) (by decide)

/-- C7 (the code at the failing input).  The character 0x80, which is -128 as a
`char`, is added to an empty input queue with plain `enqueue`.  The cell read
back by `dequeue_quote` is -128 (0xff80) and `char_quoted_p` of it is 0xf000,
not 0: the character reads back as quoted.  For comparison, `enqueue` of 65
reads back with `char_quoted_p` 0 and `enqueue_quote` of 65 with 0xf000. -/
theorem enqueue_high_char_reads_quoted :
    (dequeue_quote (enqueue ⟨0, 100, 300, 0, 0, 4, [0, 0, 0, 0]⟩ queue_id.inputq (-128)).1
        queue_id.inputq).map (fun r => (r.1, char_quoted_p r.1)) = some (-128, 0xf000) ∧
    (dequeue_quote (enqueue ⟨0, 100, 300, 0, 0, 4, [0, 0, 0, 0]⟩ queue_id.inputq 65).1
        queue_id.inputq).map (fun r => (r.1, char_quoted_p r.1)) = some (65, 0) ∧
    (dequeue_quote (enqueue_quote ⟨0, 100, 300, 0, 0, 4, [0, 0, 0, 0]⟩ queue_id.inputq 65).1
        queue_id.inputq).map (fun r => (r.1, char_quoted_p r.1)) = some (-4031, 0xf000) := by
  refine ⟨?_, ?_, ?_⟩ <;> decide

/-- The quoting test on the cells the two enqueue calls store, for every `char`
value: plain `enqueue` gives 0 for 0..127 and 0xf000 for -128..-1;
`enqueue_quote` gives 0xf000 throughout. -/
theorem char_quoted_p_cells (c : Int) (h1 : -128 ≤ c) (h2 : c ≤ 127) :
    char_quoted_p (toShort c) = (if 0 ≤ c then 0 else 0xf000) ∧
      char_quoted_p (toShort (int_or c QUEUE_QUOTE_MARK)) = 0xf000 := by
  interval_cases c <;> exact ⟨rfl, rfl⟩

theorem toInt32_of_range (x : Int) (h1 : -2147483648 ≤ x) (h2 : x ≤ 2147483647) :
    toInt32 x = x := by
  unfold toInt32
  omega

/-- C8. `fg_p` returns 1 (foreground) for every session when NO_OWNER is set
in `termflags`, for every session whose attached pid equals `foreground_id`,
and for every session whose attached pgrp (a `pid_t`) equals
`-foreground_id`. -/
theorem fg_p_foreground_cases (g : Globals) (cred : trivfs_protid) :
    (g.termflags &&& NO_OWNER ≠ 0 → fg_p g cred = 1) ∧
    (∀ hook, cred.hook = some hook → hook.pid = g.foreground_id → fg_p g cred = 1) ∧
    (∀ hook, cred.hook = some hook → hook.pgrp = -g.foreground_id →
      -2147483648 ≤ hook.pgrp → hook.pgrp ≤ 2147483647 → fg_p g cred = 1) := by
  refine ⟨fun h => ?_, fun hook hh hp => ?_, fun hook hh hp r1 r2 => ?_⟩
  · cases hh : cred.hook with
    | none => simp [fg_p, hh]
    | some hook => simp [fg_p, hh, h]
  · simp only [fg_p, hh]
    split
    · rfl
    · simp [hp]
  · simp only [fg_p, hh]
    split
    · rfl
    · have : toInt32 (-g.foreground_id) = hook.pgrp := by
        rw [← hp]
        exact toInt32_of_range _ r1 r2
      simp [this]

theorem fg_p_foreground_cases_witness :
    fg_p { sample_globals with termflags := TTY_OPEN ||| NO_OWNER }
        ⟨port_class.tty_class, O_READ, some ⟨1, 7, 7⟩⟩ = 1 ∧
    fg_p sample_globals ⟨port_class.tty_class, O_READ, some ⟨1, 42, 7⟩⟩ = 1 ∧
    fg_p sample_globals ⟨port_class.tty_class, O_READ, some ⟨1, 7, -42⟩⟩ = 1 :=
  ⟨(fg_p_foreground_cases { sample_globals with termflags := TTY_OPEN ||| NO_OWNER }
      ⟨port_class.tty_class, O_READ, some ⟨1, 7, 7⟩⟩).1 (by decide),
   (fg_p_foreground_cases sample_globals
      ⟨port_class.tty_class, O_READ, some ⟨1, 42, 7⟩⟩).2.1 ⟨1, 42, 7⟩ rfl rfl,
   (fg_p_foreground_cases sample_globals
      ⟨port_class.tty_class, O_READ, some ⟨1, 7, -42⟩⟩).2.2 ⟨1, 7, -42⟩ rfl rfl
      (by decide) (by decide)⟩

/-- C9 (counterexample).  The terminal has an owner (NO_OWNER clear,
foreground id 42) and the session has no attached identity; `fg_p` returns 1,
so the session is foreground, not background. -/
theorem fg_p_no_identity_is_foreground :
    sample_globals.termflags &&& NO_OWNER = 0 ∧
    (⟨port_class.tty_class, O_READ ||| O_WRITE, none⟩ : trivfs_protid).hook = none ∧
    fg_p sample_globals ⟨port_class.tty_class, O_READ ||| O_WRITE, none⟩ = 1 := by
  decide

/-- C9 (amended).  `fg_p` returns 0 (background) exactly when the terminal has
an owner (NO_OWNER clear) and the session has an attached identity whose pid
differs from `foreground_id` and whose pgrp differs from `-foreground_id`; in
every other case, and so for every session with no attached identity, it
returns 1.  (`foreground_id` is an `int` whose negation is representable.) -/
theorem fg_p_background_iff (g : Globals) (cred : trivfs_protid)
    (hlo : -2147483648 < g.foreground_id) (hhi : g.foreground_id ≤ 2147483647) :
    (fg_p g cred = 0 ↔
      (g.termflags &&& NO_OWNER = 0 ∧
        ∃ hook, cred.hook = some hook ∧ hook.pid ≠ g.foreground_id ∧
          hook.pgrp ≠ -g.foreground_id)) ∧
    (fg_p g cred = 0 ∨ fg_p g cred = 1) ∧
    (cred.hook = none → fg_p g cred = 1) := by
  have hneg : toInt32 (-g.foreground_id) = -g.foreground_id :=
    toInt32_of_range _ (by omega) (by omega)
  cases hh : cred.hook with
  | none => simp [fg_p, hh]
  | some hook =>
    simp only [fg_p, hh, hneg]
    by_cases h1 : g.termflags &&& NO_OWNER = 0
    · by_cases h2 : hook.pid = g.foreground_id ∨ hook.pgrp = -g.foreground_id
      · simp [h1, h2]
        tauto
      · simp [h1, h2]
        tauto
    · simp [h1]

theorem fg_p_background_iff_witness :
    fg_p sample_globals ⟨port_class.tty_class, O_READ, some ⟨1, 7, 7⟩⟩ = 0 :=
  ((fg_p_background_iff sample_globals ⟨port_class.tty_class, O_READ, some ⟨1, 7, 7⟩⟩
      (by decide) (by decide)).1).2
    ⟨by decide, ⟨1, 7, 7⟩, rfl, by decide, by decide⟩

theorem write_wait_trace (env : Env) (fuel : Nat) (err : Nat) (w : World)
    (cancel : Int) (err1 : Nat) (w1 : World)
    (h : write_wait env fuel err w = some (cancel, err1, w1)) :
    ∃ added, w1.trace = w.trace ++ added ∧
      (err1 = err ∨ Event.start_output err1 ∈ added) := by
  induction fuel generalizing err w with
  | zero =>
    unfold write_wait at h
    split at h
    · simp only [Option.some.injEq, Prod.mk.injEq] at h
      obtain ⟨_, h2, h3⟩ := h
      exact ⟨[], by simp [← h3], Or.inl h2.symm⟩
    · simp at h
  | succ fuel ih =>
    unfold write_wait at h
    split at h
    · simp only [Option.some.injEq, Prod.mk.injEq] at h
      obtain ⟨_, h2, h3⟩ := h
      exact ⟨[], by simp [← h3], Or.inl h2.symm⟩
    · simp only at h
      split at h
      · simp only [Option.some.injEq, Prod.mk.injEq] at h
        obtain ⟨_, h2, h3⟩ := h
        exact ⟨[Event.start_output (env.start_output w.g).1], by simp [← h3],
          Or.inr (by simp [← h2])⟩
      · split at h
        · split at h
          · simp only [Option.some.injEq, Prod.mk.injEq] at h
            obtain ⟨_, h2, h3⟩ := h
            exact ⟨_, by rw [← h3, List.append_assoc], Or.inr (by simp [← h2])⟩
          · obtain ⟨added, ha, hb⟩ := ih _ _ h
            refine ⟨_, by rw [ha, List.append_assoc, List.append_assoc], ?_⟩
            rcases hb with hb | hb
            · exact Or.inr (by simp [hb])
            · exact Or.inr (by simp [hb])
        · obtain ⟨added, ha, hb⟩ := ih _ _ h
          refine ⟨_, by rw [ha, List.append_assoc], ?_⟩
          rcases hb with hb | hb
          · exact Or.inr (by simp [hb])
          · exact Or.inr (by simp [hb])

theorem write_loop_trace (env : Env) (fuel : Nat) (data : List Int) (i : Nat) (err : Nat)
    (w : World) (i1 : Nat) (cancel : Int) (err1 : Nat) (w1 : World)
    (h : write_loop env fuel data i err w = some (i1, cancel, err1, w1)) :
    ∃ added, w1.trace = w.trace ++ added ∧
      (err1 = err ∨ Event.start_output err1 ∈ added) := by
  induction data generalizing i err w with
  | nil =>
    simp only [write_loop, Option.some.injEq, Prod.mk.injEq] at h
    obtain ⟨_, _, h3, h4⟩ := h
    exact ⟨[], by simp [← h4], Or.inl h3.symm⟩
  | cons c rest ih =>
    simp only [write_loop] at h
    cases hw : write_wait env fuel err w with
    | none => simp [hw] at h
    | some r =>
      obtain ⟨cancel0, err0, w0⟩ := r
      obtain ⟨added0, ha0, hb0⟩ := write_wait_trace env fuel err w cancel0 err0 w0 hw
      simp only [hw] at h
      split at h
      · simp only [Option.some.injEq, Prod.mk.injEq] at h
        obtain ⟨_, _, h3, h4⟩ := h
        exact ⟨added0, by rw [← h4, ha0], by rw [← h3]; exact hb0⟩
      · obtain ⟨added, ha, hb⟩ := ih _ _ _ h
        refine ⟨added0 ++ (Event.write_character c :: added), ?_, ?_⟩
        · rw [ha, ha0]
          simp
        · rcases hb with hb | hb
          · rcases hb0 with hb0 | hb0
            · exact Or.inl (hb.trans hb0)
            · exact Or.inr (by simp [hb, hb0])
          · exact Or.inr (by simp [hb])

theorem report_sig_end_trace (w : World) :
    ∃ added, (report_sig_end w).trace = w.trace ++ added := by
  simp only [report_sig_end]
  split
  · exact ⟨_, rfl⟩
  · exact ⟨[], by simp⟩

theorem call_asyncs_trace (env : Env) (dir : Nat) (w : World) :
    ∃ added, (call_asyncs env dir w).trace = w.trace ++ added := by
  by_cases h1 : w.g.termflags &&& ICKY_ASYNC = 0 ∧ w.g.async_requests = []
  · exact ⟨[], by simp only [call_asyncs, if_pos h1, List.append_nil]⟩
  · by_cases h2 : (dir &&& O_READ = 0 ∨ qsize w.g.inputq = 0)
        ∧ (dir &&& O_WRITE = 0 ∧ qavail w.g.outputq = 0)
    · exact ⟨[], by simp only [call_asyncs, if_neg h1, if_pos h2, List.append_nil]⟩
    · by_cases h3 : w.g.termflags &&& ICKY_ASYNC ≠ 0 ∧ w.g.termflags &&& NO_OWNER = 0
      · obtain ⟨added, ha⟩ := report_sig_end_trace
          { g := env.hurd_sig_post (report_sig_start w).g.foreground_id SIGIO (report_sig_start w).g
            trace := (report_sig_start w).trace
              ++ [Event.hurd_sig_post (report_sig_start w).g.foreground_id SIGIO] }
        simp only [call_asyncs, if_neg h1, if_neg h2, if_pos h3, ha]
        simp only [report_sig_start, List.append_assoc]
        exact ⟨_, rfl⟩
      · simp only [call_asyncs, if_neg h1, if_neg h2, if_neg h3]
        exact ⟨_, rfl⟩

theorem io_write_permitted (env : Env) (fuel : Nat) (cred : trivfs_protid)
    (data : List Int) (w : World) (htty : cred.pi_class ≠ port_class.pty_class)
    (hp : write_permitted cred w) (err : Nat) (amt : Option Int) (w1 : World)
    (h : trivfs_S_io_write env fuel (some cred) data w = some (err, amt, w1)) :
    amt ≠ none ∧
    ∃ added, w1.trace = w.trace ++ added ∧ Event.trivfs_set_mtime ∈ added ∧
      (err = 0 ∨ err = EINTR ∨ Event.start_output err ∈ added) := by
  obtain ⟨h1, h2, h3⟩ := hp
  simp only [trivfs_S_io_write, if_neg htty, if_neg h1, if_neg h2, if_neg h3] at h
  cases hl : write_loop env fuel data 0 0 w with
  | none => simp [hl] at h
  | some r =>
    obtain ⟨i, cancel, err0, w0⟩ := r
    obtain ⟨added0, ha0, hb0⟩ := write_loop_trace env fuel data 0 0 w i cancel err0 w0 hl
    simp only [hl, Option.some.injEq, Prod.mk.injEq] at h
    obtain ⟨he, hamt, hw⟩ := h
    refine ⟨by rw [← hamt]; simp, ?_⟩
    obtain ⟨added2, ha2⟩ := call_asyncs_trace env O_WRITE
      { (if err0 = 0 ∧ data.length ≠ 0 then
          ({ g := (env.start_output w0.g).2
             trace := w0.trace ++ [Event.start_output (env.start_output w0.g).1] } : World)
         else w0) with
        trace := (if err0 = 0 ∧ data.length ≠ 0 then
            ({ g := (env.start_output w0.g).2
               trace := w0.trace ++ [Event.start_output (env.start_output w0.g).1] } : World)
           else w0).trace ++ [Event.trivfs_set_mtime] }
    rw [hw] at ha2
    have herr : err = 0 ∨ err = EINTR ∨ err = err0 ∧ err0 ≠ 0 := by
      rw [← he]
      split
      · split
        · rename_i hne
          exact Or.inr (Or.inr ⟨rfl, hne⟩)
        · exact Or.inr (Or.inl rfl)
      · exact Or.inl rfl
    have hsrc : err0 ≠ 0 → Event.start_output err0 ∈ added0 := by
      intro hne
      rcases hb0 with hb0 | hb0
      · exact absurd hb0 hne
      · exact hb0
    by_cases hso : err0 = 0 ∧ data.length ≠ 0
    · rw [if_pos hso] at ha2
      simp only at ha2
      refine ⟨added0 ++ [Event.start_output (env.start_output w0.g).1]
          ++ [Event.trivfs_set_mtime] ++ added2, ?_, by simp, ?_⟩
      · rw [ha2, ha0]
        simp
      · rcases herr with h0 | h0 | ⟨h0, h0'⟩
        · exact Or.inl h0
        · exact Or.inr (Or.inl h0)
        · exact absurd hso.1 h0'
    · rw [if_neg hso] at ha2
      refine ⟨added0 ++ [Event.trivfs_set_mtime] ++ added2, ?_, by simp, ?_⟩
      · rw [ha2, ha0]
        simp
      · rcases herr with h0 | h0 | ⟨h0, h0'⟩
        · exact Or.inl h0
        · exact Or.inr (Or.inl h0)
        · refine Or.inr (Or.inr ?_)
          rw [h0]
          simp [hsrc h0']

theorem io_write_ebadf (env : Env) (fuel : Nat) (cred : trivfs_protid) (data : List Int)
    (w : World) (htty : cred.pi_class ≠ port_class.pty_class)
    (h1 : cred.openmodes &&& O_WRITE = 0) :
    trivfs_S_io_write env fuel (some cred) data w = some (EBADF, none, w) := by
  simp only [trivfs_S_io_write, if_neg htty, if_pos h1]

theorem io_write_ebackground (env : Env) (fuel : Nat) (cred : trivfs_protid) (data : List Int)
    (w : World) (htty : cred.pi_class ≠ port_class.pty_class)
    (h1 : cred.openmodes &&& O_WRITE ≠ 0)
    (h2 : w.g.termstate.c_lflag &&& TOSTOP ≠ 0 ∧ fg_p w.g cred = 0) :
    trivfs_S_io_write env fuel (some cred) data w = some (EBACKGROUND, none, w) := by
  simp only [trivfs_S_io_write, if_neg htty, if_neg h1, if_pos h2]

theorem io_write_eio (env : Env) (fuel : Nat) (cred : trivfs_protid) (data : List Int)
    (w : World) (htty : cred.pi_class ≠ port_class.pty_class)
    (h1 : cred.openmodes &&& O_WRITE ≠ 0)
    (h2 : ¬ (w.g.termstate.c_lflag &&& TOSTOP ≠ 0 ∧ fg_p w.g cred = 0))
    (h3 : w.g.termflags &&& NO_CARRIER ≠ 0 ∧ w.g.termstate.c_cflag &&& CLOCAL = 0) :
    trivfs_S_io_write env fuel (some cred) data w = some ( EIO, none, w) := by
  simp only [trivfs_S_io_write, if_neg htty, if_neg h1, if_neg h2, if_pos h3]

/-- C10. `trivfs_S_io_write` on a tty session.  A session without O_WRITE is
rejected with EBADF; otherwise, if TOSTOP is set in `c_lflag` and `fg_p` is 0,
with EBACKGROUND; otherwise, if NO_CARRIER is set and CLOCAL is clear, with
EIO.  A rejection leaves `*amt` unassigned and the state, including the record
of backend calls, as it was.  Each rejection happens exactly under its
condition.  When all three checks pass the call is not a rejection: `*amt` is
assigned, the modification time is set, and a nonzero return value is EINTR or
an error returned by the backend's `start_output`.  With TOSTOP clear a return
value of EBACKGROUND can only be such a backend error. -/
theorem io_write_rejections (env : Env) (fuel : Nat) (cred : trivfs_protid)
    (data : List Int) (w : World) (htty : cred.pi_class ≠ port_class.pty_class) :
    (cred.openmodes &&& O_WRITE = 0 →
      trivfs_S_io_write env fuel (some cred) data w = some (EBADF, none, w)) ∧
    (cred.openmodes &&& O_WRITE ≠ 0 →
      w.g.termstate.c_lflag &&& TOSTOP ≠ 0 ∧ fg_p w.g cred = 0 →
      trivfs_S_io_write env fuel (some cred) data w = some (EBACKGROUND, none, w)) ∧
    (cred.openmodes &&& O_WRITE ≠ 0 →
      ¬ (w.g.termstate.c_lflag &&& TOSTOP ≠ 0 ∧ fg_p w.g cred = 0) →
      w.g.termflags &&& NO_CARRIER ≠ 0 ∧ w.g.termstate.c_cflag &&& CLOCAL = 0 →
      trivfs_S_io_write env fuel (some cred) data w = some ( EIO, none, w)) ∧
    (trivfs_S_io_write env fuel (some cred) data w = some (EBADF, none, w) ↔
      cred.openmodes &&& O_WRITE = 0) ∧
    (trivfs_S_io_write env fuel (some cred) data w = some (EBACKGROUND, none, w) ↔
      cred.openmodes &&& O_WRITE ≠ 0 ∧
        w.g.termstate.c_lflag &&& TOSTOP ≠ 0 ∧ fg_p w.g cred = 0) ∧
    (trivfs_S_io_write env fuel (some cred) data w = some ( EIO, none, w) ↔
      cred.openmodes &&& O_WRITE ≠ 0 ∧
        ¬ (w.g.termstate.c_lflag &&& TOSTOP ≠ 0 ∧ fg_p w.g cred = 0) ∧
        w.g.termflags &&& NO_CARRIER ≠ 0 ∧ w.g.termstate.c_cflag &&& CLOCAL = 0) ∧
    (write_permitted cred w → ∀ err amt w1,
      trivfs_S_io_write env fuel (some cred) data w = some (err, amt, w1) →
      amt ≠ none ∧
      ∃ added, w1.trace = w.trace ++ added ∧ Event.trivfs_set_mtime ∈ added ∧
        (err = 0 ∨ err = EINTR ∨ Event.start_output err ∈ added)) ∧
    (cred.openmodes &&& O_WRITE ≠ 0 → w.g.termstate.c_lflag &&& TOSTOP = 0 →
      ∀ amt w1,
      trivfs_S_io_write env fuel (some cred) data w = some (EBACKGROUND, amt, w1) →
      ∃ added, w1.trace = w.trace ++ added ∧ Event.start_output EBACKGROUND ∈ added) := by
  have hA := io_write_ebadf env fuel cred data w htty
  have hB := io_write_ebackground env fuel cred data w htty
  have hC := io_write_eio env fuel cred data w htty
  have hD := io_write_permitted env fuel cred data w htty
  have e1 : EBADF ≠ EBACKGROUND := by decide
  have e2 : EBADF ≠ EIO := by decide
  have e3 : EBACKGROUND ≠ EIO := by decide
  have e4 : EBACKGROUND ≠ 0 := by decide
  have e5 : EBACKGROUND ≠ EINTR := by decide
  refine ⟨hA, hB, hC, ?_, ?_, ?_, fun hp err amt w1 h => hD hp err amt w1 h, ?_⟩
  · refine ⟨fun h => ?_, hA⟩
    by_contra h1
    by_cases h2 : w.g.termstate.c_lflag &&& TOSTOP ≠ 0 ∧ fg_p w.g cred = 0
    · rw [hB h1 h2] at h
      simp only [Option.some.injEq, Prod.mk.injEq] at h
      exact e1 h.1.symm
    · by_cases h3 : w.g.termflags &&& NO_CARRIER ≠ 0 ∧ w.g.termstate.c_cflag &&& CLOCAL = 0
      · rw [hC h1 h2 h3] at h
        simp only [Option.some.injEq, Prod.mk.injEq] at h
        exact e2 h.1.symm
      · exact (hD ⟨h1, h2, h3⟩ _ _ _ h).1 rfl
  · refine ⟨fun h => ?_, fun h => hB h.1 h.2⟩
    by_cases h1 : cred.openmodes &&& O_WRITE = 0
    · rw [hA h1] at h
      simp only [Option.some.injEq, Prod.mk.injEq] at h
      exact absurd h.1 e1
    · by_cases h2 : w.g.termstate.c_lflag &&& TOSTOP ≠ 0 ∧ fg_p w.g cred = 0
      · exact ⟨h1, h2⟩
      · by_cases h3 : w.g.termflags &&& NO_CARRIER ≠ 0 ∧ w.g.termstate.c_cflag &&& CLOCAL = 0
        · rw [hC h1 h2 h3] at h
          simp only [Option.some.injEq, Prod.mk.injEq] at h
          exact absurd h.1.symm e3
        · exact absurd rfl (hD ⟨h1, h2, h3⟩ _ _ _ h).1
  · refine ⟨fun h => ?_, fun h => hC h.1 h.2.1 h.2.2⟩
    by_cases h1 : cred.openmodes &&& O_WRITE = 0
    · rw [hA h1] at h
      simp only [Option.some.injEq, Prod.mk.injEq] at h
      exact absurd h.1 e2
    · by_cases h2 : w.g.termstate.c_lflag &&& TOSTOP ≠ 0 ∧ fg_p w.g cred = 0
      · rw [hB h1 h2] at h
        simp only [Option.some.injEq, Prod.mk.injEq] at h
        exact absurd h.1 e3
      · by_cases h3 : w.g.termflags &&& NO_CARRIER ≠ 0 ∧ w.g.termstate.c_cflag &&& CLOCAL = 0
        · exact ⟨h1, h2, h3⟩
        · exact absurd rfl (hD ⟨h1, h2, h3⟩ _ _ _ h).1
  · intro h1 hts amt w1 h
    have h2 : ¬ (w.g.termstate.c_lflag &&& TOSTOP ≠ 0 ∧ fg_p w.g cred = 0) :=
      fun hc => hc.1 hts
    by_cases h3 : w.g.termflags &&& NO_CARRIER ≠ 0 ∧ w.g.termstate.c_cflag &&& CLOCAL = 0
    · rw [hC h1 h2 h3] at h
      simp only [Option.some.injEq, Prod.mk.injEq] at h
      exact absurd h.1.symm e3
    · obtain ⟨_, added, ha, _, hb⟩ := hD ⟨h1, h2, h3⟩ _ _ _ h
      rcases hb with hb | hb | hb
      · exact absurd hb e4
      · exact absurd hb e5
      · exact ⟨added, ha, hb⟩

theorem io_write_rejections_witness :
    trivfs_S_io_write sample_env 1 (some ⟨port_class.tty_class, O_READ, none⟩) [104, 105]
        ⟨sample_globals, []⟩
      = some (EBADF, none, ⟨sample_globals, []⟩) ∧
    trivfs_S_io_write sample_env 1
        (some ⟨port_class.tty_class, O_READ ||| O_WRITE, some ⟨1, 7, 7⟩⟩) [104, 105]
        ⟨{ sample_globals with termstate := ⟨0, 0, 0, TOSTOP, [], 0, 0⟩ }, []⟩
      = some (EBACKGROUND, none,
          ⟨{ sample_globals with termstate := ⟨0, 0, 0, TOSTOP, [], 0, 0⟩ }, []⟩) ∧
    trivfs_S_io_write sample_env 1
        (some ⟨port_class.tty_class, O_READ ||| O_WRITE, some ⟨1, 7, 7⟩⟩) [104, 105]
        ⟨{ sample_globals with termflags := TTY_OPEN ||| NO_CARRIER }, []⟩
      = some ( EIO, none, ⟨{ sample_globals with termflags := TTY_OPEN ||| NO_CARRIER }, []⟩) :=
  ⟨(io_write_rejections sample_env 1 ⟨port_class.tty_class, O_READ, none⟩ [104, 105]
      ⟨sample_globals, []⟩ (by decide)).1 (by decide),
   (io_write_rejections sample_env 1
      ⟨port_class.tty_class, O_READ ||| O_WRITE, some ⟨1, 7, 7⟩⟩ [104, 105]
      ⟨{ sample_globals with termstate := ⟨0, 0, 0, TOSTOP, [], 0, 0⟩ }, []⟩
      (by decide)).2.1 (by decide) (by decide),
   (io_write_rejections sample_env 1
      ⟨port_class.tty_class, O_READ ||| O_WRITE, some ⟨1, 7, 7⟩⟩ [104, 105]
      ⟨{ sample_globals with termflags := TTY_OPEN ||| NO_CARRIER }, []⟩
      (by decide)).2.2.1 (by decide) (by decide) (by decide)⟩

/-! ## Partial writes -/

/-- C12. A foreground tty session with O_READ reads while the input queue is
empty.  If NO_CARRIER is set and CLOCAL is clear, `trivfs_S_io_read` returns 0
with a zero-length result, without waiting and whether or not O_NONBLOCK is
set; otherwise, if O_NONBLOCK is set, it returns EWOULDBLOCK.  In both cases
nothing is waited for or called and the state is unchanged. -/
theorem io_read_empty_queue (env : Env) (fuel : Nat) (cred : trivfs_protid)
    (amount : Int) (w : World) (htty : cred.pi_class ≠ port_class.pty_class)
    (hread : cred.openmodes &&& O_READ ≠ 0) (hfg : fg_p w.g cred ≠ 0)
    (hempty : qsize w.g.inputq = 0) :
    (w.g.termflags &&& NO_CARRIER ≠ 0 ∧ w.g.termstate.c_cflag &&& CLOCAL = 0 →
      trivfs_S_io_read env fuel (some cred) amount w = some (0, some [], w)) ∧
    (¬ (w.g.termflags &&& NO_CARRIER ≠ 0 ∧ w.g.termstate.c_cflag &&& CLOCAL = 0) →
      cred.openmodes &&& O_NONBLOCK ≠ 0 →
      trivfs_S_io_read env fuel (some cred) amount w = some (EWOULDBLOCK, none, w)) := by
  constructor
  · intro hc
    have hw : read_wait env cred fuel w = some (some (0, some []), w) := by
      unfold read_wait
      rw [if_neg (by simpa using hempty), if_pos hc]
    simp only [trivfs_S_io_read, if_neg htty, if_neg hread, if_neg hfg, hw]
  · intro hc hnb
    have hw : read_wait env cred fuel w = some (some (EWOULDBLOCK, none), w) := by
      unfold read_wait
      rw [if_neg (by simpa using hempty), if_neg hc, if_pos hnb]
    simp only [trivfs_S_io_read, if_neg htty, if_neg hread, if_neg hfg, hw]

theorem io_read_empty_queue_witness :
    trivfs_S_io_read sample_env 0
        (some ⟨port_class.tty_class, O_READ ||| O_NONBLOCK, none⟩) 10
        ⟨{ sample_globals with termflags := TTY_OPEN ||| NO_CARRIER }, []⟩
      = some (0, some [], ⟨{ sample_globals with termflags := TTY_OPEN ||| NO_CARRIER }, []⟩) ∧
    trivfs_S_io_read sample_env 0
        (some ⟨port_class.tty_class, O_READ ||| O_NONBLOCK, none⟩) 10 ⟨sample_globals, []⟩
      = some (EWOULDBLOCK, none, ⟨sample_globals, []⟩) :=
  ⟨(io_read_empty_queue sample_env 0 ⟨port_class.tty_class, O_READ ||| O_NONBLOCK, none⟩ 10
      ⟨{ sample_globals with termflags := TTY_OPEN ||| NO_CARRIER }, []⟩
      (by decide) (by decide) (by decide) (by decide)).1 (by decide),
   (io_read_empty_queue sample_env 0 ⟨port_class.tty_class, O_READ ||| O_NONBLOCK, none⟩ 10
      ⟨sample_globals, []⟩
      (by decide) (by decide) (by decide) (by decide)).2 (by decide) (by decide)⟩

/-! ## The copy phase of a read -/

theorem dequeue_inputq_spec (w : World) (cell : Int) (rest : List Int)
    (hwf : queue_wf w.g.inputq) (hc : contents w.g.inputq = cell :: rest) :
    ∃ w1, dequeue_inputq w = some (unquote_char cell, w1) ∧
      w1.g.termstate = w.g.termstate ∧ w1.g.remote_input_mode = w.g.remote_input_mode ∧
      w1.g.termflags = w.g.termflags ∧ w1.g.async_requests = w.g.async_requests ∧
      queue_wf w1.g.inputq ∧ contents w1.g.inputq = rest := by
  have hne : qsize w.g.inputq ≠ 0 := by
    have := contents_length w.g.inputq hwf
    rw [hc] at this
    simp only [List.length_cons] at this
    omega
  obtain ⟨c, q1, e, hd, hw1, _, hcont, _⟩ :=
    dequeue_quote_spec w.g.inputq queue_id.inputq hwf hne
  rw [hc] at hcont
  simp only [List.cons.injEq] at hcont
  obtain ⟨hcell, hrest⟩ := hcont
  subst hcell
  refine ⟨{ g := { w.g with inputq := q1 }
            trace := w.trace ++ broadcast_events queue_id.inputq e },
    ?_, rfl, rfl, rfl, rfl, hw1, hrest.symm⟩
  simp only [dequeue_inputq, dequeue, hd, unquote_char]

theorem without_final_line_head (eof stop : Int → Bool)
    (h : ∀ c, eof c = true → stop c = true) (p : List Int) :
    without_final eof (line_head stop p) = (line_head stop p).filter (fun c => !eof c) := by
  induction p with
  | nil => rfl
  | cons c rest ih =>
    by_cases hstop : stop c = true
    · simp only [line_head, hstop, if_true, without_final, List.getLast?_singleton]
      by_cases he : eof c = true
      · simp [he]
      · simp [he]
    · have hne : eof c = false := by
        cases hv : eof c with
        | false => rfl
        | true => exact absurd (h c hv) hstop
      simp only [line_head, hstop, Bool.false_eq_true, if_false]
      rw [List.filter_cons, hne]
      simp only [Bool.not_false, if_true]
      rw [← ih]
      cases hl : line_head stop rest with
      | nil => simp [without_final, hne]
      | cons d l =>
        simp only [without_final, List.getLast?_cons_cons]
        cases hlast : (d :: l).getLast? with
        | none => simp
        | some x =>
          simp only
          split
          · simp [List.dropLast]
          · rfl

theorem read_copy_raw (env : Env) (n : Nat) (w : World) (data : List Int)
    (cells : List Int) (hrim : w.g.remote_input_mode = 0)
    (hic : w.g.termstate.c_lflag &&& ICANON = 0)
    (hwf : queue_wf w.g.inputq) (hc : contents w.g.inputq = cells) (hn : n ≤ cells.length)
    (hds : w.g.termstate.c_lflag &&& ISIG = 0 ∨
      ∀ c ∈ (cells.take n).map unquote_char,
        CCEQ (w.g.termstate.c_cc.getD VDSUSP 0) c = false) :
    ∃ w1, read_copy env n w data = some (data ++ (cells.take n).map unquote_char, 0, w1) ∧
      w1.g.termstate = w.g.termstate ∧ w1.g.remote_input_mode = 0 ∧
      w1.g.termflags = w.g.termflags ∧ w1.g.async_requests = w.g.async_requests ∧
      queue_wf w1.g.inputq ∧ contents w1.g.inputq = cells.drop n := by
  induction n generalizing w data cells with
  | zero => exact ⟨w, by simp [read_copy], rfl, hrim, rfl, rfl, hwf, by simpa using hc⟩
  | succ n ih =>
    cases cells with
    | nil => simp at hn
    | cons cell rest =>
      obtain ⟨w1, hdq, t1, t2, t3, t4, t5, t6⟩ := dequeue_inputq_spec w cell rest hwf hc
      have hrim1 : w1.g.remote_input_mode = 0 := by rw [t2, hrim]
      have hic1 : w1.g.termstate.c_lflag &&& ICANON = 0 := by rw [t1, hic]
      have hnods : (decide (w1.g.termstate.c_lflag &&& ISIG ≠ 0)
          && CCEQ (w1.g.termstate.c_cc.getD VDSUSP 0) (unquote_char cell)) = false := by
        rw [t1]
        rcases hds with hds | hds
        · simp [hds]
        · rw [hds (unquote_char cell) (by simp)]
          simp
      obtain ⟨w2, hrec, u1, u2, u3, u4, u5, u6⟩ :=
        ih w1 (data ++ [unquote_char cell]) rest hrim1 hic1 t5 t6
          (by simpa using hn)
          (by
            rw [t1]
            rcases hds with hds | hds
            · exact Or.inl hds
            · refine Or.inr (fun c hcm => hds c ?_)
              simp only [List.take_succ_cons, List.map_cons, List.mem_cons]
              exact Or.inr hcm)
      refine ⟨w2, ?_, u1.trans t1, u2, u3.trans t3, u4.trans t4, u5, by simpa using u6⟩
      simp only [read_copy, hdq, hrim1, ne_eq, not_true_eq_false, if_false, hic1,
        decide_False, Bool.not_false, Bool.true_or, if_true, Bool.false_and,
        Bool.false_eq_true, hnods, hrec, List.take_succ_cons, List.map_cons,
        List.append_assoc, List.singleton_append]

theorem read_copy_step (env : Env) (n : Nat) (w : World) (data : List Int) (c : Int)
    (w1 : World) (hdq : dequeue_inputq w = some (c, w1))
    (hrim : w1.g.remote_input_mode = 0) :
    read_copy env (n + 1) w data =
      (if (decide (w1.g.termstate.c_lflag &&& ICANON ≠ 0)
            && is_line_end w1.g.termstate.c_cc c) = true then
        some (if (!decide (w1.g.termstate.c_lflag &&& ICANON ≠ 0)
                || !CCEQ (w1.g.termstate.c_cc.getD VEOF 0) c) = true
              then data ++ [c] else data, 0, w1)
       else if (decide (w1.g.termstate.c_lflag &&& ISIG ≠ 0)
            && CCEQ (w1.g.termstate.c_cc.getD VDSUSP 0) c) = true then
        some (if (!decide (w1.g.termstate.c_lflag &&& ICANON ≠ 0)
                || !CCEQ (w1.g.termstate.c_cc.getD VEOF 0) c) = true
              then data ++ [c] else data, 1, send_signal env SIGTSTP w1)
       else
        read_copy env n w1
          (if (!decide (w1.g.termstate.c_lflag &&& ICANON ≠ 0)
                || !CCEQ (w1.g.termstate.c_cc.getD VEOF 0) c) = true
           then data ++ [c] else data)) := by
  have hr : ¬ (w1.g.remote_input_mode ≠ 0) := fun h => h hrim
  simp only [read_copy, hdq, if_neg hr]
  rfl

theorem read_copy_canon (env : Env) (n : Nat) (w : World) (data : List Int)
    (cells : List Int) (hrim : w.g.remote_input_mode = 0)
    (hic : w.g.termstate.c_lflag &&& ICANON ≠ 0)
    (hwf : queue_wf w.g.inputq) (hc : contents w.g.inputq = cells) (hn : n ≤ cells.length)
    (hds : w.g.termstate.c_lflag &&& ISIG = 0 ∨
      ∀ c ∈ (cells.take n).map unquote_char,
        CCEQ (w.g.termstate.c_cc.getD VDSUSP 0) c = false) :
    ∃ w1, read_copy env n w data
        = some (data ++ (line_head (is_line_end w.g.termstate.c_cc)
              ((cells.take n).map unquote_char)).filter
                (fun c => !CCEQ (w.g.termstate.c_cc.getD VEOF 0) c), 0, w1) ∧
      w1.g.termstate = w.g.termstate ∧ w1.g.remote_input_mode = 0 ∧
      w1.g.termflags = w.g.termflags ∧ w1.g.async_requests = w.g.async_requests ∧
      queue_wf w1.g.inputq ∧
      contents w1.g.inputq = cells.drop (line_head (is_line_end w.g.termstate.c_cc)
        ((cells.take n).map unquote_char)).length := by
  induction n generalizing w data cells with
  | zero =>
    exact ⟨w, by simp [read_copy, line_head], rfl, hrim, rfl, rfl, hwf,
      by simpa [line_head] using hc⟩
  | succ n ih =>
    cases cells with
    | nil => simp at hn
    | cons cell rest =>
      obtain ⟨w1, hdq, t1, t2, t3, t4, t5, t6⟩ := dequeue_inputq_spec w cell rest hwf hc
      have hrim1 : w1.g.remote_input_mode = 0 := by rw [t2, hrim]
      have hicw : decide (w.g.termstate.c_lflag &&& ICANON ≠ 0) = true := decide_eq_true hic
      rw [read_copy_step env n w data (unquote_char cell) w1 hdq hrim1, t1, hicw]
      by_cases hstop : is_line_end w.g.termstate.c_cc (unquote_char cell) = true
      · refine ⟨w1, ?_, t1, hrim1, t3, t4, t5, ?_⟩
        · simp only [hstop, Bool.and_self, if_true, Bool.not_true, Bool.false_or,
            List.take_succ_cons, List.map_cons, line_head, List.filter_cons,
            List.filter_nil]
          cases CCEQ (w.g.termstate.c_cc.getD VEOF 0) (unquote_char cell) <;> simp
        · simp only [List.take_succ_cons, List.map_cons, line_head, hstop, if_true,
            List.length_singleton, List.drop_succ_cons, List.drop_zero]
          exact t6
      · have hstopf : is_line_end w.g.termstate.c_cc (unquote_char cell) = false := by
          simpa using hstop
        have hne : CCEQ (w.g.termstate.c_cc.getD VEOF 0) (unquote_char cell) = false := by
          cases hv : CCEQ (w.g.termstate.c_cc.getD VEOF 0) (unquote_char cell) with
          | false => rfl
          | true =>
            unfold is_line_end at hstop
            rw [hv] at hstop
            simp at hstop
        have hnods : (decide (w.g.termstate.c_lflag &&& ISIG ≠ 0)
            && CCEQ (w.g.termstate.c_cc.getD VDSUSP 0) (unquote_char cell)) = false := by
          rcases hds with hds | hds
          · simp [hds]
          · rw [hds (unquote_char cell) (by simp)]
            simp
        obtain ⟨w2, hrec, u1, u2, u3, u4, u5, u6⟩ :=
          ih w1 (data ++ [unquote_char cell]) rest hrim1 (by rw [t1]; exact hic) t5 t6
            (by simpa using hn)
            (by
              rw [t1]
              rcases hds with hds | hds
              · exact Or.inl hds
              · refine Or.inr (fun c hcm => hds c ?_)
                simp only [List.take_succ_cons, List.map_cons, List.mem_cons]
                exact Or.inr hcm)
        rw [t1] at hrec u6
        refine ⟨w2, ?_, u1.trans t1, u2, u3.trans t3, u4.trans t4, u5, ?_⟩
        · simp only [hstopf, Bool.and_false, Bool.false_eq_true, if_false, hnods, hne,
            Bool.not_true, Bool.not_false, Bool.or_true, if_true, hrec,
            List.take_succ_cons, List.map_cons, line_head, List.filter_cons,
            List.append_assoc, List.singleton_append]
        · simp only [List.take_succ_cons, List.map_cons, line_head, hstopf,
            Bool.false_eq_true, if_false, List.length_cons, List.drop_succ_cons]
          exact u6

theorem report_sig_end_inputq (w : World) : (report_sig_end w).g.inputq = w.g.inputq := by
  simp only [report_sig_end]
  split <;> rfl

theorem call_asyncs_inputq (env : Env) (dir : Nat) (w : World)
    (hpost : ∀ id s g, (env.hurd_sig_post id s g).inputq = g.inputq) :
    (call_asyncs env dir w).g.inputq = w.g.inputq := by
  by_cases h1 : w.g.termflags &&& ICKY_ASYNC = 0 ∧ w.g.async_requests = []
  · simp only [call_asyncs, if_pos h1]
  · by_cases h2 : (dir &&& O_READ = 0 ∨ qsize w.g.inputq = 0)
        ∧ (dir &&& O_WRITE = 0 ∧ qavail w.g.outputq = 0)
    · simp only [call_asyncs, if_neg h1, if_pos h2]
    · by_cases h3 : w.g.termflags &&& ICKY_ASYNC ≠ 0 ∧ w.g.termflags &&& NO_OWNER = 0
      · simp only [call_asyncs, if_neg h1, if_neg h2, if_pos h3, report_sig_end_inputq, hpost]
        rfl
      · simp only [call_asyncs, if_neg h1, if_neg h2, if_neg h3]

theorem read_wait_nonempty (env : Env) (cred : trivfs_protid) (fuel : Nat) (w : World)
    (hne : qsize w.g.inputq ≠ 0) : read_wait env cred fuel w = some (none, w) := by
  unfold read_wait
  rw [if_pos hne]

/-- C13. The copy phase of `trivfs_S_io_read` against its reference behaviour.
A foreground tty session with O_READ reads `amount >= 0` characters while
`remote_input_mode` is off and the well-formed input queue holds the
characters `q` (non-empty); no character among the first `min (amount, |q|)`
is the delayed-suspend character while ISIG is set.  Then the read returns 0,
the characters it stores and the characters it leaves queued are those of
`read_reference`: outside canonical mode the first `min (amount, |q|)`
characters are returned and removed; in canonical mode the shortest prefix of
them ending in newline, VEOF, VEOL or VEOL2 (all of them if there is none) is
removed, and returned without a terminating VEOF. -/
theorem io_read_copy_phase (env : Env) (fuel : Nat) (cred : trivfs_protid)
    (amount : Int) (w : World) (htty : cred.pi_class ≠ port_class.pty_class)
    (hread : cred.openmodes &&& O_READ ≠ 0) (hfg : fg_p w.g cred ≠ 0)
    (hrim : w.g.remote_input_mode = 0) (hwf : queue_wf w.g.inputq)
    (hne : qsize w.g.inputq ≠ 0) (hamt : 0 ≤ amount)
    (hds : w.g.termstate.c_lflag &&& ISIG = 0 ∨
      ∀ c ∈ ((contents w.g.inputq).map unquote_char).take
          (min amount.toNat (contents w.g.inputq).length),
        CCEQ (w.g.termstate.c_cc.getD VDSUSP 0) c = false)
    (hpost : ∀ id s g, (env.hurd_sig_post id s g).inputq = g.inputq) :
    (trivfs_S_io_read env fuel (some cred) amount w).map
        (fun r => (r.1, r.2.1, (contents r.2.2.g.inputq).map unquote_char))
      = some (0,
          some (read_reference (decide (w.g.termstate.c_lflag &&& ICANON ≠ 0))
            w.g.termstate.c_cc amount ((contents w.g.inputq).map unquote_char)).1,
          (read_reference (decide (w.g.termstate.c_lflag &&& ICANON ≠ 0))
            w.g.termstate.c_cc amount ((contents w.g.inputq).map unquote_char)).2) := by
  have hlen := contents_length w.g.inputq hwf
  have hrimn : ¬ (w.g.remote_input_mode ≠ 0) := fun h => h hrim
  have hn : (if amount < qsize w.g.inputq then amount else qsize w.g.inputq).toNat
      = min amount.toNat (contents w.g.inputq).length := by
    split <;> omega
  have hds' : w.g.termstate.c_lflag &&& ISIG = 0 ∨
      ∀ c ∈ ((contents w.g.inputq).take
          (min amount.toNat (contents w.g.inputq).length)).map unquote_char,
        CCEQ (w.g.termstate.c_cc.getD VDSUSP 0) c = false := by
    rw [List.map_take]
    exact hds
  simp only [trivfs_S_io_read, if_neg htty, if_neg hread, if_neg hfg,
    read_wait_nonempty env cred fuel w hne, if_neg hrimn, hn]
  by_cases hic : w.g.termstate.c_lflag &&& ICANON = 0
  · obtain ⟨w1, hrc, _, u2, _, _, _, u6⟩ :=
      read_copy_raw env (min amount.toNat (contents w.g.inputq).length) w []
        (contents w.g.inputq) hrim hic hwf rfl (Nat.min_le_right _ _) hds'
    have hrim1 : ¬ (w1.g.remote_input_mode ≠ 0 ∧ qsize w1.g.inputq = 1) :=
      fun h => h.1 u2
    have hicd : decide (w.g.termstate.c_lflag &&& ICANON ≠ 0) = false :=
      decide_eq_false (fun h => h hic)
    simp only [hrc, if_neg hrim1, Option.map_some', List.nil_append, call_asyncs_inputq _ _ _ hpost,
      read_reference, hicd, Bool.false_eq_true, if_false, List.length_map,
      List.map_take, List.length_take, ne_eq, eq_self_iff_true, not_true_eq_false,
      and_false, or_true, if_true]
    rw [u6, List.map_drop]
    simp
  · obtain ⟨w1, hrc, _, u2, _, _, _, u6⟩ :=
      read_copy_canon env (min amount.toNat (contents w.g.inputq).length) w []
        (contents w.g.inputq) hrim hic hwf rfl (Nat.min_le_right _ _) hds'
    have hrim1 : ¬ (w1.g.remote_input_mode ≠ 0 ∧ qsize w1.g.inputq = 1) :=
      fun h => h.1 u2
    have hicd : decide (w.g.termstate.c_lflag &&& ICANON ≠ 0) = true := decide_eq_true hic
    have hstrip := without_final_line_head
      (fun c => CCEQ (w.g.termstate.c_cc.getD VEOF 0) c) (is_line_end w.g.termstate.c_cc)
      (fun c hc => by
        have hc' : CCEQ (w.g.termstate.c_cc.getD VEOF 0) c = true := hc
        unfold is_line_end
        rw [hc']
        simp)
      (((contents w.g.inputq).take
          (min amount.toNat (contents w.g.inputq).length)).map unquote_char)
    simp only [hrc, if_neg hrim1, Option.map_some', List.nil_append, call_asyncs_inputq _ _ _ hpost,
      read_reference, hicd, if_true, List.length_map, ne_eq, eq_self_iff_true,
      not_true_eq_false, and_false, or_true, if_false]
    rw [← List.map_take, hstrip, u6, List.map_drop]

theorem io_read_copy_phase_witness :
    (trivfs_S_io_read sample_env 0 (some ⟨port_class.tty_class, O_READ, none⟩) 10
        ⟨line_globals, []⟩).map
        (fun r => (r.1, r.2.1, (contents r.2.2.g.inputq).map unquote_char))
      = some (0, some [97, 98, 10], [99, 100]) :=
  (io_read_copy_phase sample_env 0 ⟨port_class.tty_class, O_READ, none⟩ 10
      ⟨line_globals, []⟩ (by decide) (by decide) (by decide) (by decide) (by decide)
      (by decide) (by decide) (Or.inl (by decide)) (fun _ _ _ => rfl)).trans (by decide)

/-! ## Words of flags -/

theorem clear_bits_and_self (x m : Nat) : clear_bits x m &&& m = 0 := by
  apply Nat.eq_of_testBit_eq
  intro i
  simp only [clear_bits, Nat.testBit_and, Nat.testBit_xor, Nat.zero_testBit]
  cases x.testBit i <;> cases m.testBit i <;> rfl

theorem clear_bits_and_other (x m k : Nat) (h : m &&& k = 0) :
    clear_bits x m &&& k = x &&& k := by
  apply Nat.eq_of_testBit_eq
  intro i
  have hi : (m &&& k).testBit i = false := by
    rw [h]
    exact Nat.zero_testBit i
  simp only [Nat.testBit_and] at hi
  simp only [clear_bits, Nat.testBit_and, Nat.testBit_xor]
  cases hx : x.testBit i <;> cases hm : m.testBit i <;> cases hk : k.testBit i <;> simp_all

theorem or_and_self (x m : Nat) : (x ||| m) &&& m = m := by
  apply Nat.eq_of_testBit_eq
  intro i
  simp only [Nat.testBit_and, Nat.testBit_or]
  cases x.testBit i <;> cases m.testBit i <;> rfl

theorem or_and_other (x m k : Nat) (h : m &&& k = 0) : (x ||| m) &&& k = x &&& k := by
  apply Nat.eq_of_testBit_eq
  intro i
  have hi : (m &&& k).testBit i = false := by
    rw [h]
    exact Nat.zero_testBit i
  simp only [Nat.testBit_and] at hi
  simp only [Nat.testBit_and, Nat.testBit_or]
  cases hx : x.testBit i <;> cases hm : m.testBit i <;> cases hk : k.testBit i <;> simp_all

theorem and_one_of_ne_zero (x : Nat) (h : x &&& 1 ≠ 0) : 1 &&& x = 1 := by
  have h2 := Nat.and_two_pow x 0
  simp only [pow_zero, mul_one] at h2
  rw [Nat.and_comm]
  cases hb : x.testBit 0 <;> simp_all

theorem and_two_of_ne_zero (x : Nat) (h : x &&& 2 ≠ 0) : 2 &&& x = 2 := by
  have h2 := Nat.and_two_pow x 1
  simp only [pow_one] at h2
  rw [Nat.and_comm]
  cases hb : x.testBit 1 <;> simp_all

/-! ## Select -/

theorem select_available_spec (t : Nat) (g : Globals) :
    (select_available t g &&& SELECT_READ ≠ 0 ↔
      (t &&& SELECT_READ ≠ 0 ∧ qsize g.inputq ≠ 0)) ∧
    (select_available t g &&& SELECT_WRITE ≠ 0 ↔
      (t &&& SELECT_WRITE ≠ 0 ∧ qavail g.outputq ≠ 0)) ∧
    (select_available t g = 0 ↔
      (¬ (t &&& SELECT_READ ≠ 0 ∧ qsize g.inputq ≠ 0) ∧
       ¬ (t &&& SELECT_WRITE ≠ 0 ∧ qavail g.outputq ≠ 0))) ∧
    select_available t g &&& t = select_available t g := by
  by_cases hr : t &&& SELECT_READ ≠ 0 ∧ qsize g.inputq ≠ 0
  · by_cases hw : t &&& SELECT_WRITE ≠ 0 ∧ qavail g.outputq ≠ 0
    · have e : select_available t g = 3 := by
        simp only [select_available, if_pos hr, if_pos hw]
        decide
      have h1 := and_one_of_ne_zero t hr.1
      have h2 := and_two_of_ne_zero t hw.1
      rw [e]
      refine ⟨⟨fun _ => hr, fun _ => by decide⟩, ⟨fun _ => hw, fun _ => by decide⟩,
        ⟨fun h => by simp at h, fun h => absurd hr h.1⟩, ?_⟩
      have e3 : (3 : Nat) = 1 ||| 2 := by decide
      rw [Nat.and_comm, e3, Nat.and_or_distrib_left, Nat.and_comm t 1, Nat.and_comm t 2, h1, h2]
    · have e : select_available t g = 1 := by
        simp only [select_available, if_pos hr, if_neg hw]
        decide
      have h1 := and_one_of_ne_zero t hr.1
      rw [e]
      exact ⟨⟨fun _ => hr, fun _ => by decide⟩,
        ⟨fun h => absurd h (by decide), fun h => absurd h hw⟩,
        ⟨fun h => by simp at h, fun h => absurd hr h.1⟩, h1⟩
  · by_cases hw : t &&& SELECT_WRITE ≠ 0 ∧ qavail g.outputq ≠ 0
    · have e : select_available t g = 2 := by
        simp only [select_available, if_neg hr, if_pos hw]
        decide
      have h2 := and_two_of_ne_zero t hw.1
      rw [e]
      exact ⟨⟨fun h => absurd h (by decide), fun h => absurd h hr⟩,
        ⟨fun _ => hw, fun _ => by decide⟩,
        ⟨fun h => by simp at h, fun h => absurd hw h.2⟩, h2⟩
    · have e : select_available t g = 0 := by
        simp only [select_available, if_neg hr, if_neg hw]
      rw [e]
      exact ⟨⟨fun h => absurd h (by decide), fun h => absurd h hr⟩,
        ⟨fun h => absurd h (by decide), fun h => absurd h hw⟩,
        ⟨fun _ => ⟨hr, hw⟩, fun _ => rfl⟩, Nat.zero_and t⟩

theorem select_request_spec (cred : trivfs_protid) (type : Nat) :
    (select_request cred type &&& SELECT_READ ≠ 0 ↔
      (type &&& SELECT_READ ≠ 0 ∧ cred.openmodes &&& O_READ ≠ 0)) ∧
    (select_request cred type &&& SELECT_WRITE ≠ 0 ↔
      (type &&& SELECT_WRITE ≠ 0 ∧ cred.openmodes &&& O_WRITE ≠ 0)) := by
  have d1 : SELECT_READ &&& SELECT_WRITE = 0 := by decide
  have d2 : SELECT_WRITE &&& SELECT_READ = 0 := by decide
  by_cases hr : cred.openmodes &&& O_READ = 0
  · by_cases hw : cred.openmodes &&& O_WRITE = 0
    · simp only [select_request, if_pos hr, if_pos hw, clear_bits_and_self,
        clear_bits_and_other _ _ _ d2]
      simp [hr, hw]
    · simp only [select_request, if_pos hr, if_neg hw, clear_bits_and_self,
        clear_bits_and_other _ _ _ d1]
      simp [hr, hw]
  · by_cases hw : cred.openmodes &&& O_WRITE = 0
    · simp only [select_request, if_neg hr, if_pos hw, clear_bits_and_self,
        clear_bits_and_other _ _ _ d2]
      simp [hr, hw]
    · simp only [select_request, if_neg hr, if_neg hw]
      simp [hr, hw]

theorem select_loop_result (env : Env) (t : Nat) (fuel : Nat) (w : World)
    (err : Nat) (t1 : Nat) (w1 : World)
    (h : select_loop env t fuel w = some (err, t1, w1)) :
    (err = 0 ∧ t1 ≠ 0 ∧ t1 = select_available t w1.g) ∨ (err = EINTR ∧ t1 = 0) := by
  induction fuel generalizing w with
  | zero =>
    unfold select_loop at h
    split at h
    · rename_i h0
      simp only at h
      split at h
      · simp at h
      · simp only [Option.some.injEq, Prod.mk.injEq] at h
        exact Or.inr ⟨h.1.symm, by rw [← h.2.1, h0]⟩
    · rename_i h0
      simp only [Option.some.injEq, Prod.mk.injEq] at h
      obtain ⟨a, b, c⟩ := h
      subst a b c
      exact Or.inl ⟨rfl, h0, rfl⟩
  | succ fuel ih =>
    unfold select_loop at h
    split at h
    · rename_i h0
      simp only at h
      split at h
      · exact ih _ h
      · simp only [Option.some.injEq, Prod.mk.injEq] at h
        exact Or.inr ⟨h.1.symm, by rw [← h.2.1, h0]⟩
    · rename_i h0
      simp only [Option.some.injEq, Prod.mk.injEq] at h
      obtain ⟨a, b, c⟩ := h
      subst a b c
      exact Or.inl ⟨rfl, h0, rfl⟩

theorem clear_bits_sub (y x m : Nat) (h : y &&& x = y) : clear_bits y m &&& x = clear_bits y m := by
  apply Nat.eq_of_testBit_eq
  intro i
  have hi : (y &&& x).testBit i = y.testBit i := by rw [h]
  simp only [Nat.testBit_and] at hi
  simp only [clear_bits, Nat.testBit_and, Nat.testBit_xor]
  cases hy : y.testBit i <;> cases hx : x.testBit i <;> cases hm : m.testBit i <;> simp_all

theorem select_request_sub (cred : trivfs_protid) (type : Nat) :
    select_request cred type &&& type = select_request cred type := by
  have h0 : type &&& type = type := Nat.and_self type
  simp only [select_request]
  split
  · split
    · exact clear_bits_sub _ _ _ (clear_bits_sub _ _ _ h0)
    · exact clear_bits_sub _ _ _ h0
  · split
    · exact clear_bits_sub _ _ _ h0
    · exact h0

/-- C14. `trivfs_S_io_select` on a tty session, for a requested mask `type`.
Reading is satisfiable when SELECT_READ is requested, the session has O_READ
and the input queue is non-empty; writing when SELECT_WRITE is requested, the
session has O_WRITE and `qavail (outputq)` holds.  When one of them is
satisfiable the call returns 0 at once, without waiting and with the state
unchanged, and the mask it stores contains SELECT_READ exactly when reading is
satisfiable, SELECT_WRITE exactly when writing is, and only requested bits.
When neither is and the wait is cancelled, the call returns EINTR and stores
the empty mask.  Whenever the call returns, after any number of waits, it
returns either 0 with a non-empty mask of the directions satisfiable in the
state at return, or EINTR with the empty mask. -/
theorem io_select_result (env : Env) (fuel : Nat) (cred : trivfs_protid) (type : Nat)
    (w : World) (htty : cred.pi_class ≠ port_class.pty_class) :
    ((type &&& SELECT_READ ≠ 0 ∧ cred.openmodes &&& O_READ ≠ 0 ∧ qsize w.g.inputq ≠ 0) ∨
      (type &&& SELECT_WRITE ≠ 0 ∧ cred.openmodes &&& O_WRITE ≠ 0 ∧ qavail w.g.outputq ≠ 0) →
      trivfs_S_io_select env fuel (some cred) type w
        = some (0, select_available (select_request cred type) w.g, w)) ∧
    ((select_available (select_request cred type) w.g &&& SELECT_READ ≠ 0 ↔
        (type &&& SELECT_READ ≠ 0 ∧ cred.openmodes &&& O_READ ≠ 0 ∧ qsize w.g.inputq ≠ 0)) ∧
      (select_available (select_request cred type) w.g &&& SELECT_WRITE ≠ 0 ↔
        (type &&& SELECT_WRITE ≠ 0 ∧ cred.openmodes &&& O_WRITE ≠ 0 ∧
          qavail w.g.outputq ≠ 0)) ∧
      select_available (select_request cred type) w.g &&& type
        = select_available (select_request cred type) w.g) ∧
    (¬ (type &&& SELECT_READ ≠ 0 ∧ cred.openmodes &&& O_READ ≠ 0 ∧ qsize w.g.inputq ≠ 0) →
      ¬ (type &&& SELECT_WRITE ≠ 0 ∧ cred.openmodes &&& O_WRITE ≠ 0 ∧
          qavail w.g.outputq ≠ 0) →
      (env.hurd_condition_wait Cond.select_alert w.g).1 ≠ 0 →
      trivfs_S_io_select env fuel (some cred) type w
        = some (EINTR, 0,
            { g := (env.hurd_condition_wait Cond.select_alert w.g).2
              trace := w.trace ++ [Event.ports_interrupt_self_on_port_death,
                Event.hurd_condition_wait Cond.select_alert
                  (env.hurd_condition_wait Cond.select_alert w.g).1] })) ∧
    (∀ err t1 w1, trivfs_S_io_select env fuel (some cred) type w = some (err, t1, w1) →
      (err = 0 ∧ t1 ≠ 0 ∧ t1 = select_available (select_request cred type) w1.g) ∨
      (err = EINTR ∧ t1 = 0)) := by
  obtain ⟨a1, a2, a3, a4⟩ := select_available_spec (select_request cred type) w.g
  obtain ⟨r1, r2⟩ := select_request_spec cred type
  have hsel : trivfs_S_io_select env fuel (some cred) type w
      = select_loop env (select_request cred type) fuel w := by
    simp only [trivfs_S_io_select, if_neg htty]
  have b1 : select_available (select_request cred type) w.g &&& SELECT_READ ≠ 0 ↔
      (type &&& SELECT_READ ≠ 0 ∧ cred.openmodes &&& O_READ ≠ 0 ∧ qsize w.g.inputq ≠ 0) := by
    rw [a1, r1, and_assoc]
  have b2 : select_available (select_request cred type) w.g &&& SELECT_WRITE ≠ 0 ↔
      (type &&& SELECT_WRITE ≠ 0 ∧ cred.openmodes &&& O_WRITE ≠ 0 ∧
        qavail w.g.outputq ≠ 0) := by
    rw [a2, r2, and_assoc]
  refine ⟨fun hsat => ?_, ⟨b1, b2, ?_⟩, fun hnr hnw hc => ?_, fun err t1 w1 h => ?_⟩
  · have hne : select_available (select_request cred type) w.g ≠ 0 := by
      intro h0
      rcases hsat with hsat | hsat
      · have := b1.mpr hsat
        rw [h0] at this
        exact this (Nat.zero_and _)
      · have := b2.mpr hsat
        rw [h0] at this
        exact this (Nat.zero_and _)
    rw [hsel]
    unfold select_loop
    rw [if_neg hne]
  · have hsub := select_request_sub cred type
    calc select_available (select_request cred type) w.g &&& type
        = (select_available (select_request cred type) w.g &&& select_request cred type)
            &&& type := by rw [a4]
      _ = select_available (select_request cred type) w.g
            &&& (select_request cred type &&& type) := Nat.and_assoc _ _ _
      _ = select_available (select_request cred type) w.g := by rw [hsub, a4]
  · have h0 : select_available (select_request cred type) w.g = 0 := by
      rw [a3]
      constructor
      · intro hx
        exact hnr (b1.mp (a1.mpr hx))
      · intro hx
        exact hnw (b2.mp (a2.mpr hx))
    rw [hsel]
    unfold select_loop
    simp only [if_pos h0, if_neg hc, h0, if_true]
  · rw [hsel] at h
    exact select_loop_result env _ fuel w err t1 w1 h

theorem io_select_result_witness :
    trivfs_S_io_select sample_env 0 (some ⟨port_class.tty_class, O_READ ||| O_WRITE, none⟩)
        (SELECT_READ ||| SELECT_WRITE) ⟨sample_globals, []⟩
      = some (0, SELECT_WRITE, ⟨sample_globals, []⟩) ∧
    trivfs_S_io_select { sample_env with hurd_condition_wait := fun _ g => (1, g) } 0
        (some ⟨port_class.tty_class, O_READ ||| O_WRITE, none⟩) SELECT_READ
        ⟨sample_globals, []⟩
      = some (EINTR, 0, ⟨sample_globals, [Event.ports_interrupt_self_on_port_death,
          Event.hurd_condition_wait Cond.select_alert 1]⟩) :=
  ⟨((io_select_result sample_env 0 ⟨port_class.tty_class, O_READ ||| O_WRITE, none⟩
      (SELECT_READ ||| SELECT_WRITE) ⟨sample_globals, []⟩ (by decide)).1
      (Or.inr (by decide))).trans (by decide),
   ((io_select_result { sample_env with hurd_condition_wait := fun _ g => (1, g) } 0
      ⟨port_class.tty_class, O_READ ||| O_WRITE, none⟩ SELECT_READ ⟨sample_globals, []⟩
      (by decide)).2.2.1 (by decide) (by decide) (by decide)).trans (by decide)⟩

/-! ## Opening the terminal -/

theorem same_modes_refl (g : Globals) : same_modes g g := ⟨rfl, rfl, rfl, rfl⟩

theorem same_modes_trans (g g1 g2 : Globals) (h1 : same_modes g g1) (h2 : same_modes g1 g2) :
    same_modes g g2 :=
  ⟨h2.1.trans h1.1, h2.2.1.trans h1.2.1, h2.2.2.1.trans h1.2.2.1, h2.2.2.2.trans h1.2.2.2⟩

theorem open_wait_modes (env : Env) (flags : Nat) (fuel : Nat) (w : World) (cancel : Int)
    (w1 : World) (hk : ∀ g, same_modes g (env.hurd_condition_wait Cond.carrier_alert g).2)
    (h : open_wait env flags fuel w = some (cancel, w1)) : same_modes w.g w1.g := by
  induction fuel generalizing w with
  | zero =>
    unfold open_wait at h
    split at h
    · simp at h
    · simp only [Option.some.injEq, Prod.mk.injEq] at h
      rw [← h.2]
      exact same_modes_refl _
  | succ fuel ih =>
    unfold open_wait at h
    split at h
    · simp only at h
      split at h
      · simp only [Option.some.injEq, Prod.mk.injEq] at h
        rw [← h.2]
        exact hk w.g
      · exact same_modes_trans _ _ _ (hk w.g) (ih _ h)
    · simp only [Option.some.injEq, Prod.mk.injEq] at h
      rw [← h.2]
      exact same_modes_refl _

theorem open_carrier_modes (env : Env) (fuel : Nat) (flags : Nat) (w : World) (err : Nat)
    (w1 : World) (hf : open_frame env)
    (h : open_carrier env fuel flags w = some (err, w1)) :
    same_modes w.g w1.g ∧ (err = 0 → w1.g.termflags &&& TTY_OPEN ≠ 0) := by
  obtain ⟨f1, f2, f3, f4⟩ := hf
  have d1 : TTY_OPEN &&& NO_OWNER = 0 := by decide
  have d2 : (TTY_OPEN : Nat) ≠ 0 := by decide
  simp only [open_carrier] at h
  have hr : same_modes w.g
      (if w.g.termflags &&& NO_CARRIER ≠ 0 then
        ((env.assert_dtr w.g).1,
          ({ g := (env.assert_dtr w.g).2
             trace := w.trace ++ [Event.assert_dtr (env.assert_dtr w.g).1] } : World))
       else (0, w)).2.g := by
    split
    · exact f1 w.g
    · exact same_modes_refl _
  generalize (if w.g.termflags &&& NO_CARRIER ≠ 0 then
        ((env.assert_dtr w.g).1,
          ({ g := (env.assert_dtr w.g).2
             trace := w.trace ++ [Event.assert_dtr (env.assert_dtr w.g).1] } : World))
       else (0, w)) = r at h hr
  split at h
  · rename_i hne
    simp only [Option.some.injEq, Prod.mk.injEq] at h
    obtain ⟨h1, h2⟩ := h
    subst h1 h2
    exact ⟨hr, fun h0 => absurd h0 hne⟩
  · cases hw : open_wait env flags fuel r.2 with
    | none => simp [hw] at h
    | some cw =>
      obtain ⟨cancel, w2⟩ := cw
      have hm2 := same_modes_trans _ _ _ hr (open_wait_modes env flags fuel r.2 cancel w2 f2 hw)
      simp only [hw] at h
      split at h
      · simp only [Option.some.injEq, Prod.mk.injEq] at h
        obtain ⟨h1, h2⟩ := h
        subst h1 h2
        exact ⟨hm2, fun h0 => absurd h0 (by decide)⟩
      · split at h
        · rename_i hce
          simp only [Option.some.injEq, Prod.mk.injEq] at h
          obtain ⟨h1, h2⟩ := h
          subst h1 h2
          exact ⟨hm2, fun h0 => absurd h0 hce⟩
        · split at h
          · rename_i hsb
            simp only [Option.some.injEq, Prod.mk.injEq] at h
            obtain ⟨h1, h2⟩ := h
            subst h1 h2
            exact ⟨same_modes_trans _ _ _ hm2 (f3 _ _), fun h0 => absurd h0 hsb⟩
          · rename_i hsb
            have hsb0 : (env.set_bits w2.g.termstate { w2.g with carrier_error := 0 }).1 = 0 := by
              simpa using hsb
            simp only [Option.some.injEq, Prod.mk.injEq] at h
            obtain ⟨h1, h2⟩ := h
            subst h1 h2
            obtain ⟨m1, m2, m3, m4⟩ := same_modes_trans _ _ _ hm2
              (f3 w2.g.termstate { w2.g with carrier_error := 0 })
            refine ⟨⟨?_, m2, m3, ?_⟩, fun _ => ?_⟩
            · show (env.set_bits w2.g.termstate { w2.g with carrier_error := 0 }).2.1
                = w.g.termstate
              rw [f4 _ _ hsb0]
              exact hm2.1
            · show ((env.set_bits w2.g.termstate { w2.g with carrier_error := 0 }).2.2.termflags
                ||| TTY_OPEN) &&& NO_OWNER = w.g.termflags &&& NO_OWNER
              rw [or_and_other _ _ _ d1]
              exact m4
            · show ((env.set_bits w2.g.termstate { w2.g with carrier_error := 0 }).2.2.termflags
                ||| TTY_OPEN) &&& TTY_OPEN ≠ 0
              rw [or_and_self]
              exact d2

theorem open_hook_first (env : Env) (fuel : Nat) (flags : Nat) (oc : Int) (w : World)
    (hrw : flags &&& (O_READ ||| O_WRITE) ≠ 0) (hclosed : w.g.termflags &&& TTY_OPEN = 0) :
    open_hook env fuel false flags oc w
      = (open_carrier env fuel flags
          { w with g := { w.g with
            termstate := default_termstate
            window_size := ⟨0, 0, 0, 0⟩
            termflags := w.g.termflags ||| NO_OWNER } }).map
          (fun r => (r.1, oc + 1, r.2)) := by
  have hot : ¬ (default_termstate.c_oflag &&& OTILDE ≠ 0) := by decide
  simp only [open_hook, Bool.false_eq_true, if_false, if_neg hrw, if_pos hclosed, if_neg hot]

theorem open_hook_again (env : Env) (fuel : Nat) (flags : Nat) (oc : Int) (w : World)
    (hrw : flags &&& (O_READ ||| O_WRITE) ≠ 0) (hopen : w.g.termflags &&& TTY_OPEN ≠ 0)
    (hoc : 0 < oc) (hexcl : w.g.termflags &&& EXCL_USE = 0) :
    open_hook env fuel false flags oc w
      = if w.g.termstate.c_oflag &&& OTILDE ≠ 0 then none
        else (open_carrier env fuel flags w).map (fun r => (r.1, oc + 1, r.2)) := by
  have h1 : ¬ ¬ (oc > 0) := fun h => h hoc
  have h2 : ¬ (w.g.termflags &&& EXCL_USE ≠ 0) := fun h => h hexcl
  simp only [open_hook, Bool.false_eq_true, if_false, if_neg hrw, if_neg hopen, if_neg h1,
    if_neg h2]

theorem open_wait_present (env : Env) (flags : Nat) (fuel : Nat) (w : World)
    (hnc : w.g.termflags &&& NO_CARRIER = 0) : open_wait env flags fuel w = some (0, w) := by
  unfold open_wait
  rw [if_neg (fun h => h.1.1 hnc)]

theorem open_carrier_present (env : Env) (fuel : Nat) (flags : Nat) (w : World)
    (hnc : w.g.termflags &&& NO_CARRIER = 0) (hce : w.g.carrier_error = 0)
    (hsb : (env.set_bits w.g.termstate { w.g with carrier_error := 0 }).1 = 0) :
    (open_carrier env fuel flags w).map Prod.fst = some 0 := by
  have hr : (if w.g.termflags &&& NO_CARRIER ≠ 0 then
        ((env.assert_dtr w.g).1,
          ({ g := (env.assert_dtr w.g).2
             trace := w.trace ++ [Event.assert_dtr (env.assert_dtr w.g).1] } : World))
       else (0, w)) = (0, w) := if_neg (fun h => h hnc)
  have h0 : ¬ ((0 : Nat) ≠ 0) := fun h => h rfl
  have h0i : ¬ ((0 : Int) ≠ 0) := fun h => h rfl
  have hce' : ¬ (w.g.carrier_error ≠ 0) := fun h => h hce
  have hsb' : ¬ ((env.set_bits w.g.termstate { w.g with carrier_error := 0 }).1 ≠ 0) :=
    fun h => h hsb
  simp only [open_carrier, hr, if_neg h0, open_wait_present env flags fuel w hnc, if_neg h0i,
    if_neg hce', if_neg hsb', Option.map_some']

theorem open_carrier_present_mk (env : Env) (fuel : Nat) (flags : Nat) (g : Globals)
    (t : List Event) (hnc : g.termflags &&& NO_CARRIER = 0) (hce : g.carrier_error = 0)
    (hsb : (env.set_bits g.termstate { g with carrier_error := 0 }).1 = 0) :
    (open_carrier env fuel flags { g := g, trace := t }).map Prod.fst = some 0 :=
  open_carrier_present env fuel flags { g := g, trace := t } hnc hce hsb

theorem open_frame_sample : open_frame sample_env :=
  ⟨fun g => same_modes_refl g, fun g => same_modes_refl g, fun _ g => same_modes_refl g,
    fun _ _ _ => rfl⟩

/-- C15. The open hook on the tty, for an open asking for O_READ or O_WRITE,
where the bottom half and the threads running during a wait leave the line
modes, the window size and the owner alone and a successful `set_bits` returns
the modes it was given.  While TTY_OPEN is clear, every successful open leaves
the default line modes (`default_termstate`), an all-zero window size,
NO_OWNER set and TTY_OPEN set, whatever they were before; and the open does
succeed, at once, when carrier is present, no carrier error is recorded and
`set_bits` succeeds.  While TTY_OPEN is set, an open that returns, with
whatever value, leaves the line modes, the window size and the owner as they
were. -/
theorem open_closed_to_open (env : Env) (fuel : Nat) (flags : Nat) (oc : Int) (w : World)
    (hrw : flags &&& (O_READ ||| O_WRITE) ≠ 0) (hf : open_frame env) :
    (w.g.termflags &&& TTY_OPEN = 0 →
      ∀ oc1 w1, open_hook env fuel false flags oc w = some (0, oc1, w1) →
        w1.g.termstate = default_termstate ∧
        w1.g.termstate.c_iflag = BRKINT ||| ICRNL ||| IMAXBEL ||| IXON ||| IXANY ∧
        w1.g.termstate.c_oflag = OPOST ||| ONLCR ||| OXTABS ∧
        w1.g.termstate.c_lflag
          = ECHO ||| ICANON ||| ISIG ||| IEXTEN ||| ECHOE ||| ECHOKE ||| ECHOCTL ∧
        w1.g.termstate.c_cflag = CREAD ||| CS8 ||| HUPCL ∧
        w1.g.termstate.c_cc = ttydefchars ∧
        w1.g.window_size = ⟨0, 0, 0, 0⟩ ∧
        w1.g.termflags &&& NO_OWNER ≠ 0 ∧ w1.g.termflags &&& TTY_OPEN ≠ 0) ∧
    (w.g.termflags &&& TTY_OPEN = 0 → w.g.termflags &&& NO_CARRIER = 0 →
      w.g.carrier_error = 0 →
      (env.set_bits default_termstate
        { w.g with
          termstate := default_termstate
          window_size := ⟨0, 0, 0, 0⟩
          termflags := w.g.termflags ||| NO_OWNER
          carrier_error := 0 }).1 = 0 →
      (open_hook env fuel false flags oc w).map (fun r => (r.1, r.2.1)) = some (0, oc + 1)) ∧
    (w.g.termflags &&& TTY_OPEN ≠ 0 →
      ∀ err oc1 w1, open_hook env fuel false flags oc w = some (err, oc1, w1) →
        w1.g.termstate = w.g.termstate ∧ w1.g.window_size = w.g.window_size ∧
        w1.g.foreground_id = w.g.foreground_id ∧
        w1.g.termflags &&& NO_OWNER = w.g.termflags &&& NO_OWNER) := by
  refine ⟨fun hclosed oc1 w1 h => ?_, fun hclosed hcar hce hsb => ?_,
    fun hopen err oc1 w1 h => ?_⟩
  · rw [open_hook_first env fuel flags oc w hrw hclosed] at h
    cases hc : open_carrier env fuel flags
        { w with g := { w.g with
          termstate := default_termstate
          window_size := ⟨0, 0, 0, 0⟩
          termflags := w.g.termflags ||| NO_OWNER } } with
    | none => simp [hc] at h
    | some r =>
      obtain ⟨e, w2⟩ := r
      simp only [hc, Option.map_some', Option.some.injEq, Prod.mk.injEq] at h
      obtain ⟨h1, _, h3⟩ := h
      subst h1 h3
      obtain ⟨⟨m0, m2, _, m4⟩, mo⟩ := open_carrier_modes env fuel flags _ 0 w2 hf hc
      have m1 : w2.g.termstate = default_termstate := m0
      have hno : (w.g.termflags ||| NO_OWNER) &&& NO_OWNER ≠ 0 := by
        rw [or_and_self]
        decide
      refine ⟨m1, ?_, ?_, ?_, ?_, ?_, m2, ?_, mo rfl⟩
      · rw [m1]
        exact Nat.zero_or _
      · rw [m1]
        exact Nat.zero_or _
      · rw [m1]
        exact Nat.zero_or _
      · rw [m1]
        exact Nat.zero_or _
      · rw [m1]
        rfl
      · rw [m4]
        exact hno
  · rw [open_hook_first env fuel flags oc w hrw hclosed]
    have d1 : NO_OWNER &&& NO_CARRIER = 0 := by decide
    have hp := open_carrier_present_mk env fuel flags
      { w.g with
        termstate := default_termstate
        window_size := ⟨0, 0, 0, 0⟩
        termflags := w.g.termflags ||| NO_OWNER }
      w.trace
      (by
        show (w.g.termflags ||| NO_OWNER) &&& NO_CARRIER = 0
        rw [or_and_other _ _ _ d1]
        exact hcar)
      hce hsb
    cases hc : open_carrier env fuel flags
        { w with g := { w.g with
          termstate := default_termstate
          window_size := ⟨0, 0, 0, 0⟩
          termflags := w.g.termflags ||| NO_OWNER } } with
    | none =>
      rw [hc] at hp
      simp at hp
    | some r =>
      rw [hc] at hp
      simp only [Option.map_some', Option.some.injEq] at hp
      simp only [Option.map_some', hp]
  · by_cases hoc : 0 < oc
    · by_cases hexcl : w.g.termflags &&& EXCL_USE = 0
      · rw [open_hook_again env fuel flags oc w hrw hopen hoc hexcl] at h
        split at h
        · simp at h
        · cases hc : open_carrier env fuel flags w with
          | none => simp [hc] at h
          | some r =>
            obtain ⟨e, w2⟩ := r
            simp only [hc, Option.map_some', Option.some.injEq, Prod.mk.injEq] at h
            obtain ⟨_, _, h3⟩ := h
            subst h3
            exact (open_carrier_modes env fuel flags w e w2 hf hc).1
      · have h1 : ¬ ¬ (oc > 0) := fun h => h hoc
        simp only [open_hook, Bool.false_eq_true, if_false, if_neg hrw, if_neg hopen,
          if_neg h1, if_pos hexcl, Option.some.injEq, Prod.mk.injEq] at h
        obtain ⟨_, _, h3⟩ := h
        subst h3
        exact ⟨rfl, rfl, rfl, rfl⟩
    · simp only [open_hook, Bool.false_eq_true, if_false, if_neg hrw, if_neg hopen,
        if_pos hoc] at h
      simp at h

theorem open_closed_to_open_witness :
    open_frame sample_env ∧
    (open_hook sample_env 0 false O_READ 0 ⟨closed_globals, []⟩).map (fun r => (r.1, r.2.1))
      = some (0, 1) ∧
    (∀ err oc1 w1, open_hook sample_env 0 false O_READ 1 ⟨sample_globals, []⟩
        = some (err, oc1, w1) →
      w1.g.termstate = sample_globals.termstate ∧
      w1.g.window_size = sample_globals.window_size ∧
      w1.g.foreground_id = sample_globals.foreground_id ∧
      w1.g.termflags &&& NO_OWNER = sample_globals.termflags &&& NO_OWNER) :=
  ⟨open_frame_sample,
   (open_closed_to_open sample_env 0 O_READ 0 ⟨closed_globals, []⟩ (by decide)
      open_frame_sample).2.1 (by decide) (by decide) (by decide) (by decide),
   (open_closed_to_open sample_env 0 O_READ 1 ⟨sample_globals, []⟩ (by decide)
      open_frame_sample).2.2 (by decide)⟩

/-! ## Exclusive use -/

/-- C16. The open hook on the tty, for an open asking for O_READ or O_WRITE
while TTY_OPEN is set (so that the debugging counter is positive), and the
two exclusive-use ioctls on a tty or pty session opened for reading or
writing.  With EXCL_USE set the open returns EBUSY and leaves the counter, the
globals and the trace as they were.  With EXCL_USE clear the open is not that
refusal: it goes on to the counter increment and the carrier part of the hook,
and returns 0 at once when carrier is present, no carrier error is recorded
and `set_bits` succeeds.  `S_tioctl_tiocexcl` returns 0 and changes the flag
word only, to one with EXCL_USE set and every other bit as before;
`S_tioctl_tiocnxcl` likewise, with EXCL_USE clear. -/
theorem open_excl_use_ebusy (env : Env) (fuel : Nat) (flags : Nat) (oc : Int) (w : World)
    (cred : trivfs_protid)
    (hrw : flags &&& (O_READ ||| O_WRITE) ≠ 0) (hopen : w.g.termflags &&& TTY_OPEN ≠ 0)
    (hoc : 0 < oc)
    (hcl : cred.pi_class = port_class.pty_class ∨ cred.pi_class = port_class.tty_class)
    (hm : cred.openmodes &&& (O_READ ||| O_WRITE) ≠ 0) :
    (w.g.termflags &&& EXCL_USE ≠ 0 →
      open_hook env fuel false flags oc w = some (EBUSY, oc, w)) ∧
    (w.g.termflags &&& EXCL_USE = 0 →
      open_hook env fuel false flags oc w ≠ some (EBUSY, oc, w) ∧
      (∀ err oc1 w1, open_hook env fuel false flags oc w = some (err, oc1, w1) →
        oc1 = oc + 1) ∧
      (w.g.termstate.c_oflag &&& OTILDE = 0 → w.g.termflags &&& NO_CARRIER = 0 →
        w.g.carrier_error = 0 →
        (env.set_bits w.g.termstate { w.g with carrier_error := 0 }).1 = 0 →
        (open_hook env fuel false flags oc w).map (fun r => (r.1, r.2.1))
          = some (0, oc + 1))) ∧
    S_tioctl_tiocexcl (some cred) w
      = (0, { w with g := { w.g with termflags := w.g.termflags ||| EXCL_USE } }) ∧
    (w.g.termflags ||| EXCL_USE) &&& EXCL_USE = EXCL_USE ∧
    (∀ k, EXCL_USE &&& k = 0 → (w.g.termflags ||| EXCL_USE) &&& k = w.g.termflags &&& k) ∧
    S_tioctl_tiocnxcl (some cred) w
      = (0, { w with g := { w.g with termflags := clear_bits w.g.termflags EXCL_USE } }) ∧
    clear_bits w.g.termflags EXCL_USE &&& EXCL_USE = 0 ∧
    (∀ k, EXCL_USE &&& k = 0 →
      clear_bits w.g.termflags EXCL_USE &&& k = w.g.termflags &&& k) := by
  have h1 : ¬ ¬ (oc > 0) := fun h => h hoc
  have hc : ¬ (cred.pi_class ≠ port_class.pty_class ∧ cred.pi_class ≠ port_class.tty_class) := by
    intro h
    cases hcl with
    | inl h0 => exact h.1 h0
    | inr h0 => exact h.2 h0
  have hagain : w.g.termflags &&& EXCL_USE = 0 →
      ∀ err oc1 w1, open_hook env fuel false flags oc w = some (err, oc1, w1) →
        oc1 = oc + 1 := by
    intro hexcl err oc1 w1 h
    rw [open_hook_again env fuel flags oc w hrw hopen hoc hexcl] at h
    split at h
    · simp at h
    · cases hcar : open_carrier env fuel flags w with
      | none => simp [hcar] at h
      | some r =>
        simp only [hcar, Option.map_some', Option.some.injEq, Prod.mk.injEq] at h
        exact h.2.1.symm
  refine ⟨fun hexcl => ?_, fun hexcl => ⟨fun h => ?_, hagain hexcl, fun hot hnc hce hsb => ?_⟩,
    ?_, or_and_self _ _, fun k hk => or_and_other _ _ _ hk, ?_, clear_bits_and_self _ _,
    fun k hk => clear_bits_and_other _ _ _ hk⟩
  · simp only [open_hook, Bool.false_eq_true, if_false, if_neg hrw, if_neg hopen, if_neg h1,
      if_pos hexcl]
  · have h2 := hagain hexcl _ _ _ h
    omega
  · rw [open_hook_again env fuel flags oc w hrw hopen hoc hexcl,
      if_neg (fun h => h hot)]
    have hp := open_carrier_present env fuel flags w hnc hce hsb
    cases hcar : open_carrier env fuel flags w with
    | none =>
      rw [hcar] at hp
      simp at hp
    | some r =>
      rw [hcar] at hp
      simp only [Option.map_some', Option.some.injEq] at hp
      simp only [Option.map_some', hp]
  · simp only [S_tioctl_tiocexcl, if_neg hc, if_neg hm]
  · simp only [S_tioctl_tiocnxcl, if_neg hc, if_neg hm]

theorem open_excl_use_ebusy_witness :
    open_hook sample_env 0 false O_READ 1
        ⟨{ sample_globals with termflags := TTY_OPEN ||| EXCL_USE }, []⟩
      = some (EBUSY, 1, ⟨{ sample_globals with termflags := TTY_OPEN ||| EXCL_USE }, []⟩) ∧
    S_tioctl_tiocexcl (some ⟨port_class.tty_class, O_READ, none⟩) ⟨sample_globals, []⟩
      = (0, ⟨{ sample_globals with termflags := TTY_OPEN ||| EXCL_USE }, []⟩) ∧
    (open_hook sample_env 0 false O_READ 1 ⟨sample_globals, []⟩).map (fun r => (r.1, r.2.1))
      = some (0, 2) :=
  ⟨(open_excl_use_ebusy sample_env 0 O_READ 1
      ⟨{ sample_globals with termflags := TTY_OPEN ||| EXCL_USE }, []⟩
      ⟨port_class.tty_class, O_READ, none⟩ (by decide) (by decide) (by decide)
      (Or.inr rfl) (by decide)).1 (by decide),
   (open_excl_use_ebusy sample_env 0 O_READ 1 ⟨sample_globals, []⟩
      ⟨port_class.tty_class, O_READ, none⟩ (by decide) (by decide) (by decide)
      (Or.inr rfl) (by decide)).2.2.1,
   (open_excl_use_ebusy sample_env 0 O_READ 1 ⟨sample_globals, []⟩
      ⟨port_class.tty_class, O_READ, none⟩ (by decide) (by decide) (by decide)
      (Or.inr rfl) (by decide)).2.1 (by decide) |>.2.2 (by decide) (by decide) (by decide)
      (by decide)⟩

/-! ## A carrier error reported to a waiting open -/

theorem carrier_error_env_wait (e : Nat) (c : Cond) (g : Globals) :
    (carrier_error_env e).hurd_condition_wait c g = (0, { g with carrier_error := e }) := rfl

theorem carrier_error_env_assert_dtr (e : Nat) (g : Globals) :
    (carrier_error_env e).assert_dtr g = (0, g) := rfl

theorem open_wait_blocked (e : Nat) (flags : Nat) (hnb : flags &&& O_NONBLOCK = 0) :
    ∀ (fuel : Nat) (w : World), w.g.termflags &&& NO_CARRIER ≠ 0 →
      w.g.termstate.c_cflag &&& CLOCAL = 0 →
      open_wait (carrier_error_env e) flags fuel w = none := by
  intro fuel
  induction fuel with
  | zero =>
    intro w hnc hcl
    unfold open_wait
    rw [if_pos ⟨⟨hnc, hcl⟩, hnb⟩]
  | succ n ih =>
    intro w hnc hcl
    unfold open_wait
    rw [if_pos ⟨⟨hnc, hcl⟩, hnb⟩]
    simp only [carrier_error_env_wait, ne_eq, not_true_eq_false, if_false]
    exact ih _ hnc hcl

theorem open_carrier_blocked (e : Nat) (flags : Nat) (fuel : Nat) (g : Globals)
    (t : List Event) (hnb : flags &&& O_NONBLOCK = 0) (hnc : g.termflags &&& NO_CARRIER ≠ 0)
    (hcl : g.termstate.c_cflag &&& CLOCAL = 0) :
    open_carrier (carrier_error_env e) fuel flags { g := g, trace := t } = none := by
  have h0 : ¬ ((0 : Nat) ≠ 0) := fun h => h rfl
  simp only [open_carrier, if_pos hnc, carrier_error_env_assert_dtr, if_neg h0,
    open_wait_blocked e flags hnb fuel { g := g, trace := t ++ [Event.assert_dtr 0] } hnc hcl]

/-- C17 (the code at the failing input).  An open of the closed terminal with
carrier absent, and an open of the open terminal with carrier absent, wait on
`carrier_alert`; during every wait the bottom half calls
`report_carrier_error (e)` and carrier stays absent.  Whatever the number of
waits allowed, the open has not returned: the loop tests NO_CARRIER, CLOCAL,
O_NONBLOCK and `cancel` only, so the open goes back to waiting.  For
comparison, when the bottom half calls `report_carrier_on ()` before
`report_carrier_error (5)`, the open returns 5 after one wait, with TTY_OPEN
clear and the recorded error reset to 0. -/
theorem open_stays_blocked_after_carrier_error (fuel : Nat) (e : Nat) :
    open_hook (carrier_error_env e) fuel false O_READ 0 ⟨no_carrier_globals, []⟩ = none ∧
    open_hook (carrier_error_env e) fuel false O_READ 1
      ⟨{ sample_globals with termflags := TTY_OPEN ||| NO_CARRIER }, []⟩ = none ∧
    open_hook (carrier_on_error_env 5) 1 false O_READ 0 ⟨no_carrier_globals, []⟩
      = some (5, 1,
          ⟨{ no_carrier_globals with
              termstate := default_termstate
              window_size := ⟨0, 0, 0, 0⟩
              termflags := NO_OWNER
              carrier_error := 0 },
            [Event.assert_dtr 0, Event.hurd_condition_wait Cond.carrier_alert 0]⟩) := by
  refine ⟨?_, ?_, ?_⟩
  · rw [open_hook_first (carrier_error_env e) fuel O_READ 0 ⟨no_carrier_globals, []⟩
      (by decide) (by decide)]
    have h1 := open_carrier_blocked e O_READ fuel
      { no_carrier_globals with
        termstate := default_termstate
        window_size := ⟨0, 0, 0, 0⟩
        termflags := no_carrier_globals.termflags ||| NO_OWNER } [] (by decide) (by decide)
      (by decide)
    dsimp only
    rw [h1]
    rfl
  · rw [open_hook_again (carrier_error_env e) fuel O_READ 1
      ⟨{ sample_globals with termflags := TTY_OPEN ||| NO_CARRIER }, []⟩
      (by decide) (by decide) (by decide) (by decide)]
    have h1 := open_carrier_blocked e O_READ fuel
      { sample_globals with termflags := TTY_OPEN ||| NO_CARRIER } [] (by decide) (by decide)
      (by decide)
    rw [if_neg (by decide), h1]
    rfl
  · decide

/-! ## Closing the terminal -/

theorem po_destroy_async_frame (openmodes : Nat) (g : Globals) :
    (po_destroy_async openmodes g).inputq = g.inputq ∧
    (po_destroy_async openmodes g).rawq = g.rawq ∧
    (po_destroy_async openmodes g).outputq = g.outputq ∧
    (po_destroy_async openmodes g).termstate = g.termstate ∧
    (po_destroy_async openmodes g).nperopens = g.nperopens ∧
    (∀ k, ICKY_ASYNC &&& k = 0 →
      (po_destroy_async openmodes g).termflags &&& k = g.termflags &&& k) := by
  unfold po_destroy_async
  split
  · simp only
    split
    · exact ⟨rfl, rfl, rfl, rfl, rfl, fun k hk => clear_bits_and_other _ _ _ hk⟩
    · exact ⟨rfl, rfl, rfl, rfl, rfl, fun _ _ => rfl⟩
  · exact ⟨rfl, rfl, rfl, rfl, rfl, fun _ _ => rfl⟩

theorem po_destroy_last_spec (env : Env) (w2 : World) (hf : close_frame env) :
    (po_destroy_last env w2).g.inputq = (clear_queue w2.g.inputq).1 ∧
    (po_destroy_last env w2).g.rawq = (clear_queue w2.g.rawq).1 ∧
    (po_destroy_last env w2).g.termstate = w2.g.termstate ∧
    (po_destroy_last env w2).g.termflags = clear_bits w2.g.termflags TTY_OPEN ∧
    ∃ err, (po_destroy_last env w2).trace
      = w2.trace ++ [Event.condition_broadcast (Cond.queue_wait queue_id.inputq),
          Event.condition_broadcast (Cond.queue_wait queue_id.rawq),
          Event.notice_input_flushed, Event.drain_output err]
        ++ (if w2.g.termstate.c_cflag &&& HUPCL ≠ 0 ∨ w2.g.termflags &&& NO_CARRIER ≠ 0
            then [Event.desert_dtr] else []) := by
  obtain ⟨f1, f2, f3⟩ := hf
  obtain ⟨a1, a2, a3, a4⟩ := f1 (clear_rawq (clear_inputq w2)).g
  obtain ⟨b1, b2, b3, b4⟩ :=
    f2 (env.notice_input_flushed (clear_rawq (clear_inputq w2)).g)
  obtain ⟨c1, c2, c3, c4⟩ :=
    f3 (env.drain_output (env.notice_input_flushed (clear_rawq (clear_inputq w2)).g)).2
  have e1 : (clear_rawq (clear_inputq w2)).g.inputq = (clear_queue w2.g.inputq).1 := rfl
  have e2 : (clear_rawq (clear_inputq w2)).g.rawq = (clear_queue w2.g.rawq).1 := rfl
  have e3 : (clear_rawq (clear_inputq w2)).g.termstate = w2.g.termstate := rfl
  have e4 : (clear_rawq (clear_inputq w2)).g.termflags = w2.g.termflags := rfl
  have e5 : (clear_rawq (clear_inputq w2)).trace
      = w2.trace ++ [Event.condition_broadcast (Cond.queue_wait queue_id.inputq),
          Event.condition_broadcast (Cond.queue_wait queue_id.rawq)] := by
    simp [clear_rawq, clear_inputq, clear_queue, broadcast_events]
  have hst : (env.drain_output
      (env.notice_input_flushed (clear_rawq (clear_inputq w2)).g)).2.termstate
        = w2.g.termstate := by rw [b3, a3, e3]
  have hfl : (env.drain_output
      (env.notice_input_flushed (clear_rawq (clear_inputq w2)).g)).2.termflags
        = w2.g.termflags := by rw [b4, a4, e4]
  unfold po_destroy_last
  simp only [hst, hfl]
  by_cases hc : w2.g.termstate.c_cflag &&& HUPCL ≠ 0 ∨ w2.g.termflags &&& NO_CARRIER ≠ 0
  · simp only [if_pos hc]
    refine ⟨?_, ?_, ?_, ?_,
      (env.drain_output (env.notice_input_flushed (clear_rawq (clear_inputq w2)).g)).1, ?_⟩
    · rw [c1, b1, a1, e1]
    · rw [c2, b2, a2, e2]
    · rw [c3, hst]
    · rw [c4, hfl]
    · rw [e5]
      simp only [List.append_assoc, List.cons_append, List.nil_append]
  · simp only [if_neg hc]
    refine ⟨?_, ?_, ?_, ?_,
      (env.drain_output (env.notice_input_flushed (clear_rawq (clear_inputq w2)).g)).1, ?_⟩
    · rw [b1, a1, e1]
    · rw [b2, a2, e2]
    · exact hst
    · rw [hfl]
    · rw [e5]
      simp only [List.append_assoc, List.cons_append, List.nil_append, List.append_nil]

theorem close_frame_sample : close_frame sample_env :=
  ⟨fun _ => ⟨rfl, rfl, rfl, rfl⟩, fun _ => ⟨rfl, rfl, rfl, rfl⟩, fun _ => ⟨rfl, rfl, rfl, rfl⟩⟩

/-- C18. The peropen destruction hook on the tty, where `notice_input_flushed`,
`drain_output` and `desert_dtr` leave the input queue, the raw queue, the line
modes and the flags alone.  When the last peropen goes (`nperopens` 1) while
TTY_OPEN is set, afterwards the input queue and the raw queue are empty with
`susp` 0, TTY_OPEN is clear, and the calls made are, in order, the two queue
broadcasts, `notice_input_flushed`, `drain_output`, and then `desert_dtr`
exactly when HUPCL is set in `c_cflag` or NO_CARRIER is set.  When other
peropens remain (`nperopens` above 1) the three queues, the line modes and
the TTY_OPEN and NO_CARRIER bits are as before and nothing is called. -/
theorem po_destroy_open_to_closed (env : Env) (openmodes : Nat) (w : World)
    (hf : close_frame env) :
    (w.g.nperopens = 1 → w.g.termflags &&& TTY_OPEN ≠ 0 →
      qsize (po_destroy_hook env false openmodes w).g.inputq = 0 ∧
      (po_destroy_hook env false openmodes w).g.inputq.susp = 0 ∧
      qsize (po_destroy_hook env false openmodes w).g.rawq = 0 ∧
      (po_destroy_hook env false openmodes w).g.rawq.susp = 0 ∧
      (po_destroy_hook env false openmodes w).g.termflags &&& TTY_OPEN = 0 ∧
      ∃ err, (po_destroy_hook env false openmodes w).trace
        = w.trace ++ [Event.condition_broadcast (Cond.queue_wait queue_id.inputq),
            Event.condition_broadcast (Cond.queue_wait queue_id.rawq),
            Event.notice_input_flushed, Event.drain_output err]
          ++ (if w.g.termstate.c_cflag &&& HUPCL ≠ 0 ∨ w.g.termflags &&& NO_CARRIER ≠ 0
              then [Event.desert_dtr] else [])) ∧
    (1 < w.g.nperopens →
      (po_destroy_hook env false openmodes w).g.inputq = w.g.inputq ∧
      (po_destroy_hook env false openmodes w).g.rawq = w.g.rawq ∧
      (po_destroy_hook env false openmodes w).g.outputq = w.g.outputq ∧
      (po_destroy_hook env false openmodes w).g.termstate = w.g.termstate ∧
      (po_destroy_hook env false openmodes w).g.termflags &&& TTY_OPEN
        = w.g.termflags &&& TTY_OPEN ∧
      (po_destroy_hook env false openmodes w).g.termflags &&& NO_CARRIER
        = w.g.termflags &&& NO_CARRIER ∧
      (po_destroy_hook env false openmodes w).trace = w.trace) := by
  obtain ⟨p1, p2, p3, p4, p5, p6⟩ := po_destroy_async_frame openmodes w.g
  have d1 : ICKY_ASYNC &&& TTY_OPEN = 0 := by decide
  have d2 : ICKY_ASYNC &&& NO_CARRIER = 0 := by decide
  constructor
  · intro hn hopen
    have hcond : (po_destroy_async openmodes w.g).nperopens - 1 = 0 ∧
        (po_destroy_async openmodes w.g).termflags &&& TTY_OPEN ≠ 0 := by
      rw [p5, hn, p6 _ d1]
      exact ⟨rfl, hopen⟩
    obtain ⟨q1, q2, q3, q4, err, q5⟩ := po_destroy_last_spec env
      { g := { po_destroy_async openmodes w.g with
                nperopens := (po_destroy_async openmodes w.g).nperopens - 1 }
        trace := w.trace } hf
    have hh : po_destroy_hook env false openmodes w
        = po_destroy_last env
            { g := { po_destroy_async openmodes w.g with
                      nperopens := (po_destroy_async openmodes w.g).nperopens - 1 }
              trace := w.trace } := by
      simp only [po_destroy_hook, Bool.false_eq_true, if_false, if_pos hcond]
    rw [hh]
    refine ⟨?_, ?_, ?_, ?_, ?_, err, ?_⟩
    · rw [q1]
      simp [clear_queue, qsize]
    · rw [q1]
      rfl
    · rw [q2]
      simp [clear_queue, qsize]
    · rw [q2]
      rfl
    · rw [q4]
      exact clear_bits_and_self _ _
    · rw [q5]
      have t1 : (po_destroy_async openmodes w.g).termflags &&& NO_CARRIER ≠ 0
          ↔ w.g.termflags &&& NO_CARRIER ≠ 0 := by rw [p6 _ d2]
      simp only [p4, t1]
  · intro hn
    have hcond : ¬ ((po_destroy_async openmodes w.g).nperopens - 1 = 0 ∧
        (po_destroy_async openmodes w.g).termflags &&& TTY_OPEN ≠ 0) := by
      rw [p5]
      intro h
      omega
    have hh : po_destroy_hook env false openmodes w
        = { g := { po_destroy_async openmodes w.g with
                    nperopens := (po_destroy_async openmodes w.g).nperopens - 1 }
            trace := w.trace } := by
      simp only [po_destroy_hook, Bool.false_eq_true, if_false, if_neg hcond]
    rw [hh]
    exact ⟨p1, p2, p3, p4, p6 _ d1, p6 _ d2, rfl⟩

theorem po_destroy_open_to_closed_witness :
    close_frame sample_env ∧
    (po_destroy_hook sample_env false O_READ ⟨sample_globals, []⟩).g.termflags &&& TTY_OPEN
      = 0 ∧
    (∃ err, (po_destroy_hook sample_env false O_READ ⟨sample_globals, []⟩).trace
      = [] ++ [Event.condition_broadcast (Cond.queue_wait queue_id.inputq),
          Event.condition_broadcast (Cond.queue_wait queue_id.rawq),
          Event.notice_input_flushed, Event.drain_output err]
        ++ (if sample_globals.termstate.c_cflag &&& HUPCL ≠ 0
              ∨ sample_globals.termflags &&& NO_CARRIER ≠ 0
            then [Event.desert_dtr] else [])) ∧
    (po_destroy_hook sample_env false O_READ ⟨{ sample_globals with nperopens := 2 }, []⟩).trace
      = [] :=
  ⟨close_frame_sample,
   ((po_destroy_open_to_closed sample_env O_READ ⟨sample_globals, []⟩ close_frame_sample).1
      (by decide) (by decide)).2.2.2.2.1,
   ((po_destroy_open_to_closed sample_env O_READ ⟨sample_globals, []⟩ close_frame_sample).1
      (by decide) (by decide)).2.2.2.2.2,
   ((po_destroy_open_to_closed sample_env O_READ ⟨{ sample_globals with nperopens := 2 }, []⟩
      close_frame_sample).2 (by decide)).2.2.2.2.2.2⟩

/-! ## Exclusive use across a close -/

/-- C19 (the code at the failing input).  A session opens the closed terminal,
sets exclusive use with TIOCEXCL and closes as the last session; the terminal
is then opened again.  The close leaves TTY_OPEN clear and EXCL_USE still set;
after the second open the terminal is open by one session with EXCL_USE still
set, and a further open, concurrent with that session, returns EBUSY. -/
theorem excl_use_survives_last_close :
    reopened_after_excl.map (fun r =>
        (r.1 &&& TTY_OPEN, r.1 &&& EXCL_USE, r.2.1, r.2.2.g.nperopens,
          r.2.2.g.termflags &&& TTY_OPEN, r.2.2.g.termflags &&& EXCL_USE))
      = some (0, EXCL_USE, 2, 1, TTY_OPEN, EXCL_USE) ∧
    (reopened_after_excl.bind (fun r =>
        open_hook sample_env 0 false O_READ r.2.1 r.2.2)).map (fun r => (r.1, r.2.1))
      = some (EBUSY, 2) := by
  constructor <;> decide

/-! ## Carrier reports -/

theorem clear_bits_idem (x m : Nat) : clear_bits (clear_bits x m) m = clear_bits x m := by
  apply Nat.eq_of_testBit_eq
  intro i
  simp only [clear_bits, Nat.testBit_and, Nat.testBit_xor]
  cases x.testBit i <;> cases m.testBit i <;> rfl

theorem report_sig_end_line (w : World) : same_line w.g (report_sig_end w).g := by
  simp only [report_sig_end]
  split <;> exact ⟨rfl, rfl, rfl, rfl⟩

theorem report_sig_end_added (w : World) :
    ∃ added, (report_sig_end w).trace = w.trace ++ added ∧
      ∀ id s, Event.hurd_sig_post id s ∉ added := by
  simp only [report_sig_end]
  split
  · exact ⟨_, rfl, by simp⟩
  · exact ⟨[], by simp, by simp⟩

theorem send_signal_post_spec (env : Env) (signo : Nat) (w : World)
    (hpost : ∀ id s g, same_line g (env.hurd_sig_post id s g)) :
    same_line w.g (send_signal_post env signo w).g ∧
    ∃ added, (send_signal_post env signo w).trace
      = w.trace ++ Event.hurd_sig_post w.g.foreground_id signo :: added := by
  unfold send_signal_post
  simp only
  obtain ⟨l1, l2, l3, l4⟩ := report_sig_end_line
    { g := env.hurd_sig_post (report_sig_start w).g.foreground_id signo (report_sig_start w).g
      trace := (report_sig_start w).trace
        ++ [Event.hurd_sig_post (report_sig_start w).g.foreground_id signo] }
  obtain ⟨m1, m2, m3, m4⟩ :=
    hpost (report_sig_start w).g.foreground_id signo (report_sig_start w).g
  obtain ⟨added, ha, _⟩ := report_sig_end_added
    { g := env.hurd_sig_post (report_sig_start w).g.foreground_id signo (report_sig_start w).g
      trace := (report_sig_start w).trace
        ++ [Event.hurd_sig_post (report_sig_start w).g.foreground_id signo] }
  refine ⟨⟨l1.trans m1, l2.trans m2, l3.trans m3, l4.trans m4⟩, added, ?_⟩
  rw [ha]
  show (w.trace ++ [Event.hurd_sig_post w.g.foreground_id signo]) ++ added = _
  simp only [List.append_assoc, List.cons_append, List.nil_append]

theorem send_signal_spec (env : Env) (signo : Nat) (w : World)
    (hpost : ∀ id s g, same_line g (env.hurd_sig_post id s g)) :
    same_line w.g (send_signal env signo w).g ∧
    ∃ added, (send_signal env signo w).trace = w.trace ++ added ∧
      ((∃ id, Event.hurd_sig_post id signo ∈ added) ↔ w.g.termflags &&& NO_OWNER = 0) := by
  by_cases hno : w.g.termflags &&& NO_OWNER = 0
  · simp only [send_signal, if_pos hno]
    obtain ⟨hl, added, ha⟩ := send_signal_post_spec env signo
      { g := w.g, trace := w.trace ++ [Event.ports_get_send_right env.ports_get_send_right] }
      hpost
    refine ⟨hl,
      Event.ports_get_send_right env.ports_get_send_right
        :: Event.hurd_sig_post w.g.foreground_id signo
        :: (added ++ [Event.mach_port_deallocate env.ports_get_send_right]), ?_, ?_⟩
    · show (send_signal_post env signo _).trace
          ++ [Event.mach_port_deallocate env.ports_get_send_right] = _
      rw [ha]
      simp only [List.append_assoc, List.cons_append, List.nil_append]
    · refine ⟨fun _ => hno, fun _ => ⟨w.g.foreground_id, ?_⟩⟩
      exact List.mem_cons_of_mem _ (List.mem_cons_self _ _)
  · simp only [send_signal, if_neg hno]
    refine ⟨⟨rfl, rfl, rfl, rfl⟩, [], by simp, ?_⟩
    constructor
    · rintro ⟨id, h⟩
      simp at h
    · intro h
      exact absurd h hno

theorem carrier_off_signal (env : Env) (w4 : World)
    (hpost : ∀ id s g, same_line g (env.hurd_sig_post id s g)) :
    same_line w4.g
      (if w4.g.termstate.c_cflag &&& CLOCAL = 0 then send_signal env SIGHUP w4 else w4).g ∧
    ∃ added,
      (if w4.g.termstate.c_cflag &&& CLOCAL = 0 then send_signal env SIGHUP w4 else w4).trace
        = w4.trace ++ added ∧
      ((∃ id, Event.hurd_sig_post id SIGHUP ∈ added)
        ↔ (w4.g.termstate.c_cflag &&& CLOCAL = 0 ∧ w4.g.termflags &&& NO_OWNER = 0)) := by
  by_cases hcl : w4.g.termstate.c_cflag &&& CLOCAL = 0
  · rw [if_pos hcl]
    obtain ⟨hs, added, ha, hiff⟩ := send_signal_spec env SIGHUP w4 hpost
    exact ⟨hs, added, ha, hiff.trans ⟨fun h => ⟨hcl, h⟩, fun h => h.2⟩⟩
  · rw [if_neg hcl]
    refine ⟨⟨rfl, rfl, rfl, rfl⟩, [], by simp, ?_⟩
    constructor
    · rintro ⟨id, h⟩
      simp at h
    · intro h
      exact absurd h.1 hcl

theorem report_carrier_off_spec (env : Env) (w : World) (hf : carrier_frame env) :
    (report_carrier_off env w).g.inputq = (clear_queue w.g.inputq).1 ∧
    (report_carrier_off env w).g.termstate = w.g.termstate ∧
    (report_carrier_off env w).g.termflags = w.g.termflags ||| NO_CARRIER ∧
    ∃ added, (report_carrier_off env w).trace
        = w.trace ++ [Event.condition_broadcast (Cond.queue_wait queue_id.inputq),
            Event.notice_input_flushed, Event.drop_output] ++ added ∧
      ((∃ id, Event.hurd_sig_post id SIGHUP ∈ added)
        ↔ (w.g.termstate.c_cflag &&& CLOCAL = 0 ∧ w.g.termflags &&& NO_OWNER = 0)) := by
  obtain ⟨f1, f2, f3⟩ := hf
  obtain ⟨a1, _, a3, a4⟩ := f1 (clear_inputq w).g
  obtain ⟨b1, _, b3, b4⟩ := f2 (env.notice_input_flushed (clear_inputq w).g)
  have e1 : (clear_inputq w).g.inputq = (clear_queue w.g.inputq).1 := rfl
  have e3 : (clear_inputq w).g.termstate = w.g.termstate := rfl
  have e4 : (clear_inputq w).g.termflags = w.g.termflags := rfl
  have e5 : (clear_inputq w).trace
      = w.trace ++ [Event.condition_broadcast (Cond.queue_wait queue_id.inputq)] := by
    simp [clear_inputq, clear_queue, broadcast_events]
  have hq : (env.drop_output (env.notice_input_flushed (clear_inputq w).g)).inputq
      = (clear_queue w.g.inputq).1 := by rw [b1, a1, e1]
  have hst : (env.drop_output (env.notice_input_flushed (clear_inputq w).g)).termstate
      = w.g.termstate := by rw [b3, a3, e3]
  have hfl : (env.drop_output (env.notice_input_flushed (clear_inputq w).g)).termflags
      = w.g.termflags := by rw [b4, a4, e4]
  have d1 : NO_CARRIER &&& NO_OWNER = 0 := by decide
  have hdef : report_carrier_off env w
      = if (carrier_off_flush env w).g.termstate.c_cflag &&& CLOCAL = 0
        then send_signal env SIGHUP (carrier_off_flush env w)
        else carrier_off_flush env w := rfl
  have k1 : (carrier_off_flush env w).g.inputq = (clear_queue w.g.inputq).1 := hq
  have k2 : (carrier_off_flush env w).g.termstate = w.g.termstate := hst
  have k3 : (carrier_off_flush env w).g.termflags = w.g.termflags ||| NO_CARRIER :=
    congrArg (fun x => x ||| NO_CARRIER) hfl
  have k4 : (carrier_off_flush env w).trace
      = w.trace ++ [Event.condition_broadcast (Cond.queue_wait queue_id.inputq),
          Event.notice_input_flushed, Event.drop_output] := by
    show (clear_inputq w).trace ++ [Event.notice_input_flushed] ++ [Event.drop_output] = _
    rw [e5]
    simp only [List.append_assoc, List.cons_append, List.nil_append]
  rw [hdef]
  generalize carrier_off_flush env w = w4 at k1 k2 k3 k4
  obtain ⟨⟨s1, _, s3, s4⟩, added, ha, hiff⟩ := carrier_off_signal env w4 f3
  refine ⟨s1.trans k1, s3.trans k2, s4.trans k3, added, ?_, ?_⟩
  · rw [ha, k4]
  · rw [hiff, k2, k3, or_and_other _ _ _ d1]

theorem io_read_eof (env : Env) (fuel : Nat) (cred : trivfs_protid) (amount : Int)
    (w : World) (htty : cred.pi_class ≠ port_class.pty_class)
    (hread : cred.openmodes &&& O_READ ≠ 0) (hfg : fg_p w.g cred ≠ 0)
    (hempty : qsize w.g.inputq = 0)
    (hc : w.g.termflags &&& NO_CARRIER ≠ 0 ∧ w.g.termstate.c_cflag &&& CLOCAL = 0) :
    trivfs_S_io_read env fuel (some cred) amount w = some (0, some [], w) := by
  have hw : read_wait env cred fuel w = some (some (0, some []), w) := by
    unfold read_wait
    rw [if_neg (by simpa using hempty), if_pos hc]
  simp only [trivfs_S_io_read, if_neg htty, if_neg hread, if_neg hfg, hw]

theorem carrier_frame_sample : carrier_frame sample_env :=
  ⟨fun _ => ⟨rfl, rfl, rfl, rfl⟩, fun _ => ⟨rfl, rfl, rfl, rfl⟩,
    fun _ _ _ => ⟨rfl, rfl, rfl, rfl⟩⟩

/-- C20. The carrier reports, where `notice_input_flushed`, `drop_output` and
`hurd_sig_post` leave the input queue, the line modes and the flags alone, and
a tty session `cred`.  After `report_carrier_off` the input queue is empty,
NO_CARRIER is set, and the calls made are the input queue's broadcast,
`notice_input_flushed`, `drop_output` and then a `hurd_sig_post` of SIGHUP
exactly when CLOCAL is clear and NO_OWNER is clear.  If CLOCAL is clear, a
read by a foreground session with O_READ then returns 0 with a zero-length
result and a write by a session with O_WRITE that may write returns the EIO
refusal, both leaving the state alone.  `report_carrier_on` changes the flag
word only, to one with NO_CARRIER clear and every other bit as before, and
broadcasts on `carrier_alert`; after it no write is refused with EIO.  Two
calls of `report_carrier_on` leave the same globals as one. -/
theorem carrier_state_machine (env : Env) (fuel : Nat) (cred : trivfs_protid)
    (amount : Int) (data : List Int) (w : World) (hf : carrier_frame env)
    (htty : cred.pi_class ≠ port_class.pty_class) :
    qsize (report_carrier_off env w).g.inputq = 0 ∧
    (report_carrier_off env w).g.termflags &&& NO_CARRIER ≠ 0 ∧
    (∃ added, (report_carrier_off env w).trace
        = w.trace ++ [Event.condition_broadcast (Cond.queue_wait queue_id.inputq),
            Event.notice_input_flushed, Event.drop_output] ++ added ∧
      ((∃ id, Event.hurd_sig_post id SIGHUP ∈ added)
        ↔ (w.g.termstate.c_cflag &&& CLOCAL = 0 ∧ w.g.termflags &&& NO_OWNER = 0))) ∧
    (w.g.termstate.c_cflag &&& CLOCAL = 0 →
      (cred.openmodes &&& O_READ ≠ 0 → fg_p (report_carrier_off env w).g cred ≠ 0 →
        trivfs_S_io_read env fuel (some cred) amount (report_carrier_off env w)
          = some (0, some [], report_carrier_off env w)) ∧
      (cred.openmodes &&& O_WRITE ≠ 0 →
        ¬ ((report_carrier_off env w).g.termstate.c_lflag &&& TOSTOP ≠ 0
            ∧ fg_p (report_carrier_off env w).g cred = 0) →
        trivfs_S_io_write env fuel (some cred) data (report_carrier_off env w)
          = some ( EIO, none, report_carrier_off env w))) ∧
    report_carrier_on w
      = { g := { w.g with termflags := clear_bits w.g.termflags NO_CARRIER }
          trace := w.trace ++ [Event.condition_broadcast Cond.carrier_alert] } ∧
    clear_bits w.g.termflags NO_CARRIER &&& NO_CARRIER = 0 ∧
    (∀ k, NO_CARRIER &&& k = 0 →
      clear_bits w.g.termflags NO_CARRIER &&& k = w.g.termflags &&& k) ∧
    (∀ w1, trivfs_S_io_write env fuel (some cred) data (report_carrier_on w)
      ≠ some ( EIO, none, w1)) ∧
    (report_carrier_on (report_carrier_on w)).g = (report_carrier_on w).g := by
  obtain ⟨r1, r2, r3, r4⟩ := report_carrier_off_spec env w hf
  have hset : (report_carrier_off env w).g.termflags &&& NO_CARRIER ≠ 0 := by
    rw [r3, or_and_self]
    decide
  have hempty : qsize (report_carrier_off env w).g.inputq = 0 := by
    rw [r1]
    simp [clear_queue, qsize]
  refine ⟨hempty, hset, r4, fun hcl => ⟨fun hread hfg => ?_, fun hwr hbg => ?_⟩, rfl,
    clear_bits_and_self _ _, fun k hk => clear_bits_and_other _ _ _ hk, fun w1 h => ?_, ?_⟩
  · exact io_read_eof env fuel cred amount _ htty hread hfg hempty
      ⟨hset, by rw [r2]; exact hcl⟩
  · exact io_write_eio env fuel cred data _ htty hwr hbg ⟨hset, by rw [r2]; exact hcl⟩
  · have hclear : (report_carrier_on w).g.termflags &&& NO_CARRIER = 0 :=
      clear_bits_and_self _ _
    by_cases h1 : cred.openmodes &&& O_WRITE = 0
    · simp only [trivfs_S_io_write, if_neg htty, if_pos h1, Option.some.injEq,
        Prod.mk.injEq] at h
      exact absurd h.1 (by decide)
    · by_cases h2 : (report_carrier_on w).g.termstate.c_lflag &&& TOSTOP ≠ 0
          ∧ fg_p (report_carrier_on w).g cred = 0
      · simp only [trivfs_S_io_write, if_neg htty, if_neg h1, if_pos h2, Option.some.injEq,
          Prod.mk.injEq] at h
        exact absurd h.1 (by decide)
      · exact (io_write_permitted env fuel cred data _ htty
          ⟨h1, h2, fun h3 => h3.1 hclear⟩ _ _ _ h).1 rfl
  · show ({ w.g with termflags := clear_bits (clear_bits w.g.termflags NO_CARRIER) NO_CARRIER }
        : Globals) = { w.g with termflags := clear_bits w.g.termflags NO_CARRIER }
    rw [clear_bits_idem]

theorem carrier_state_machine_witness :
    carrier_frame sample_env ∧
    trivfs_S_io_read sample_env 0 (some ⟨port_class.tty_class, O_READ ||| O_WRITE, none⟩) 10
        (report_carrier_off sample_env ⟨sample_globals, []⟩)
      = some (0, some [], report_carrier_off sample_env ⟨sample_globals, []⟩) ∧
    trivfs_S_io_write sample_env 0 (some ⟨port_class.tty_class, O_READ ||| O_WRITE, none⟩)
        [104, 105] (report_carrier_off sample_env ⟨sample_globals, []⟩)
      = some ( EIO, none, report_carrier_off sample_env ⟨sample_globals, []⟩) ∧
    (∀ w1, trivfs_S_io_write sample_env 0
        (some ⟨port_class.tty_class, O_READ ||| O_WRITE, none⟩) [104, 105]
        (report_carrier_on (report_carrier_off sample_env ⟨sample_globals, []⟩))
      ≠ some ( EIO, none, w1)) :=
  ⟨carrier_frame_sample,
   ((carrier_state_machine sample_env 0 ⟨port_class.tty_class, O_READ ||| O_WRITE, none⟩ 10
      [104, 105] ⟨sample_globals, []⟩ carrier_frame_sample (by decide)).2.2.2.1
      (by decide)).1 (by decide) (by decide),
   ((carrier_state_machine sample_env 0 ⟨port_class.tty_class, O_READ ||| O_WRITE, none⟩ 10
      [104, 105] ⟨sample_globals, []⟩ carrier_frame_sample (by decide)).2.2.2.1
      (by decide)).2 (by decide) (by decide),
   (carrier_state_machine sample_env 0 ⟨port_class.tty_class, O_READ ||| O_WRITE, none⟩ 10
      [104, 105] (report_carrier_off sample_env ⟨sample_globals, []⟩) carrier_frame_sample
      (by decide)).2.2.2.2.2.2.2.1⟩

/-! ## Async notifications -/

/-- C21 (the code at the failing input).  One target (port 7) is registered.
`call_asyncs (O_WRITE)` with the output queue suspended (`qavail` 0) sends the
notification to port 7, and with ICKY_ASYNC set also posts SIGIO to the owner;
`call_asyncs (O_READ)` with the input queue empty and the output queue not
suspended sends it too.  The second guard returns only when `dir` lacks
O_WRITE and the output queue is suspended, as in `call_asyncs (O_READ)` with
the input queue empty and the output queue suspended. -/
theorem call_asyncs_notifies_when_blocked :
    qavail blocked_globals.outputq = 0 ∧ qsize blocked_globals.inputq = 0 ∧
    call_asyncs sample_env O_WRITE ⟨blocked_globals, []⟩
      = ⟨blocked_globals, [Event.nowait_msg_sig_post 7 SIGIO 0]⟩ ∧
    (call_asyncs sample_env O_WRITE
        ⟨{ blocked_globals with termflags := TTY_OPEN ||| ICKY_ASYNC }, []⟩).trace
      = [Event.hurd_sig_post 42 SIGIO, Event.nowait_msg_sig_post 7 SIGIO 0] ∧
    call_asyncs sample_env O_READ ⟨{ blocked_globals with outputq := sample_globals.outputq }, []⟩
      = ⟨{ blocked_globals with outputq := sample_globals.outputq },
          [Event.nowait_msg_sig_post 7 SIGIO 0]⟩ ∧
    call_asyncs sample_env O_READ ⟨blocked_globals, []⟩ = ⟨blocked_globals, []⟩ := by
  refine ⟨?_, ?_, ?_, ?_, ?_, ?_⟩ <;> decide

theorem notified_append (a b : List Event) : notified (a ++ b) = notified a ++ notified b := by
  simp [notified, List.filterMap_append]

theorem call_asyncs_loop_spec (env : Env) (l : List Nat) :
    (call_asyncs_loop env l).1
      = l.filter (fun ar => decide (env.nowait_msg_sig_post ar SIGIO ≠ MACH_SEND_INVALID_DEST)) ∧
    notified (call_asyncs_loop env l).2 = l := by
  induction l with
  | nil => exact ⟨rfl, rfl⟩
  | cons ar nxt ih =>
    obtain ⟨ih1, ih2⟩ := ih
    by_cases h : env.nowait_msg_sig_post ar SIGIO = MACH_SEND_INVALID_DEST
    · have hd : decide (env.nowait_msg_sig_post ar SIGIO ≠ MACH_SEND_INVALID_DEST) = false := by
        simp [h]
      constructor
      · simp only [call_asyncs_loop, if_pos h, List.filter_cons, hd, ih1]
        rfl
      · simp only [call_asyncs_loop, if_pos h]
        show notified ([Event.nowait_msg_sig_post ar SIGIO _, Event.mach_port_deallocate ar]
          ++ (call_asyncs_loop env nxt).2) = _
        rw [notified_append, ih2]
        rfl
    · have hd : decide (env.nowait_msg_sig_post ar SIGIO ≠ MACH_SEND_INVALID_DEST) = true := by
        simp [h]
      constructor
      · simp only [call_asyncs_loop, if_neg h, List.filter_cons, hd, ih1]
        rfl
      · simp only [call_asyncs_loop, if_neg h]
        show notified ([Event.nowait_msg_sig_post ar SIGIO _] ++ (call_asyncs_loop env nxt).2)
          = _
        rw [notified_append, ih2]
        rfl

theorem report_sig_end_async (w : World) :
    (report_sig_end w).g.async_requests = w.g.async_requests ∧
    ∃ added, (report_sig_end w).trace = w.trace ++ added ∧ notified added = [] := by
  simp only [report_sig_end]
  split
  · exact ⟨rfl, _, rfl, rfl⟩
  · exact ⟨rfl, [], by simp, rfl⟩

/-- C22. Whenever `call_asyncs` gets past its two guards, where a
`hurd_sig_post` leaves the list of requests alone, `nowait_msg_sig_post` is
called once on every target of `async_requests`, in the order of the list, and
the list left is the previous list without the targets whose send returned
MACH_SEND_INVALID_DEST, the others in their previous order.
`trivfs_S_io_async` by a session with O_READ or O_WRITE returns 0 and puts the
new target at the head of the list; by a session with neither it returns
EBADF and leaves the state alone. -/
theorem call_asyncs_fan_out (env : Env) (dir : Nat) (w : World) (cred : trivfs_protid)
    (notify : Nat)
    (hpost : ∀ id s g, (env.hurd_sig_post id s g).async_requests = g.async_requests) :
    (¬ (w.g.termflags &&& ICKY_ASYNC = 0 ∧ w.g.async_requests = []) →
      ¬ ((dir &&& O_READ = 0 ∨ qsize w.g.inputq = 0)
          ∧ (dir &&& O_WRITE = 0 ∧ qavail w.g.outputq = 0)) →
      (call_asyncs env dir w).g.async_requests
        = w.g.async_requests.filter
            (fun ar => decide (env.nowait_msg_sig_post ar SIGIO ≠ MACH_SEND_INVALID_DEST)) ∧
      ∃ added, (call_asyncs env dir w).trace = w.trace ++ added ∧
        notified added = w.g.async_requests) ∧
    (cred.openmodes &&& (O_READ ||| O_WRITE) ≠ 0 →
      trivfs_S_io_async (some cred) notify w
        = (0, { w with g := { w.g with async_requests := notify :: w.g.async_requests } })) ∧
    (cred.openmodes &&& (O_READ ||| O_WRITE) = 0 →
      trivfs_S_io_async (some cred) notify w = (EBADF, w)) := by
  refine ⟨fun h1 h2 => ?_, fun h => ?_, fun h => ?_⟩
  · by_cases h3 : w.g.termflags &&& ICKY_ASYNC ≠ 0 ∧ w.g.termflags &&& NO_OWNER = 0
    · obtain ⟨e1, added, e2, e3⟩ := report_sig_end_async
        { g := env.hurd_sig_post (report_sig_start w).g.foreground_id SIGIO (report_sig_start w).g
          trace := (report_sig_start w).trace
            ++ [Event.hurd_sig_post (report_sig_start w).g.foreground_id SIGIO] }
      have e4 : (env.hurd_sig_post (report_sig_start w).g.foreground_id SIGIO
          (report_sig_start w).g).async_requests = w.g.async_requests := by
        rw [hpost]
        rfl
      simp only [call_asyncs, if_neg h1, if_neg h2, if_pos h3]
      rw [e1, e2]
      simp only [e4]
      obtain ⟨l1, l2⟩ := call_asyncs_loop_spec env w.g.async_requests
      refine ⟨l1, [Event.hurd_sig_post (report_sig_start w).g.foreground_id SIGIO] ++ added
        ++ (call_asyncs_loop env w.g.async_requests).2, ?_, ?_⟩
      · show (w.trace ++ [Event.hurd_sig_post (report_sig_start w).g.foreground_id SIGIO])
            ++ added ++ _ = _
        simp only [List.append_assoc]
      · rw [notified_append, notified_append, e3, l2]
        rfl
    · simp only [call_asyncs, if_neg h1, if_neg h2, if_neg h3]
      obtain ⟨l1, l2⟩ := call_asyncs_loop_spec env w.g.async_requests
      exact ⟨l1, _, rfl, l2⟩
  · simp only [trivfs_S_io_async, if_neg h]
  · simp only [trivfs_S_io_async, if_pos h]

theorem call_asyncs_fan_out_witness :
    (call_asyncs { sample_env with
        nowait_msg_sig_post := fun n _ => if n = 7 then 0 else MACH_SEND_INVALID_DEST }
      O_READ ⟨{ line_globals with async_requests := [5, 7, 8, 9] }, []⟩).g.async_requests
      = [7] ∧
    trivfs_S_io_async (some ⟨port_class.tty_class, O_READ, none⟩) 3
        ⟨{ sample_globals with async_requests := [7] }, []⟩
      = (0, ⟨{ sample_globals with async_requests := [3, 7] }, []⟩) ∧
    trivfs_S_io_async (some ⟨port_class.tty_class, O_NONBLOCK, none⟩) 3
        ⟨{ sample_globals with async_requests := [7] }, []⟩
      = (EBADF, ⟨{ sample_globals with async_requests := [7] }, []⟩) :=
  ⟨(((call_asyncs_fan_out { sample_env with
        nowait_msg_sig_post := fun n _ => if n = 7 then 0 else MACH_SEND_INVALID_DEST }
      O_READ ⟨{ line_globals with async_requests := [5, 7, 8, 9] }, []⟩
      ⟨port_class.tty_class, O_READ, none⟩ 3 (fun _ _ _ => rfl)).1
      (by decide) (by decide)).1).trans (by decide),
   (call_asyncs_fan_out sample_env O_READ ⟨{ sample_globals with async_requests := [7] }, []⟩
      ⟨port_class.tty_class, O_READ, none⟩ 3 (fun _ _ _ => rfl)).2.1 (by decide),
   (call_asyncs_fan_out sample_env O_READ ⟨{ sample_globals with async_requests := [7] }, []⟩
      ⟨port_class.tty_class, O_NONBLOCK, none⟩ 3 (fun _ _ _ => rfl)).2.2 (by decide)⟩

/-! ## Becoming a controlling terminal -/

/-- C23 (the code at the failing input).  A tty session whose open modes are
O_NONBLOCK alone, neither O_READ nor O_WRITE: `S_term_getctty` returns EBADF,
`S_term_open_ctty` returns 0 and hands out a new handle with the identity
given (here with a `trivfs_protid_dup` that succeeds and copies the session).
For every value of the open modes `S_term_open_ctty` returns EBADF exactly
when the open modes are 0, since `!` applies to the open modes before the
mask does. -/
theorem open_ctty_accepts_without_read_write (openmodes : Nat) (pid pgrp : Int) :
    S_term_getctty (some ⟨port_class.tty_class, O_NONBLOCK, none⟩) = EBADF ∧
    S_term_open_ctty (fun c => (0, c)) (some ⟨port_class.tty_class, O_NONBLOCK, none⟩) 10 20
      = (0, some ⟨port_class.tty_class, O_NONBLOCK, some ⟨1, 10, 20⟩⟩) ∧
    O_NONBLOCK &&& (O_READ ||| O_WRITE) = 0 ∧
    S_term_open_ctty (fun c => (0, c)) (some ⟨port_class.tty_class, openmodes, none⟩) pid pgrp
      = (if openmodes = 0 then (EBADF, none)
         else (0, some ⟨port_class.tty_class, openmodes, some ⟨1, pid, pgrp⟩⟩)) ∧
    S_term_getctty (some ⟨port_class.tty_class, openmodes, none⟩)
      = (if openmodes &&& (O_READ ||| O_WRITE) = 0 then EBADF else 0) := by
  refine ⟨by decide, by decide, by decide, ?_, ?_⟩
  · by_cases h : openmodes = 0
    · subst h
      rfl
    · have h1 : ¬ (0 &&& (O_READ ||| O_WRITE) ≠ 0) := by decide
      have h2 : ¬ ((port_class.tty_class : port_class) ≠ port_class.tty_class) := fun h => h rfl
      have h3 : ¬ ((0 : Nat) ≠ 0) := fun h => h rfl
      simp only [S_term_open_ctty, if_neg h, if_neg h1, if_neg h2, if_neg h3]
  · have h2 : ¬ ((port_class.tty_class : port_class) ≠ port_class.tty_class) := fun h => h rfl
    simp only [S_term_getctty, if_neg h2]

/-! ## Signals in progress -/

theorem toInt32_neg_neg (p : Int) (h1 : -2147483648 ≤ p) (h2 : p ≤ 2147483647) :
    toInt32 (-toInt32 (-p)) = p := by
  unfold toInt32
  omega

theorem toInt32_neg (p : Int) (h1 : -2147483648 < p) (h2 : p ≤ 2147483647) :
    toInt32 (-p) = -p := by
  unfold toInt32
  omega

/-- C25. The foreground id, for an `int` value `p` or `o`, a tty or pty session
`cred` with O_READ or O_WRITE and any tty or pty session `other`.  After
`S_tioctl_tiocspgrp (p)` by `cred`, NO_OWNER is clear, `S_tioctl_tiocgpgrp`
returns `p`, `trivfs_S_io_get_owner` returns the `int` negation of `p` (which
is `-p` unless `p` is INT_MIN) and `fg_p` is true for every session whose
attached pgrp is `p`.  After `trivfs_S_io_mod_owner (o)`,
`trivfs_S_io_get_owner` returns `o` and `S_tioctl_tiocgpgrp` the `int`
negation of `o`.  While NO_OWNER is set both getters return ENOTTY and store
nothing; `S_tioctl_tiocspgrp` by a session with neither O_READ nor O_WRITE
returns EBADF and leaves the state alone. -/
theorem foreground_id_round_trip (cred other : trivfs_protid) (p o : Int) (w : World)
    (hcl : cred.pi_class = port_class.pty_class ∨ cred.pi_class = port_class.tty_class)
    (hol : other.pi_class = port_class.pty_class ∨ other.pi_class = port_class.tty_class)
    (hp1 : -2147483648 ≤ p) (hp2 : p ≤ 2147483647) :
    (cred.openmodes &&& (O_READ ||| O_WRITE) ≠ 0 →
      (S_tioctl_tiocspgrp (some cred) p w).1 = 0 ∧
      (S_tioctl_tiocspgrp (some cred) p w).2.g.termflags &&& NO_OWNER = 0 ∧
      S_tioctl_tiocgpgrp (some other) (S_tioctl_tiocspgrp (some cred) p w).2 = (0, some p) ∧
      trivfs_S_io_get_owner (some other) (S_tioctl_tiocspgrp (some cred) p w).2
        = (0, some (toInt32 (-p))) ∧
      (-2147483648 < p → toInt32 (-p) = -p) ∧
      (∀ hook : protid_hook, hook.pgrp = p →
        fg_p (S_tioctl_tiocspgrp (some cred) p w).2.g { other with hook := some hook } = 1)) ∧
    ((trivfs_S_io_mod_owner (some other) o w).1 = 0 ∧
      (trivfs_S_io_mod_owner (some other) o w).2.g.termflags &&& NO_OWNER = 0 ∧
      trivfs_S_io_get_owner (some other) (trivfs_S_io_mod_owner (some other) o w).2
        = (0, some o) ∧
      S_tioctl_tiocgpgrp (some other) (trivfs_S_io_mod_owner (some other) o w).2
        = (0, some (toInt32 (-o))) ∧
      (-2147483648 < o → o ≤ 2147483647 → toInt32 (-o) = -o)) ∧
    (w.g.termflags &&& NO_OWNER ≠ 0 →
      S_tioctl_tiocgpgrp (some other) w = (ENOTTY, none) ∧
      trivfs_S_io_get_owner (some other) w = (ENOTTY, none)) ∧
    (cred.openmodes &&& (O_READ ||| O_WRITE) = 0 →
      S_tioctl_tiocspgrp (some cred) p w = (EBADF, w)) := by
  have hc : ¬ (cred.pi_class ≠ port_class.pty_class ∧ cred.pi_class ≠ port_class.tty_class) := by
    intro h
    cases hcl with
    | inl h0 => exact h.1 h0
    | inr h0 => exact h.2 h0
  have ho : ¬ (other.pi_class ≠ port_class.pty_class
      ∧ other.pi_class ≠ port_class.tty_class) := by
    intro h
    cases hol with
    | inl h0 => exact h.1 h0
    | inr h0 => exact h.2 h0
  have hclear : ¬ (clear_bits w.g.termflags NO_OWNER &&& NO_OWNER ≠ 0) :=
    fun h => h (clear_bits_and_self _ _)
  refine ⟨fun hm => ?_, ?_, fun hno => ?_, fun hm => ?_⟩
  · have e : S_tioctl_tiocspgrp (some cred) p w
        = (0, { g := { w.g with
                        termflags := clear_bits w.g.termflags NO_OWNER
                        foreground_id := toInt32 (-p) }
                trace := w.trace }) := by
      simp only [S_tioctl_tiocspgrp, if_neg hc, if_neg hm]
    rw [e]
    refine ⟨rfl, clear_bits_and_self _ _, ?_, ?_, fun h => toInt32_neg p h hp2,
      fun hook hk => ?_⟩
    · simp only [S_tioctl_tiocgpgrp, if_neg ho, if_neg hclear, toInt32_neg_neg p hp1 hp2]
    · simp only [trivfs_S_io_get_owner, if_neg hclear]
    · simp only [fg_p, if_neg hclear, toInt32_neg_neg p hp1 hp2, hk, or_true, if_true]
  · have e : trivfs_S_io_mod_owner (some other) o w
        = (0, { g := { w.g with
                        termflags := clear_bits w.g.termflags NO_OWNER
                        foreground_id := o }
                trace := w.trace }) := rfl
    rw [e]
    refine ⟨rfl, clear_bits_and_self _ _, ?_, ?_, fun h1 h2 => toInt32_neg o h1 h2⟩
    · simp only [trivfs_S_io_get_owner, if_neg hclear]
    · simp only [S_tioctl_tiocgpgrp, if_neg ho, if_neg hclear]
  · constructor
    · simp only [S_tioctl_tiocgpgrp, if_neg ho, if_pos hno]
    · simp only [trivfs_S_io_get_owner, if_pos hno]
  · simp only [S_tioctl_tiocspgrp, if_neg hc, if_pos hm]

theorem foreground_id_round_trip_witness :
    S_tioctl_tiocgpgrp (some ⟨port_class.tty_class, 0, none⟩)
        (S_tioctl_tiocspgrp (some ⟨port_class.tty_class, O_READ, none⟩) 77
          ⟨{ sample_globals with termflags := TTY_OPEN ||| NO_OWNER }, []⟩).2
      = (0, some 77) ∧
    trivfs_S_io_get_owner (some ⟨port_class.tty_class, 0, none⟩)
        (S_tioctl_tiocspgrp (some ⟨port_class.tty_class, O_READ, none⟩) 77
          ⟨{ sample_globals with termflags := TTY_OPEN ||| NO_OWNER }, []⟩).2
      = (0, some (-77)) ∧
    S_tioctl_tiocgpgrp (some ⟨port_class.tty_class, 0, none⟩)
        ⟨{ sample_globals with termflags := TTY_OPEN ||| NO_OWNER }, []⟩
      = (ENOTTY, none) :=
  ⟨((foreground_id_round_trip ⟨port_class.tty_class, O_READ, none⟩
      ⟨port_class.tty_class, 0, none⟩ 77 5
      ⟨{ sample_globals with termflags := TTY_OPEN ||| NO_OWNER }, []⟩
      (Or.inr rfl) (Or.inr rfl) (by decide) (by decide)).1 (by decide)).2.2.1,
   (((foreground_id_round_trip ⟨port_class.tty_class, O_READ, none⟩
      ⟨port_class.tty_class, 0, none⟩ 77 5
      ⟨{ sample_globals with termflags := TTY_OPEN ||| NO_OWNER }, []⟩
      (Or.inr rfl) (Or.inr rfl) (by decide) (by decide)).1 (by decide)).2.2.2.1).trans
      (by decide),
   ((foreground_id_round_trip ⟨port_class.tty_class, O_READ, none⟩
      ⟨port_class.tty_class, 0, none⟩ 77 5
      ⟨{ sample_globals with termflags := TTY_OPEN ||| NO_OWNER }, []⟩
      (Or.inr rfl) (Or.inr rfl) (by decide) (by decide)).2.2.1 (by decide)).1⟩

/-! ## The count of sessions with O_ASYNC -/

/-- C26 (the code at the failing input).  One session has opened the terminal
with O_READ and O_ASYNC: the counter is 1, ICKY_ASYNC is set and the
bookkeeping holds.  `trivfs_S_io_set_all_openmodes` with O_ASYNC on that
session, and `trivfs_S_io_clear_some_openmodes` with O_NONBLOCK on it, each
leave the session with O_ASYNC, the counter 0 and ICKY_ASYNC clear.  For
comparison, `trivfs_S_io_set_some_openmodes` with O_ASYNC and
`trivfs_S_io_clear_some_openmodes` with O_ASYNC keep the bookkeeping. -/
theorem async_count_lost_by_openmodes :
    async_opened.map (fun w =>
        (w.g.num_icky_async_peropens, w.g.termflags &&& ICKY_ASYNC,
          async_invariant [O_READ ||| O_ASYNC] w.g))
      = some (1, ICKY_ASYNC, true) ∧
    async_opened.map (fun w => async_report
        (trivfs_S_io_set_all_openmodes sample_env
          (some ⟨port_class.tty_class, O_READ ||| O_ASYNC, none⟩) O_ASYNC w))
      = some (0, [O_READ ||| O_ASYNC], 0, 0, false) ∧
    async_opened.map (fun w => async_report
        (trivfs_S_io_clear_some_openmodes
          (some ⟨port_class.tty_class, O_READ ||| O_ASYNC, none⟩) O_NONBLOCK w))
      = some (0, [O_READ ||| O_ASYNC], 0, 0, false) ∧
    async_opened.map (fun w => async_report
        (trivfs_S_io_set_some_openmodes sample_env
          (some ⟨port_class.tty_class, O_READ ||| O_ASYNC, none⟩) O_ASYNC w))
      = some (0, [O_READ ||| O_ASYNC], 1, ICKY_ASYNC, true) ∧
    async_opened.map (fun w => async_report
        (trivfs_S_io_clear_some_openmodes
          (some ⟨port_class.tty_class, O_READ ||| O_ASYNC, none⟩) O_ASYNC w))
      = some (0, [O_READ], 0, 0, true) := by
  refine ⟨?_, ?_, ?_, ?_, ?_⟩ <;> decide

/-! ## Setting the line modes -/

theorem keeps_modes_refl (g : Globals) : keeps_modes g g := ⟨rfl, rfl⟩

theorem keeps_modes_trans (g g1 g2 : Globals) (h1 : keeps_modes g g1)
    (h2 : keeps_modes g1 g2) : keeps_modes g g2 :=
  ⟨h2.1.trans h1.1, h2.2.trans h1.2⟩

theorem set_state_abandon_modes (env : Env) (cred : trivfs_protid) (w : World)
    (hk : ∀ g, keeps_modes g (env.abandon_physical_output g).2) :
    keeps_modes w.g (set_state_abandon env cred w).2.g := by
  unfold set_state_abandon
  split
  · simp only
    split
    · exact hk w.g
    · exact hk w.g
  · exact keeps_modes_refl _

theorem set_state_drain_modes (env : Env) (draino : Int) (w : World)
    (hk : ∀ g, keeps_modes g (env.drain_output g).2) :
    keeps_modes w.g (set_state_drain env draino w).2.g := by
  unfold set_state_drain
  split
  · exact hk w.g
  · exact keeps_modes_refl _

theorem set_state_flush_modes (env : Env) (flushi : Int) (w : World)
    (hk : ∀ g, keeps_modes g (env.notice_input_flushed g)) :
    keeps_modes w.g (set_state_flush env flushi w).2.g := by
  unfold set_state_flush
  split
  · simp only
    split
    · exact hk w.g
    · exact hk w.g
  · exact keeps_modes_refl _

theorem set_state_install_spec (env : Env) (modes ccs speeds : List Nat) (w : World)
    (hf : set_state_frame env) :
    ((set_state_install env modes ccs speeds w).1 ≠ 0 →
      (set_state_install env modes ccs speeds w).2.g.termstate = w.g.termstate) ∧
    ((set_state_install env modes ccs speeds w).1 = 0 →
      (set_state_install env modes ccs speeds w).2.g.termstate
        = set_state_request w.g modes ccs speeds) := by
  obtain ⟨_, _, _, f4, f5, f6, f7⟩ := hf
  unfold set_state_install
  simp only
  by_cases hb : (env.set_bits (set_state_request w.g modes ccs speeds) w.g).1 ≠ 0
  · rw [if_pos hb]
    exact ⟨fun _ => (f4 _ _).1, fun h => absurd h hb⟩
  · rw [if_neg hb]
    have hb0 : (env.set_bits (set_state_request w.g modes ccs speeds) w.g).1 = 0 := by
      simpa using hb
    have hst := f5 _ _ hb0
    refine ⟨fun h => ?_, fun _ => ?_⟩
    · exfalso
      revert h
      split
      · split <;> exact fun h => h rfl
      · split <;> exact fun h => h rfl
    · split
      · split
        · exact ((f6 _).1).trans hst
        · exact hst
      · split
        · exact ((f7 _).1).trans hst
        · exact hst

theorem set_state_request_congr (g g1 : Globals) (modes ccs speeds : List Nat)
    (h : g1.external_processing = g.external_processing) :
    set_state_request g1 modes ccs speeds = set_state_request g modes ccs speeds := by
  unfold set_state_request
  rw [h]

theorem tiocgeta_congr (cred : Option trivfs_protid) (w w1 : World)
    (h : w1.g.termstate = w.g.termstate) :
    S_tioctl_tiocgeta cred w1 = S_tioctl_tiocgeta cred w := by
  unfold S_tioctl_tiocgeta
  rw [h]

theorem set_state_result (env : Env) (cred : trivfs_protid) (modes ccs speeds : List Nat)
    (draino flushi : Int) (w : World) (hf : set_state_frame env) :
    ((set_state env (some cred) modes ccs speeds draino flushi w).1 ≠ 0 →
      (set_state env (some cred) modes ccs speeds draino flushi w).2.g.termstate
        = w.g.termstate) ∧
    ((set_state env (some cred) modes ccs speeds draino flushi w).1 = 0 →
      (set_state env (some cred) modes ccs speeds draino flushi w).2.g.termstate
        = set_state_request w.g modes ccs speeds ∧
      ¬ (cred.pi_class ≠ port_class.pty_class ∧ cred.pi_class ≠ port_class.tty_class)) := by
  have hf' := hf
  obtain ⟨f1, f2, f3, _, _, _, _⟩ := hf
  have k1 := set_state_abandon_modes env cred w f1
  have k2 := keeps_modes_trans _ _ _ k1
    (set_state_drain_modes env draino (set_state_abandon env cred w).2 f2)
  have k3 := keeps_modes_trans _ _ _ k2
    (set_state_flush_modes env flushi
      (set_state_drain env draino (set_state_abandon env cred w).2).2 f3)
  obtain ⟨i1, i2⟩ := set_state_install_spec env modes ccs speeds
    (set_state_flush env flushi
      (set_state_drain env draino (set_state_abandon env cred w).2).2).2 hf'
  have d1 : EOPNOTSUPP ≠ 0 := by decide
  have d2 : EBADF ≠ 0 := by decide
  have d3 : EBACKGROUND ≠ 0 := by decide
  unfold set_state
  simp only
  split
  · exact ⟨fun _ => rfl, fun h => absurd h d1⟩
  · rename_i hcl
    split
    · exact ⟨fun _ => rfl, fun h => absurd h d2⟩
    · split
      · exact ⟨fun _ => rfl, fun h => absurd h d3⟩
      · split
        · rename_i h1
          exact ⟨fun _ => k1.1, fun h => absurd h h1⟩
        · split
          · rename_i h2
            exact ⟨fun _ => k2.1, fun h => absurd h h2⟩
          · split
            · rename_i h3
              exact ⟨fun _ => k3.1, fun h => absurd h h3⟩
            · refine ⟨fun h => (i1 h).trans k3.1, fun h => ⟨?_, hcl⟩⟩
              rw [i2 h]
              exact set_state_request_congr _ _ _ _ _ k3.2

theorem set_state_frame_sample : set_state_frame sample_env :=
  ⟨fun _ => ⟨rfl, rfl⟩, fun _ => ⟨rfl, rfl⟩, fun _ => ⟨rfl, rfl⟩, fun _ _ => ⟨rfl, rfl⟩,
    fun _ _ _ => rfl, fun _ => ⟨rfl, rfl⟩, fun _ => ⟨rfl, rfl⟩⟩

/-- C27. `set_state`, the common code of TIOCSETA, TIOCSETAW and TIOCSETAF,
where the calls it makes leave the line modes and `external_processing` alone
and a successful `set_bits` hands back the modes it was given.  On a missing
session or one of another class it returns EOPNOTSUPP, on a session with
neither O_READ nor O_WRITE EBADF, on a background session EBACKGROUND, each
time leaving the state alone.  Whenever it returns a non-zero value,
`termstate` is as before and `S_tioctl_tiocgeta` (by any session) returns what
it returned before.  When it returns 0, with `NCCS` control characters
supplied, `S_tioctl_tiocgeta` by the same session returns the flag words,
control characters and speeds supplied, but for the local flags, which are
those supplied with the EXTPROC bit set if `external_processing` is non-zero
and clear if it is zero, every other bit as supplied. -/
theorem set_state_atomic (env : Env) (cred : trivfs_protid) (other : Option trivfs_protid)
    (modes ccs speeds : List Nat) (draino flushi : Int) (w : World)
    (hf : set_state_frame env) :
    set_state env none modes ccs speeds draino flushi w = (EOPNOTSUPP, w) ∧
    (cred.pi_class ≠ port_class.pty_class ∧ cred.pi_class ≠ port_class.tty_class →
      set_state env (some cred) modes ccs speeds draino flushi w = (EOPNOTSUPP, w)) ∧
    (¬ (cred.pi_class ≠ port_class.pty_class ∧ cred.pi_class ≠ port_class.tty_class) →
      cred.openmodes &&& (O_READ ||| O_WRITE) = 0 →
      set_state env (some cred) modes ccs speeds draino flushi w = (EBADF, w)) ∧
    (¬ (cred.pi_class ≠ port_class.pty_class ∧ cred.pi_class ≠ port_class.tty_class) →
      cred.openmodes &&& (O_READ ||| O_WRITE) ≠ 0 → fg_p w.g cred = 0 →
      set_state env (some cred) modes ccs speeds draino flushi w = (EBACKGROUND, w)) ∧
    ((set_state env (some cred) modes ccs speeds draino flushi w).1 ≠ 0 →
      (set_state env (some cred) modes ccs speeds draino flushi w).2.g.termstate
        = w.g.termstate ∧
      S_tioctl_tiocgeta other (set_state env (some cred) modes ccs speeds draino flushi w).2
        = S_tioctl_tiocgeta other w) ∧
    ((set_state env (some cred) modes ccs speeds draino flushi w).1 = 0 →
      ccs.length = NCCS →
      S_tioctl_tiocgeta (some cred)
          (set_state env (some cred) modes ccs speeds draino flushi w).2
        = (0, some
            ([modes.getD 0 0, modes.getD 1 0, modes.getD 2 0,
                if w.g.external_processing ≠ 0 then modes.getD 3 0 ||| EXTPROC
                else clear_bits (modes.getD 3 0) EXTPROC],
              ccs, [speeds.getD 0 0, speeds.getD 1 0]))) ∧
    ((modes.getD 3 0 ||| EXTPROC) &&& EXTPROC ≠ 0 ∧
      clear_bits (modes.getD 3 0) EXTPROC &&& EXTPROC = 0 ∧
      ∀ k, EXTPROC &&& k = 0 →
        (modes.getD 3 0 ||| EXTPROC) &&& k = modes.getD 3 0 &&& k ∧
        clear_bits (modes.getD 3 0) EXTPROC &&& k = modes.getD 3 0 &&& k) := by
  obtain ⟨r1, r2⟩ := set_state_result env cred modes ccs speeds draino flushi w hf
  refine ⟨rfl, fun hcl => ?_, fun hcl hm => ?_, fun hcl hm hfg => ?_,
    fun herr => ⟨r1 herr, tiocgeta_congr _ _ _ (r1 herr)⟩, fun herr hlen => ?_,
    ⟨?_, clear_bits_and_self _ _, fun k hk =>
      ⟨or_and_other _ _ _ hk, clear_bits_and_other _ _ _ hk⟩⟩⟩
  · simp only [set_state, if_pos hcl]
  · simp only [set_state, if_neg hcl, if_pos hm]
  · simp only [set_state, if_neg hcl, if_neg hm, if_pos hfg]
  · obtain ⟨e, hcl⟩ := r2 herr
    have htake : (ccs.take NCCS).take NCCS = ccs := by
      rw [List.take_take, Nat.min_self, ← hlen, List.take_length]
    unfold S_tioctl_tiocgeta
    simp only [if_neg hcl]
    rw [e]
    unfold set_state_request
    split
    · simp only [htake]
    · simp only [htake]
  · rw [or_and_self]
    decide

theorem set_state_atomic_witness :
    set_state_frame sample_env ∧
    S_tioctl_tiocgeta (some ⟨port_class.tty_class, O_READ, none⟩)
        (set_state sample_env (some ⟨port_class.tty_class, O_READ, none⟩)
          [1, 2, 3, ICANON ||| EXTPROC] ttydefchars [9600, 9600] 1 1 ⟨sample_globals, []⟩).2
      = (0, some ([1, 2, 3, ICANON], ttydefchars, [9600, 9600])) ∧
    (set_state { sample_env with set_bits := fun st g => ( ENXIO, st, g) }
        (some ⟨port_class.tty_class, O_READ, none⟩)
        [1, 2, 3, ICANON ||| EXTPROC] ttydefchars [9600, 9600] 1 1
        ⟨sample_globals, []⟩).2.g.termstate
      = sample_globals.termstate :=
  ⟨set_state_frame_sample,
   ((set_state_atomic sample_env ⟨port_class.tty_class, O_READ, none⟩ none
      [1, 2, 3, ICANON ||| EXTPROC] ttydefchars [9600, 9600] 1 1 ⟨sample_globals, []⟩
      set_state_frame_sample).2.2.2.2.2.1 (by decide) (by decide)).trans (by decide),
   ((set_state_atomic { sample_env with set_bits := fun st g => ( ENXIO, st, g) }
      ⟨port_class.tty_class, O_READ, none⟩ none
      [1, 2, 3, ICANON ||| EXTPROC] ttydefchars [9600, 9600] 1 1 ⟨sample_globals, []⟩
      ⟨fun _ => ⟨rfl, rfl⟩, fun _ => ⟨rfl, rfl⟩, fun _ => ⟨rfl, rfl⟩, fun _ _ => ⟨rfl, rfl⟩,
        fun _ _ h => absurd (show ENXIO = 0 from h) (by decide), fun _ => ⟨rfl, rfl⟩,
        fun _ => ⟨rfl, rfl⟩⟩).2.2.2.2.1
      (by decide)).1⟩

/-! ## The line discipline -/

/-- C28 (the code at the failing input).  `S_tioctl_tiocsetd` by a tty session
returns 0 for every line discipline, also for discipline 1, for which the
value it has computed in `err` is ENXIO; `S_tioctl_tiocgetd` reports
discipline 0. -/
theorem tiocsetd_returns_success (disc : Int) :
    S_tioctl_tiocsetd (some ⟨port_class.tty_class, O_READ, none⟩) disc = 0 ∧
    S_tioctl_tiocsetd (some ⟨port_class.pty_class, O_READ, none⟩) disc = 0 ∧
    S_tioctl_tiocsetd (some ⟨port_class.tty_class, O_READ, none⟩) 1 = 0 ∧
    tiocsetd_err 1 = ENXIO ∧ tiocsetd_err 0 = 0 ∧
    tiocsetd_err disc = (if disc = 0 then 0 else ENXIO) ∧
    S_tioctl_tiocgetd (some ⟨port_class.tty_class, O_READ, none⟩) = (0, some 0) := by
  refine ⟨rfl, rfl, rfl, by decide, by decide, ?_, rfl⟩
  unfold tiocsetd_err
  by_cases h : disc = 0
  · rw [if_neg (fun h1 => h1 h), if_pos h]
  · rw [if_pos h, if_neg h]

/-! ## The flags chosen by settrans -/

/-- C29 (the code at the failing input).  `settrans` with `--stack` on the
initial context, whose lookup flags are O_NOTRANS: the underlying node is the
node itself and the flags it is looked up with are 1, where
`lookup_flags & ~O_NOTRANS` is 0; with `--create` as well they are 1 again,
where `lookup_flags & ~O_NOTRANS` is O_CREAT.  For every context with `stack`
set the flags are 1 if `lookup_flags` is non-zero and 0 otherwise (the value of
`lookup_flags && ~O_NOTRANS`); with `stack` clear they are `lookup_flags`. -/
theorem settrans_stack_lookup_flags (context : settrans_context) :
    (settrans_flags (parse_opt settrans_option.stack
        (settrans_context_init "node"))).underlying_lookup_flags = 1 ∧
    int_and (settrans_context_init "node").lookup_flags (int_not O_NOTRANS) = 0 ∧
    (settrans_flags (parse_opt settrans_option.stack
        (settrans_context_init "node"))).underlying_node_name = some "node" ∧
    (settrans_flags (parse_opt settrans_option.stack (parse_opt settrans_option.create
        (settrans_context_init "node")))).underlying_lookup_flags = 1 ∧
    int_and (parse_opt settrans_option.create (settrans_context_init "node")).lookup_flags
        (int_not O_NOTRANS) = O_CREAT ∧
    (settrans_flags context).underlying_lookup_flags
      = (if context.stack ≠ 0 then (if context.lookup_flags ≠ 0 then 1 else 0)
         else context.lookup_flags) := by
  refine ⟨by decide, by decide, by decide, by decide, by decide, ?_⟩
  have hn : int_not O_NOTRANS ≠ 0 := by decide
  unfold settrans_flags
  simp only
  by_cases hs : context.stack ≠ 0
  · rw [if_pos hs, if_pos hs]
    unfold int_land
    by_cases hl : context.lookup_flags ≠ 0
    · rw [if_pos ⟨hl, hn⟩, if_pos hl]
    · rw [if_neg (fun h => hl h.1), if_neg hl]
  · rw [if_neg hs, if_neg hs]

theorem fs_trans_or :
    int_or FS_TRANS_SET 0 = FS_TRANS_SET ∧
    int_or FS_TRANS_SET FS_TRANS_EXCL = FS_TRANS_SET + FS_TRANS_EXCL ∧
    int_or (int_or FS_TRANS_SET 0) 0 = FS_TRANS_SET ∧
    int_or (int_or FS_TRANS_SET FS_TRANS_EXCL) 0 = FS_TRANS_SET + FS_TRANS_EXCL ∧
    int_or (int_or FS_TRANS_SET 0) FS_TRANS_ORPHAN = FS_TRANS_SET + FS_TRANS_ORPHAN ∧
    int_or (int_or FS_TRANS_SET FS_TRANS_EXCL) FS_TRANS_ORPHAN
      = FS_TRANS_SET + FS_TRANS_EXCL + FS_TRANS_ORPHAN := by
  refine ⟨?_, ?_, ?_, ?_, ?_, ?_⟩ <;> decide

/-- C30. The translator flags `settrans` chooses, for every context.  Passive
applies when it is asked for, or when neither active nor a chroot command is;
the passive flags are FS_TRANS_SET, plus FS_TRANS_EXCL if `excl` is set, when
passive applies and 0 otherwise.  When active is asked for, the active flags
are FS_TRANS_SET plus FS_TRANS_EXCL if `excl` is set plus FS_TRANS_ORPHAN if
`orphan` is set.  When it is not and passive applies, they are FS_TRANS_SET
if `kill_active` is set, 0 if `keep_active` is set and `kill_active` is not,
and FS_TRANS_SET plus FS_TRANS_EXCL otherwise; with a chroot command alone
they are 0. -/
theorem settrans_flag_selection (context : settrans_context) :
    ((settrans_flags context).passive ≠ 0
      ↔ (context.passive ≠ 0 ∨ (context.active = 0 ∧ context.chroot_command = none))) ∧
    (settrans_flags context).passive_flags
      = (if (settrans_flags context).passive ≠ 0 then
          FS_TRANS_SET + (if context.excl ≠ 0 then FS_TRANS_EXCL else 0)
         else 0) ∧
    (settrans_flags context).active_flags
      = (if context.active ≠ 0 then
          FS_TRANS_SET + (if context.excl ≠ 0 then FS_TRANS_EXCL else 0)
            + (if context.orphan ≠ 0 then FS_TRANS_ORPHAN else 0)
         else if (settrans_flags context).passive ≠ 0 then
          (if context.kill_active ≠ 0 then FS_TRANS_SET
           else if context.keep_active ≠ 0 then 0
           else FS_TRANS_SET + FS_TRANS_EXCL)
         else 0) := by
  obtain ⟨o1, o2, o3, o4, o5, o6⟩ := fs_trans_or
  have hpas : (settrans_flags context).passive
      = (if context.active = 0 ∧ context.passive = 0 ∧ context.chroot_command = none then 1
         else context.passive) := rfl
  have hpf : (settrans_flags context).passive_flags
      = (if (settrans_flags context).passive ≠ 0 then
          int_or FS_TRANS_SET (if context.excl ≠ 0 then FS_TRANS_EXCL else 0)
         else 0) := rfl
  have haf : (settrans_flags context).active_flags
      = (if (settrans_flags context).passive ≠ 0 ∧ context.active = 0 then
          if context.kill_active ≠ 0 then FS_TRANS_SET
          else if context.keep_active = 0 then int_or FS_TRANS_SET FS_TRANS_EXCL
          else
            (if context.active ≠ 0 then
              int_or (int_or FS_TRANS_SET (if context.excl ≠ 0 then FS_TRANS_EXCL else 0))
                (if context.orphan ≠ 0 then FS_TRANS_ORPHAN else 0)
             else 0)
         else
          (if context.active ≠ 0 then
            int_or (int_or FS_TRANS_SET (if context.excl ≠ 0 then FS_TRANS_EXCL else 0))
              (if context.orphan ≠ 0 then FS_TRANS_ORPHAN else 0)
           else 0)) := rfl
  refine ⟨?_, ?_, ?_⟩
  · rw [hpas]
    by_cases ha : context.active = 0 <;> by_cases hp : context.passive = 0 <;>
      by_cases hc : context.chroot_command = none <;> simp [ha, hp, hc]
  · rw [hpf]
    by_cases hx : context.excl ≠ 0
    · simp only [if_pos hx, o2]
    · simp only [if_neg hx, o1, add_zero]
  · rw [haf]
    by_cases ha : context.active = 0
    · have ha' : ¬ (context.active ≠ 0) := fun h => h ha
      by_cases hp : (settrans_flags context).passive ≠ 0
      · have hpa : (settrans_flags context).passive ≠ 0 ∧ context.active = 0 := ⟨hp, ha⟩
        by_cases hk : context.kill_active ≠ 0
        · simp only [if_pos hpa, if_neg ha', if_pos hp, if_pos hk]
        · by_cases hke : context.keep_active = 0
          · have hke' : ¬ (context.keep_active ≠ 0) := fun h => h hke
            simp only [if_pos hpa, if_neg ha', if_pos hp, if_neg hk, if_pos hke, if_neg hke', o2]
          · have hke' : context.keep_active ≠ 0 := hke
            simp only [if_pos hpa, if_neg ha', if_pos hp, if_neg hk, if_neg hke, if_pos hke']
      · have hpa : ¬ ((settrans_flags context).passive ≠ 0 ∧ context.active = 0) :=
          fun h => hp h.1
        simp only [if_neg hpa, if_neg ha', if_neg hp]
    · have ha' : context.active ≠ 0 := ha
      have hpa : ¬ ((settrans_flags context).passive ≠ 0 ∧ context.active = 0) :=
        fun h => ha h.2
      simp only [if_neg hpa, if_pos ha']
      by_cases hx : context.excl ≠ 0 <;> by_cases ho : context.orphan ≠ 0
      · simp only [if_pos hx, if_pos ho, o6]
      · simp only [if_pos hx, if_neg ho, o4, add_zero]
      · simp only [if_neg hx, if_pos ho, o5, add_zero]
      · simp only [if_neg hx, if_neg ho, o3, add_zero]

end HurdTerm
